import Mathlib

/-!
# The `mac` virtual machine (`12_Funcs/Ex/5/Source.cpp`)

A shallow embedding of the register-augmented stack machine: the global
arrays `stack`, `registers` and `instructions`, the flags `running` and
`is_jmp`, the dispatcher `eval`, the loader and the execution loop of `main`.

Conventions of the embedding.

* A C++ `int` is an `Int`; every `+`, `-`, `*` of the source is followed by
  `wrap32`, the 32-bit two's-complement wraparound.  `/` is `Int.tdiv`
  (truncation toward zero) and stops with a fault when the divisor is `0` or
  when the quotient `INT_MIN / -1` is not representable.
* The fixed arrays `stack[STACK_SIZE]` and `registers[REGISTER_SIZE]` are
  total maps `Int → Int`; every access whose index comes from the machine
  state goes through an accessor that checks the index against the array
  bound and stops with a fault outside it.
* The heap array `instructions` is a list of cells, `none` being a cell of a
  freshly allocated array that was never written (an indeterminate value).
* A fault carries the machine state at the point where it happened.
* The text written by `printf` is not part of the modelled state.
-/

namespace VM

/-- The 32-bit two's-complement value of an exact integer result. -/
def wrap32 (x : Int) : Int := (x + 2147483648) % 4294967296 - 2147483648

def INT_MIN : Int := -2147483648

def INT_MAX : Int := 2147483647

/-- From the source: `constexpr size_t STACK_SIZE = 256;` -/
def STACK_SIZE : Int := 256

/-- The enumeration `enum Instructions`; `other` is a value of the enumeration type that names
no enumerator (what `static_cast<Instructions>` gives for any other integer). -/
inductive Instructions where
  | HLT | PSH | POP | ADD | MUL | DIV | SUB | SLT
  | MOV | SET | LOG | IF | IFN | GLD | GPT | NOP
  | other (code : Int)
  deriving DecidableEq, Repr

namespace Instructions

/-- The integer value of an enumerator. -/
def toInt : Instructions → Int
  | HLT => 0 | PSH => 1 | POP => 2 | ADD => 3 | MUL => 4 | DIV => 5
  | SUB => 6 | SLT => 7 | MOV => 8 | SET => 9 | LOG => 10 | IF => 11
  | IFN => 12 | GLD => 13 | GPT => 14 | NOP => 15 | other c => c

/-- From the source: `static_cast<Instructions>(i)`. -/
def ofInt (i : Int) : Instructions :=
  if i = 0 then HLT else if i = 1 then PSH else if i = 2 then POP
  else if i = 3 then ADD else if i = 4 then MUL else if i = 5 then DIV
  else if i = 6 then SUB else if i = 7 then SLT else if i = 8 then MOV
  else if i = 9 then SET else if i = 10 then LOG else if i = 11 then IF
  else if i = 12 then IFN else if i = 13 then GLD else if i = 14 then GPT
  else if i = 15 then NOP else other i

end Instructions

/-! The enumerators of `enum Registers`, as the integers they stand for. -/

namespace Registers

def A : Int := 0

def B : Int := 1

def C : Int := 2

def D : Int := 3

def E : Int := 4

def F : Int := 5

def I : Int := 6

def J : Int := 7

def EX : Int := 8

def EXA : Int := 9

def IP : Int := 10

def SP : Int := 11

def Last : Int := 12

end Registers

/-- From the source: `constexpr size_t REGISTER_SIZE = static_cast<size_t>(Last);` -/
def REGISTER_SIZE : Int := Registers.Last

/-- The global variables of the program that the dispatcher reads and writes. -/
structure State where
  stack : Int → Int
  registers : Int → Int
  instructions : List (Option Int)
  instruction_count : Int
  running : Bool
  is_jmp : Bool

/-- The ways an access or a division of the source has no defined result. -/
inductive Fault where
  | stack_index
  | register_index
  | instruction_index
  | indeterminate_cell
  | divide_by_zero
  | divide_overflow
  deriving DecidableEq, Repr

/-- Result of a piece of code: the value, or a fault and the state it happened in. -/
abbrev Res (α : Type) := Except (Fault × State) α

/-- From the source: `inline int sp()` -/
def sp (s : State) : Int := s.registers Registers.SP

/-- From the source: `inline int ip()` -/
def ip (s : State) : Int := s.registers Registers.IP

/-- The assignment `registers[r] = v` for an index `r` known to be in range. -/
def reg_assign (s : State) (r v : Int) : State :=
  { s with registers := fun j => if j = r then v else s.registers j }

/-- From the source: `inline void sp(int i)` -/
def set_sp (s : State) (i : Int) : State := reg_assign s Registers.SP i

/-- From the source: `inline void ip(int i)` -/
def set_ip (s : State) (i : Int) : State := reg_assign s Registers.IP i

/-- The read `instructions[i]`. -/
def instr_at (s : State) (i : Int) : Res Int :=
  if 0 ≤ i then
    match s.instructions[i.toNat]? with
    | some (some v) => .ok v
    | some none => .error (Fault.indeterminate_cell, s)
    | none => .error (Fault.instruction_index, s)
  else .error (Fault.instruction_index, s)

/-- The read `stack[i]`. -/
def stack_get (s : State) (i : Int) : Res Int :=
  if 0 ≤ i ∧ i < STACK_SIZE then .ok (s.stack i) else .error (Fault.stack_index, s)

/-- The write `stack[i] = v`. -/
def stack_put (s : State) (i v : Int) : Res State :=
  if 0 ≤ i ∧ i < STACK_SIZE then
    .ok { s with stack := fun j => if j = i then v else s.stack j }
  else .error (Fault.stack_index, s)

/-- The read `registers[r]` for an index taken from the program. -/
def reg_get (s : State) (r : Int) : Res Int :=
  if 0 ≤ r ∧ r < REGISTER_SIZE then .ok (s.registers r) else .error (Fault.register_index, s)

/-- The write `registers[r] = v` for an index taken from the program. -/
def reg_put (s : State) (r v : Int) : Res State :=
  if 0 ≤ r ∧ r < REGISTER_SIZE then .ok (reg_assign s r v) else .error (Fault.register_index, s)

/-- The C++ `int` division `b / a`. -/
def int_div (s : State) (b a : Int) : Res Int :=
  if a = 0 then .error (Fault.divide_by_zero, s)
  else if b = INT_MIN ∧ a = -1 then .error (Fault.divide_overflow, s)
  else .ok (Int.tdiv b a)

/-- From the source: `inline Instructions fetch()` -/
def fetch (s : State) : Res Instructions := do
  let v ← instr_at s (ip s)
  pure (Instructions.ofInt v)

/-- From the source: `void eval(Instructions instr)` -/
def eval (instr : Instructions) (s0 : State) : Res State :=
  let s := { s0 with is_jmp := false }
  match instr with
  | .HLT => pure { s with running := false }
  | .PSH => do
    let s := set_sp s (wrap32 (sp s + 1))
    let s := set_ip s (wrap32 (ip s + 1))
    let v ← instr_at s (ip s)
    stack_put s (sp s) v
  | .POP => pure (set_sp s (wrap32 (sp s - 1)))
  | .ADD => do
    let a ← stack_get s (sp s)
    let s := reg_assign s Registers.A a
    let s := set_sp s (wrap32 (sp s - 1))
    let b ← stack_get s (sp s)
    let s := reg_assign s Registers.B b
    let s := reg_assign s Registers.C
      (wrap32 (s.registers Registers.B + s.registers Registers.A))
    stack_put s (sp s) (s.registers Registers.C)
  | .MUL => do
    let a ← stack_get s (sp s)
    let s := reg_assign s Registers.A a
    let s := set_sp s (wrap32 (sp s - 1))
    let b ← stack_get s (sp s)
    let s := reg_assign s Registers.B b
    let s := reg_assign s Registers.C
      (wrap32 (s.registers Registers.B * s.registers Registers.A))
    stack_put s (sp s) (s.registers Registers.C)
  | .DIV => do
    let a ← stack_get s (sp s)
    let s := reg_assign s Registers.A a
    let s := set_sp s (wrap32 (sp s - 1))
    let b ← stack_get s (sp s)
    let s := reg_assign s Registers.B b
    let q ← int_div s (s.registers Registers.B) (s.registers Registers.A)
    let s := reg_assign s Registers.C q
    stack_put s (sp s) (s.registers Registers.C)
  | .SUB => do
    let a ← stack_get s (sp s)
    let s := reg_assign s Registers.A a
    let s := set_sp s (wrap32 (sp s - 1))
    let b ← stack_get s (sp s)
    let s := reg_assign s Registers.B b
    let s := reg_assign s Registers.C
      (wrap32 (s.registers Registers.B - s.registers Registers.A))
    stack_put s (sp s) (s.registers Registers.C)
  | .SLT => do
    let s := set_sp s (wrap32 (sp s - 1))
    let x ← stack_get s (wrap32 (sp s + 1))
    let y ← stack_get s (sp s)
    stack_put s (sp s) (if x < y then 1 else 0)
  | .MOV => do
    let src ← instr_at s (wrap32 (ip s + 1))
    let v ← reg_get s src
    let dst ← instr_at s (wrap32 (ip s + 2))
    let s ← reg_put s dst v
    pure (set_ip s (wrap32 (ip s + 2)))
  | .SET => do
    let v ← instr_at s (wrap32 (ip s + 2))
    let r ← instr_at s (wrap32 (ip s + 1))
    let s ← reg_put s r v
    pure (set_ip s (wrap32 (ip s + 2)))
  | .LOG => do
    let r ← instr_at s (wrap32 (ip s + 1))
    let _ ← reg_get s r
    pure (set_ip s (wrap32 (ip s + 1)))
  | .IF => do
    let r ← instr_at s (wrap32 (ip s + 1))
    let x ← reg_get s r
    let v ← instr_at s (wrap32 (ip s + 2))
    if x = v then
      let t ← instr_at s (wrap32 (ip s + 3))
      let s := set_ip s t
      pure { s with is_jmp := true }
    else
      pure (set_ip s (wrap32 (ip s + 3)))
  | .IFN => do
    let r ← instr_at s (wrap32 (ip s + 1))
    let x ← reg_get s r
    let v ← instr_at s (wrap32 (ip s + 2))
    if x ≠ v then
      let t ← instr_at s (wrap32 (ip s + 3))
      let s := set_ip s t
      pure { s with is_jmp := true }
    else
      pure (set_ip s (wrap32 (ip s + 3)))
  | .GLD => do
    let s := set_sp s (wrap32 (sp s + 1))
    let s := set_ip s (wrap32 (ip s + 1))
    let r ← instr_at s (ip s)
    let v ← reg_get s r
    stack_put s (sp s) v
  | .GPT => do
    let v ← stack_get s (sp s)
    let r ← instr_at s (wrap32 (ip s + 1))
    let s ← reg_put s r v
    pure (set_ip s (wrap32 (ip s + 1)))
  | .NOP => pure s
  | .other _ => pure s

/-- The body of the execution loop of `main`:
`eval(fetch()); if (!is_jmp) { ip(ip() + 1); }` -/
def cycle (s : State) : Res State := do
  let instr ← fetch s
  let s ← eval instr s
  if !s.is_jmp then pure (set_ip s (wrap32 (ip s + 1))) else pure s

/-- How a bounded run of the execution loop ends. -/
inductive Outcome where
  | finished (s : State)
  | faulted (f : Fault) (s : State)
  | out_of_fuel (s : State)

/-- From the source: `while (running && ip() < instruction_count) { ... }`,
run for at most `fuel` iterations. -/
def loop : Nat → State → Outcome
  | fuel, s =>
    if s.running = true ∧ ip s < s.instruction_count then
      match fuel with
      | 0 => Outcome.out_of_fuel s
      | fuel + 1 =>
        match cycle s with
        | .ok s' => loop fuel s'
        | .error (f, s') => Outcome.faulted f s'
    else Outcome.finished s

/-- The globals after static initialisation and `sp(-1)`, for a program store
`instructions` with `instruction_count` valid cells. -/
def init (instructions : List (Option Int)) (instruction_count : Int) : State :=
  set_sp
    { stack := fun _ => 0
      registers := fun _ => 0
      instructions := instructions
      instruction_count := instruction_count
      running := true
      is_jmp := false }
    (-1)

/-- The state the execution loop starts from when the program store holds
exactly the cells `prog`. -/
def boot (prog : List Int) : State := init (prog.map some) prog.length

/-- The loader's variables: `instructions`, `instruction_space` and `i`. -/
structure Loader where
  instructions : List (Option Int)
  instruction_space : Int
  i : Int
  deriving DecidableEq, Repr

/-- From the source: `new int[n]`: an array of `n` cells with indeterminate values. -/
def new_int (n : Int) : List (Option Int) := List.replicate n.toNat none

/-- The loader before the first read:
`instruction_space = 4; instructions = new int[instruction_space]; i = 0`. -/
def Loader.start : Loader :=
  { instructions := new_int 4, instruction_space := 4, i := 0 }

/-- One iteration of the read loop for a successfully read `num`. -/
def load_step (l : Loader) (num : Int) : Except Fault Loader :=
  if 0 ≤ l.i ∧ l.i.toNat < l.instructions.length then
    let cells := l.instructions.set l.i.toNat (some num)
    let i := wrap32 (l.i + 1)
    if i ≥ l.instruction_space then
      let space := wrap32 (l.instruction_space * 2)
      .ok { instructions := new_int space, instruction_space := space, i := i }
    else .ok { instructions := cells, instruction_space := l.instruction_space, i := i }
  else .error Fault.instruction_index

/-- The read loop of `main` over the integers `fscanf` delivers. -/
def load_from : Loader → List Int → Except Fault Loader
  | l, [] => .ok l
  | l, num :: rest =>
    match load_step l num with
    | .ok l' => load_from l' rest
    | .error f => .error f

/-- The loader of `main` on a file holding the integers `file`. -/
def load (file : List Int) : Except Fault Loader := load_from Loader.start file

/-- The state of `main` when the execution loop is entered. -/
def loaded (l : Loader) : State := init l.instructions l.i

/-! ## Programs, states and predicates used in the statements -/

/-- The program `PSH v1, PSH v2, ..., PSH vn`. -/
def psh_program : List Int → List Int
  | [] => []
  | v :: vs => Instructions.PSH.toInt :: v :: psh_program vs

/-- Loop invariant of a run of `psh_program vs` after `k` instructions. -/
def psh_inv (vs : List Int) (k : Nat) (s : State) : Prop :=
  s.instructions = (psh_program vs).map some ∧
  s.instruction_count = 2 * (vs.length : Int) ∧
  s.running = true ∧
  ip s = 2 * (k : Int) ∧
  sp s = (k : Int) - 1 ∧
  ∀ i (h : i < vs.length), i < k → s.stack (i : Int) = vs.get ⟨i, h⟩

/-- Effect of a binary stack instruction that leaves `result` on the stack: the
stack pointer is one less, the new top cell holds `result`, every other stack
cell is as before. -/
def binop_effect (s s' : State) (result : Int) : Prop :=
  sp s' = sp s - 1 ∧ s'.stack (sp s - 1) = result ∧
    ∀ j, j ≠ sp s - 1 → s'.stack j = s.stack j

/-- The program `PSH a, PSH b, <op>, HLT` for an opcode `op` without operands. -/
def binop_program (op : Instructions) (a b : Int) : List Int :=
  [Instructions.PSH.toInt, a, Instructions.PSH.toInt, b, op.toInt, Instructions.HLT.toInt]

/-- A machine state holding two stack elements, `stack[0] = x` and `stack[1] = y`
(so `SP = 1`), with every other cell and register zero. -/
def two_cell_state (x y : Int) : State :=
  { stack := fun j => if j = 0 then x else if j = 1 then y else 0
    registers := fun j => if j = Registers.SP then 1 else 0
    instructions := []
    instruction_count := 0
    running := true
    is_jmp := false }

/-- The program `PSH a, PSH b, SLT`. -/
def slt_program (a b : Int) : List Int :=
  [Instructions.PSH.toInt, a, Instructions.PSH.toInt, b, Instructions.SLT.toInt]

/-- Everything the dispatcher can change, other than the instruction pointer
(and the per-cycle flag `is_jmp`), is the same in `s'` as in `s`: every stack
cell, every register other than `IP`, the program store and `running`. -/
def same_but_ip (s s' : State) : Prop :=
  s'.stack = s.stack ∧ (∀ j, j ≠ Registers.IP → s'.registers j = s.registers j) ∧
    s'.instructions = s.instructions ∧ s'.instruction_count = s.instruction_count ∧
    s'.running = s.running

/-- A machine state at `IP = 0` whose program store is the single instruction
`op r v t` (an opcode with three operands) and whose register `A` holds `x`. -/
def jump_state (op r v t x : Int) : State :=
  { stack := fun _ => 0
    registers := fun j => if j = Registers.A then x else if j = Registers.SP then -1 else 0
    instructions := [some op, some r, some v, some t]
    instruction_count := 4
    running := true
    is_jmp := false }

/-- The file `1 3 1 4 3 0`, the six integers of `PSH 3, PSH 4, ADD, HLT`. -/
def six_cell_file : List Int := [1, 3, 1, 4, 3, 0]

/-- A machine state at `IP = 0` whose program store is the three cells
`op x y` and whose registers `A` and `B` hold `7` and `8`. -/
def three_cell_state (op x y : Int) : State :=
  { stack := fun _ => 0
    registers := fun j =>
      if j = Registers.A then 7 else if j = Registers.B then 8
      else if j = Registers.SP then -1 else 0
    instructions := [some op, some x, some y]
    instruction_count := 3
    running := true
    is_jmp := false }

/-- A machine state at `IP = 0` whose program store is `cells`, with one stack
element `stack[0] = x` (so `SP = 0`) and with register `D` holding `d`. -/
def one_cell_state (cells : List Int) (x d : Int) : State :=
  { stack := fun j => if j = 0 then x else 0
    registers := fun j => if j = Registers.D then d else 0
    instructions := cells.map some
    instruction_count := cells.length
    running := true
    is_jmp := false }

/-- The file `9 10 -5`, the three integers of `SET IP -5`. -/
def set_ip_file : List Int := [9, 10, -5]

/-- The loader's variables after reading `set_ip_file`. -/
def set_ip_loaded : Loader :=
  { instructions := [some 9, some 10, some (-5), none], instruction_space := 4, i := 3 }

/-- The program `IF A 0 -5`: a conditional jump to the negative target `-5`
that is taken in the initial state, where register `A` holds `0`. -/
def negative_target_program : List Int :=
  [Instructions.IF.toInt, Registers.A, 0, -5]

/-- The machine state a piece of code ends in: the state of its result, or the
state at the point of the fault. -/
def end_state : Res State → State
  | .ok s => s
  | .error (_, s) => s

/-- Operand count of each opcode as the statement about the advance of the
instruction pointer gives it: the number of inline cells after the opcode. -/
def claimed_operand_count : Instructions → Int
  | .HLT | .POP | .ADD | .SUB | .MUL | .DIV | .SLT | .NOP | .other _ => 0
  | .PSH | .LOG | .GLD | .GPT => 1
  | .MOV | .SET => 2
  | .IF | .IFN => 3

/-- The file `9 10 v`, the three integers of `SET IP v`. -/
def set_ip_file_with (v : Int) : List Int := [9, 10, v]

/-- The loader's variables after reading `set_ip_file_with v`. -/
def set_ip_store (v : Int) : Loader :=
  { instructions := [some 9, some 10, some v, none], instruction_space := 4, i := 3 }

/-- Conditions on the state under which the instruction `instr` at position `p`
executes to the end without a fault, without taking a branch and without
writing `IP`: its operand cells are in the store, its register operands are
valid indices (the destination of `MOV`, `SET`, `GPT` not being `IP`), the stack
pointer leaves room for what it pops or pushes, the divisor of `DIV` is
non-zero (the pair `INT_MIN`, `-1` apart), and the condition of an `IF` or `IFN`
does not hold. -/
def executes_plainly (s : State) (p : Nat) : Instructions → Prop
  | .HLT | .POP | .NOP | .other _ => True
  | .PSH => (∃ v, s.instructions[p + 1]? = some (some v)) ∧ -1 ≤ sp s ∧ sp s < 255
  | .ADD | .SUB | .MUL | .SLT => 1 ≤ sp s ∧ sp s ≤ 255
  | .DIV =>
    1 ≤ sp s ∧ sp s ≤ 255 ∧ s.stack (sp s) ≠ 0 ∧
      ¬ (s.stack (sp s - 1) = INT_MIN ∧ s.stack (sp s) = -1)
  | .MOV =>
    ∃ x y, s.instructions[p + 1]? = some (some x) ∧ s.instructions[p + 2]? = some (some y) ∧
      (0 ≤ x ∧ x < REGISTER_SIZE) ∧ (0 ≤ y ∧ y < REGISTER_SIZE) ∧ y ≠ Registers.IP
  | .SET =>
    ∃ r v, s.instructions[p + 1]? = some (some r) ∧ s.instructions[p + 2]? = some (some v) ∧
      (0 ≤ r ∧ r < REGISTER_SIZE) ∧ r ≠ Registers.IP
  | .LOG => ∃ r, s.instructions[p + 1]? = some (some r) ∧ (0 ≤ r ∧ r < REGISTER_SIZE)
  | .IF =>
    ∃ r v t, s.instructions[p + 1]? = some (some r) ∧ s.instructions[p + 2]? = some (some v) ∧
      s.instructions[p + 3]? = some (some t) ∧ (0 ≤ r ∧ r < REGISTER_SIZE) ∧
      s.registers r ≠ v
  | .IFN =>
    ∃ r v t, s.instructions[p + 1]? = some (some r) ∧ s.instructions[p + 2]? = some (some v) ∧
      s.instructions[p + 3]? = some (some t) ∧ (0 ≤ r ∧ r < REGISTER_SIZE) ∧
      s.registers r = v
  | .GLD =>
    ∃ r, s.instructions[p + 1]? = some (some r) ∧ (0 ≤ r ∧ r < REGISTER_SIZE) ∧
      -1 ≤ sp s ∧ sp s < 255
  | .GPT =>
    ∃ r, s.instructions[p + 1]? = some (some r) ∧ (0 ≤ r ∧ r < REGISTER_SIZE) ∧
      r ≠ Registers.IP ∧ 0 ≤ sp s ∧ sp s < 256

end VM

/-!
# The exception-safe vector (`13_Exceptions/Ex/5/Vector.h`)

A shallow embedding of `vector_base` and of the members of `vector` that
`reserve`, `resize`, `push_back` and `pop_back` are made of.

* The allocation that `elem` points to is a list of cells, `none` being raw
  storage that holds no object; `space` and `last` are kept as offsets from
  `elem`, so that `size()` is `space` and `capacity()` is `last`.
* The element type `T` is any type; copying or moving an element cannot fail
  and the allocator always delivers, so the only exceptions are the ones the
  source throws itself.
* The parameter `const T& val` of `push_back` is an `Argument`: a reference to
  an object outside the vector, or to one of its own elements; `push_back` reads
  it where the source does, after `reserve`.
* A member function returns the vector it leaves behind, or a failure together
  with the vector at the throw.  `outside_storage` stands for an access the
  source does not check: a cell outside the allocation, a cell of storage
  that has been released, or a cell without an object where one is read or
  destroyed.
-/

namespace Vec

/-- The exceptions of the source, `RangeException` and `SizeException` with their
message, and the unchecked access outside the storage. -/
inductive Failure where
  | RangeException (msg : String)
  | SizeException (msg : String)
  | outside_storage
  deriving DecidableEq, Repr

/-- The memory structure `vector_base`: the cells of the allocation at `elem`,
and the offsets `space - elem` and `last - elem`. -/
structure vector_base (T : Type) where
  elem : List (Option T)
  space : Nat
  last : Nat
  deriving DecidableEq, Repr

/-- The constructor `vector_base(a, n)`: `n` raw cells, `space = last = elem + n`. -/
def vector_base.create {T : Type} (n : Nat) : vector_base T :=
  { elem := List.replicate n none, space := n, last := n }

/-- The class `vector`, whose only data member is `vb`. -/
structure vector (T : Type) where
  vb : vector_base T
  deriving DecidableEq, Repr

/-- Result of a member function: a value, or a failure and the vector at the throw. -/
abbrev Res (T : Type) (α : Type) := Except (Failure × vector T) α

variable {T : Type}

/-- The member `size()`: `vb.space - vb.elem`. -/
def size (v : vector T) : Nat := v.vb.space

/-- The member `capacity()`: `vb.last - vb.elem`. -/
def capacity (v : vector T) : Nat := v.vb.last

/-- The private member `check_range(pos)`. -/
def check_range (v : vector T) (pos : Nat) : Res T Unit :=
  if pos ≥ size v then
    .error (Failure.RangeException
      ("Index " ++ toString pos ++ " is out of range [0:" ++ toString (size v) ++ ")"), v)
  else .ok ()

/-- The member `at(pos)`. -/
def at_pos (v : vector T) (pos : Nat) : Res T T := do
  check_range v pos
  match v.vb.elem[pos]? with
  | some (some x) => .ok x
  | _ => .error (Failure.outside_storage, v)

/-- The private member `uninitialized_move(b, e, oo)` for `count = e - b` cells:
each object of the source range is move-constructed into the destination and
destroyed in the source.  The result is the source and the destination cells. -/
def uninitialized_move :
    Nat → List (Option T) → Nat → List (Option T) → Nat →
      Option (List (Option T) × List (Option T))
  | 0, src, _, dst, _ => some (src, dst)
  | count + 1, src, b, dst, oo =>
    match src[b]? with
    | some (some x) =>
      if oo < dst.length then
        uninitialized_move count (src.set b none) (b + 1) (dst.set oo (some x)) (oo + 1)
      else none
    | _ => none

/-- The private member `destroy(b, e)` for `count = e - b` cells. -/
def destroy : Nat → List (Option T) → Nat → Option (List (Option T))
  | 0, cells, _ => some cells
  | count + 1, cells, b =>
    match cells[b]? with
    | some (some _) => destroy count (cells.set b none) (b + 1)
    | _ => none

/-- The library call `std::uninitialized_fill(first, last, val)` for
`count = last - first` cells. -/
def uninitialized_fill : Nat → List (Option T) → Nat → T → Option (List (Option T))
  | 0, cells, _, _ => some cells
  | count + 1, cells, first, val =>
    if first < cells.length then
      uninitialized_fill count (cells.set first (some val)) (first + 1) val
    else none

/-- The member `reserve(n)`. -/
def reserve (v : vector T) (n : Nat) : Res T (vector T) :=
  if n ≤ capacity v then .ok v
  else
    let b : vector_base T := vector_base.create n
    match uninitialized_move (size v) v.vb.elem 0 b.elem 0 with
    | some (_, cells) =>
      let b := { b with elem := cells, space := size v }
      .ok { vb := b }
    | none => .error (Failure.outside_storage, v)

/-- The member `resize(n, val)`, for a `val` outside the storage of the vector
(as the default argument `T{}` is). -/
def resize (v0 : vector T) (n : Nat) (val : T) : Res T (vector T) := do
  let v ← reserve v0 n
  let r :=
    if size v < n then uninitialized_fill (n - size v) v.vb.elem (size v) val
    else destroy (size v - n) v.vb.elem n
  match r with
  | some cells => .ok { vb := { elem := cells, space := n, last := n } }
  | none => .error (Failure.outside_storage, v)

/-- What the parameter `const T& val` of `push_back` is bound to: an object that
lives outside the storage of the vector, or the element `vb.elem[i]` of the
vector the member is called on. -/
inductive Argument (T : Type) where
  | object (x : T)
  | element (i : Nat)
  deriving DecidableEq, Repr

/-- The storage that `vb.elem` pointed to before the call `reserve(n)`, as it is
after the call: untouched when `n <= capacity()`; otherwise every object in it
has been moved from and destroyed and the storage itself deallocated, so that no
cell of it is left. -/
def storage_after_reserve (v0 : vector T) (n : Nat) : List (Option T) :=
  if n ≤ capacity v0 then v0.vb.elem else []

/-- The read of `val` through the reference: the outside object, or what the
storage referred to holds at index `i` at the time of the read. -/
def read_argument (referred : List (Option T)) : Argument T → Option T
  | .object x => some x
  | .element i => referred.getD i none

/-- The member `push_back(val)`: `val` is read by `construct`, after `reserve`. -/
def push_back (v0 : vector T) (val : Argument T) : Res T (vector T) := do
  let sz := size v0
  let n := if sz ≠ 0 then sz * 2 else 8
  let v ← if capacity v0 = sz then reserve v0 n else pure v0
  let referred := if capacity v0 = sz then storage_after_reserve v0 n else v0.vb.elem
  if sz < v.vb.elem.length then
    match read_argument referred val with
    | some x =>
      .ok { vb := { v.vb with elem := v.vb.elem.set sz (some x), space := v.vb.space + 1 } }
    | none => .error (Failure.outside_storage, v)
  else .error (Failure.outside_storage, v)

/-- The member `pop_back()`; `T{}` is the default value of `resize`. -/
def pop_back [Inhabited T] (v : vector T) : Res T (vector T) :=
  if size v = 0 then .error (Failure.SizeException "Container is empty", v)
  else resize v (size v - 1) default

/-- The class invariant of `vector`: `elem ≤ space ≤ last`, `last` within the
allocation, and an object in every cell below `space`. -/
def wf (v : vector T) : Prop :=
  v.vb.space ≤ v.vb.last ∧ v.vb.last ≤ v.vb.elem.length ∧
    ∀ i, i < v.vb.space → ((v.vb.elem.getD i none).isSome = true)

/-- The vector `vector()`: no cells, `size() = capacity() = 0`. -/
def empty : vector T := { vb := vector_base.create 0 }

/-- A vector of size 2 and capacity 2 holding `x`, `y`. -/
def full_pair (x y : T) : vector T :=
  { vb := { elem := [some x, some y], space := 2, last := 2 } }

/-- A vector of size 2 and capacity 4 holding `x`, `y`. -/
def spare_pair (x y : T) : vector T :=
  { vb := { elem := [some x, some y, none, none], space := 2, last := 4 } }

end Vec

/-!
# The desk calculator (`14_Namespaces/Ex/2/Calc.cpp`)

A shallow embedding of `Lexer::Token_stream::get`, of the parser functions
`prim`, `term`, `expr` and of `Driver::process`.

* The numbers of the calculator are C++ `double`s.  The embedding takes the
  number type `N` with its arithmetic, the conversion to `bool` and the stream
  extraction `*ip >> number_value` as a parameter `Arith N`; the control flow of
  the parser does not look inside a number except through these.
* The input stream is the list of characters not yet read; its error state is
  not modelled.
* The globals `Lexer::ts` and `Table::table` are the two fields of `Calc_state`.
  An exception carries the state at the throw, which is the state
  `Driver::process` goes on with after catching it.
* The mutually recursive parser functions take a bound `fuel` on the depth of
  calls; `out_of_fuel` is the result of a call that needs more.
-/

namespace Calc

/-- The number type `double` as the calculator uses it. -/
structure Arith (N : Type) where
  zero : N
  add : N → N → N
  sub : N → N → N
  mul : N → N → N
  div : N → N → N
  neg : N → N
  is_zero : N → Bool
  read_number : List Char → N × List Char

/-- The enumeration `Lexer::Kind`. -/
inductive Kind where
  | name | number | end_ | plus | minus | mul | div | print | assign | lp | rp
  deriving DecidableEq, Repr

/-- The structure `Lexer::Token`. -/
structure Token (N : Type) where
  kind : Kind
  string_value : String
  number_value : N

/-- The class `Lexer::Token_stream`: the characters of `*ip` not yet read and
the current token `ct`. -/
structure Token_stream (N : Type) where
  ip : List Char
  ct : Token N

/-- The globals `Lexer::ts` and `Table::table`. -/
structure Calc_state (N : Type) where
  ts : Token_stream N
  table : List (String × N)

/-- Result of a parser function: the value returned, a `SyntaxError` thrown with
its message, or the call needing more fuel; each with the state it ends in. -/
inductive Res (N : Type) (α : Type) where
  | value (v : α) (st : Calc_state N)
  | thrown (msg : String) (st : Calc_state N)
  | out_of_fuel

variable {N : Type}

/-- The library function `isspace` in the "C" locale. -/
def isspace (ch : Char) : Bool :=
  ch = ' ' || ch = '\t' || ch = '\n' || ch.toNat = 11 || ch.toNat = 12 || ch = '\r'

/-- The token `{ k }`: the other members value-initialised. -/
def Token.of_kind (A : Arith N) (k : Kind) : Token N :=
  { kind := k, string_value := "", number_value := A.zero }

/-- The loop `while (ip->get(ch) && isalnum(ch)) string_value += ch;` followed by
`ip->putback(ch)`: the name read so far and the characters left. -/
def read_name : String → List Char → String × List Char
  | acc, [] => (acc, [])
  | acc, ch :: rest =>
    if ch.isAlphanum then read_name (acc.push ch) rest else (acc, ch :: rest)

/-- The body of `Lexer::Token_stream::get()` on the characters not yet read,
`ct` being the current token at the call: the stream after the read, or the
message of the `SyntaxError` and the stream at the throw. -/
def get_from (A : Arith N) (ct : Token N) :
    List Char → Except (String × Token_stream N) (Token_stream N)
  | [] => .ok { ip := [], ct := Token.of_kind A Kind.end_ }
  | ch :: rest =>
    if ch ≠ '\n' ∧ isspace ch = true then get_from A ct rest
    else if ch = ';' ∨ ch = '\n' then .ok { ip := rest, ct := Token.of_kind A Kind.print }
    else if ch = '*' then .ok { ip := rest, ct := Token.of_kind A Kind.mul }
    else if ch = '/' then .ok { ip := rest, ct := Token.of_kind A Kind.div }
    else if ch = '+' then .ok { ip := rest, ct := Token.of_kind A Kind.plus }
    else if ch = '-' then .ok { ip := rest, ct := Token.of_kind A Kind.minus }
    else if ch = '(' then .ok { ip := rest, ct := Token.of_kind A Kind.lp }
    else if ch = ')' then .ok { ip := rest, ct := Token.of_kind A Kind.rp }
    else if ch = '=' then .ok { ip := rest, ct := Token.of_kind A Kind.assign }
    else if ch.isDigit = true ∨ ch = '.' then
      let r := A.read_number (ch :: rest)
      .ok { ip := r.2, ct := { ct with number_value := r.1, kind := Kind.number } }
    else if ch.isAlpha = true then
      let r := read_name (String.singleton ch) rest
      .ok { ip := r.2, ct := { ct with string_value := r.1, kind := Kind.name } }
    else .error ("bad token", { ip := rest, ct := ct })

/-- The member `Lexer::Token_stream::get()`. -/
def get (A : Arith N) (ts : Token_stream N) :
    Except (String × Token_stream N) (Token_stream N) :=
  get_from A ts.ct ts.ip

/-- The call `ts.get()` on the global stream. -/
def ts_get (A : Arith N) (st : Calc_state N) : Res N Unit :=
  match get A st.ts with
  | .ok ts => Res.value () { st with ts := ts }
  | .error (msg, ts) => Res.thrown msg { st with ts := ts }

/-- The lookup `Table::table[key]` on a table that has the key. -/
def table_find (zero : N) : List (String × N) → String → N
  | [], _ => zero
  | (k, v) :: rest, key => if k = key then v else table_find zero rest key

/-- The assignment `Table::table[key] = v`. -/
def table_assign : List (String × N) → String → N → List (String × N)
  | [], key, v => [(key, v)]
  | (k, w) :: rest, key, v =>
    if k = key then (k, v) :: rest else (k, w) :: table_assign rest key v

/-- The reference `Table::table[key]`: a new entry with the value `0` is made
when the key is absent. -/
def table_entry (zero : N) (t : List (String × N)) (key : String) : List (String × N) :=
  if t.any (fun e => e.1 = key) then t else table_assign t key zero

mutual

/-- The function `Parser_impl::prim(get)`. -/
def prim (A : Arith N) : Nat → Bool → Calc_state N → Res N N
  | 0, _, _ => Res.out_of_fuel
  | fuel + 1, g, st0 =>
    match (if g then ts_get A st0 else Res.value () st0) with
    | Res.out_of_fuel => Res.out_of_fuel
    | Res.thrown msg st => Res.thrown msg st
    | Res.value _ st =>
      match st.ts.ct.kind with
      | Kind.number =>
        let v := st.ts.ct.number_value
        match ts_get A st with
        | Res.value _ st1 => Res.value v st1
        | Res.thrown msg st1 => Res.thrown msg st1
        | Res.out_of_fuel => Res.out_of_fuel
      | Kind.name =>
        let key := st.ts.ct.string_value
        let st := { st with table := table_entry A.zero st.table key }
        match ts_get A st with
        | Res.thrown msg st1 => Res.thrown msg st1
        | Res.out_of_fuel => Res.out_of_fuel
        | Res.value _ st1 =>
          if st1.ts.ct.kind = Kind.assign then
            match expr A fuel true st1 with
            | Res.value e st2 =>
              Res.value e { st2 with table := table_assign st2.table key e }
            | Res.thrown msg st2 => Res.thrown msg st2
            | Res.out_of_fuel => Res.out_of_fuel
          else Res.value (table_find A.zero st1.table key) st1
      | Kind.minus =>
        match prim A fuel true st with
        | Res.value v st1 => Res.value (A.neg v) st1
        | Res.thrown msg st1 => Res.thrown msg st1
        | Res.out_of_fuel => Res.out_of_fuel
      | Kind.lp =>
        match expr A fuel true st with
        | Res.value e st1 =>
          if st1.ts.ct.kind ≠ Kind.rp then Res.thrown "')' expected" st1
          else
            match ts_get A st1 with
            | Res.value _ st2 => Res.value e st2
            | Res.thrown msg st2 => Res.thrown msg st2
            | Res.out_of_fuel => Res.out_of_fuel
        | Res.thrown msg st1 => Res.thrown msg st1
        | Res.out_of_fuel => Res.out_of_fuel
      | _ => Res.thrown "primary expected" st

/-- The loop `for (;;) switch (ts.current().kind)` of `Parser_impl::term`,
entered with the value `left`. -/
def term_loop (A : Arith N) : Nat → N → Calc_state N → Res N N
  | 0, _, _ => Res.out_of_fuel
  | fuel + 1, left, st =>
    match st.ts.ct.kind with
    | Kind.mul =>
      match prim A fuel true st with
      | Res.value d st1 => term_loop A fuel (A.mul left d) st1
      | Res.thrown msg st1 => Res.thrown msg st1
      | Res.out_of_fuel => Res.out_of_fuel
    | Kind.div =>
      match prim A fuel true st with
      | Res.value d st1 =>
        if A.is_zero d = false then term_loop A fuel (A.div left d) st1
        else Res.thrown "divide by 0" st1
      | Res.thrown msg st1 => Res.thrown msg st1
      | Res.out_of_fuel => Res.out_of_fuel
    | _ => Res.value left st

/-- The function `Parser_impl::term(get)`. -/
def term (A : Arith N) : Nat → Bool → Calc_state N → Res N N
  | 0, _, _ => Res.out_of_fuel
  | fuel + 1, g, st =>
    match prim A fuel g st with
    | Res.value left st1 => term_loop A fuel left st1
    | Res.thrown msg st1 => Res.thrown msg st1
    | Res.out_of_fuel => Res.out_of_fuel

/-- The loop `for (;;) switch (ts.current().kind)` of `Parser::expr`, entered
with the value `left`. -/
def expr_loop (A : Arith N) : Nat → N → Calc_state N → Res N N
  | 0, _, _ => Res.out_of_fuel
  | fuel + 1, left, st =>
    match st.ts.ct.kind with
    | Kind.plus =>
      match term A fuel true st with
      | Res.value d st1 => expr_loop A fuel (A.add left d) st1
      | Res.thrown msg st1 => Res.thrown msg st1
      | Res.out_of_fuel => Res.out_of_fuel
    | Kind.minus =>
      match term A fuel true st with
      | Res.value d st1 => expr_loop A fuel (A.sub left d) st1
      | Res.thrown msg st1 => Res.thrown msg st1
      | Res.out_of_fuel => Res.out_of_fuel
    | _ => Res.value left st

/-- The function `Parser::expr(get)`. -/
def expr (A : Arith N) : Nat → Bool → Calc_state N → Res N N
  | 0, _, _ => Res.out_of_fuel
  | fuel + 1, g, st =>
    match term A fuel g st with
    | Res.value left st1 => expr_loop A fuel left st1
    | Res.thrown msg st1 => Res.thrown msg st1
    | Res.out_of_fuel => Res.out_of_fuel

end

/-- The state of the calculator when `Driver::process` is called on the input
`input` with the table `table`. -/
def start (A : Arith N) (input : String) (table : List (String × N)) : Calc_state N :=
  { ts := { ip := input.toList, ct := Token.of_kind A Kind.end_ }, table := table }

end Calc

namespace VM

/-! ## Theorems -/

/-! ### Arithmetic and store lemmas -/

theorem wrap32_eq {x : Int} (h1 : -2147483648 ≤ x) (h2 : x ≤ 2147483647) : wrap32 x = x := by
  unfold wrap32; omega

theorem instr_at_cell (s : State) (p : Nat) (v : Int)
    (h : s.instructions[p]? = some (some v)) : instr_at s (p : Int) = .ok v := by
  simp [instr_at, h]

theorem psh_program_length (vs : List Int) : (psh_program vs).length = 2 * vs.length := by
  induction vs with
  | nil => rfl
  | cons v vs ih => simp [psh_program, ih]; omega

theorem psh_program_even (vs : List Int) (k : Nat) (h : k < vs.length) :
    (psh_program vs)[2 * k]? = some 1 := by
  induction vs generalizing k with
  | nil => simp at h
  | cons v vs ih =>
    cases k with
    | zero => simp [psh_program, Instructions.toInt]
    | succ k =>
      have : 2 * (k + 1) = (2 * k) + 1 + 1 := by ring
      rw [this]
      simp only [psh_program, List.getElem?_cons_succ]
      exact ih k (by simpa using h)

theorem psh_program_odd (vs : List Int) (k : Nat) (h : k < vs.length) :
    (psh_program vs)[2 * k + 1]? = some (vs.get ⟨k, h⟩) := by
  induction vs generalizing k with
  | nil => simp at h
  | cons v vs ih =>
    cases k with
    | zero => simp [psh_program]
    | succ k =>
      have : 2 * (k + 1) + 1 = (2 * k + 1) + 1 + 1 := by ring
      rw [this]
      simp only [psh_program, List.getElem?_cons_succ]
      simpa using ih k (by simpa using h)

/-! ### One cycle of `PSH` -/

theorem cycle_PSH (s : State) (p : Nat) (v : Int) (hip : ip s = p)
    (h0 : s.instructions[p]? = some (some 1))
    (h1 : s.instructions[p + 1]? = some (some v))
    (hp : (p : Int) + 2 ≤ 2147483647) (hsp : -1 ≤ sp s ∧ sp s < 255) :
    ∃ s', cycle s = .ok s' ∧ s'.instructions = s.instructions ∧
      s'.instruction_count = s.instruction_count ∧ s'.running = s.running ∧
      ip s' = p + 2 ∧ sp s' = sp s + 1 ∧
      s'.stack = (fun j => if j = sp s + 1 then v else s.stack j) ∧
      ∀ r, r ≠ Registers.IP → r ≠ Registers.SP → s'.registers r = s.registers r := by
  have hf : fetch s = .ok Instructions.PSH := by
    simp [fetch, hip, instr_at_cell s p 1 h0, Instructions.ofInt, bind, Except.bind, pure,
      Except.pure]
  have hw1 : wrap32 ((p : Int) + 1) = (p : Int) + 1 := wrap32_eq (by omega) (by omega)
  have hw2 : wrap32 ((p : Int) + 1 + 1) = (p : Int) + 2 := by
    rw [wrap32_eq (by omega) (by omega)]; ring
  have hw3 : wrap32 (sp s + 1) = sp s + 1 := wrap32_eq (by omega) (by omega)
  have ht : ((p : Int) + 1).toNat = p + 1 := by omega
  have hn : (0 : Int) ≤ (p : Int) + 1 := by omega
  have hb : 0 ≤ sp s + 1 ∧ sp s + 1 < 256 := by omega
  simp only [sp, ip, Registers.IP, Registers.SP] at hip hsp hw3 hb ⊢
  simp [cycle, hf, bind, Except.bind, eval, pure, Except.pure, set_sp, set_ip, reg_assign, sp, ip,
    Registers.IP, Registers.SP, hip, hw1, hw2, hw3, instr_at, h1, stack_put, STACK_SIZE, ht, hn,
    hb]
  intro r hr1 hr2
  simp [hr1, hr2]

theorem psh_inv_boot (vs : List Int) : psh_inv vs 0 (boot (psh_program vs)) := by
  refine ⟨rfl, ?_, rfl, ?_, ?_, ?_⟩
  · simp [boot, init, set_sp, reg_assign, psh_program_length]
  · simp [boot, init, set_sp, reg_assign, ip, Registers.IP, Registers.SP]
  · simp [boot, init, set_sp, reg_assign, sp, Registers.SP]
  · intro i h hk; omega

theorem psh_inv_step (vs : List Int) (k : Nat) (s : State) (hlen : vs.length ≤ 256)
    (hk : k < vs.length) (hinv : psh_inv vs k s) :
    ∃ s', cycle s = .ok s' ∧ psh_inv vs (k + 1) s' := by
  obtain ⟨hprog, hcnt, hrun, hip, hsp, hst⟩ := hinv
  have h0 : s.instructions[2 * k]? = some (some 1) := by
    rw [hprog, List.getElem?_map, psh_program_even vs k hk]; rfl
  have h1 : s.instructions[2 * k + 1]? = some (some (vs.get ⟨k, hk⟩)) := by
    rw [hprog, List.getElem?_map, psh_program_odd vs k hk]; rfl
  obtain ⟨s', hc, hi', hc', hr', hip', hsp', hst', _⟩ :=
    cycle_PSH s (2 * k) (vs.get ⟨k, hk⟩) (by rw [hip]; push_cast; ring) h0 h1
      (by push_cast; omega) (by omega)
  refine ⟨s', hc, ?_, ?_, ?_, ?_, ?_, ?_⟩
  · rw [hi', hprog]
  · rw [hc', hcnt]
  · rw [hr', hrun]
  · rw [hip']; push_cast; ring
  · rw [hsp', hsp]; push_cast; ring
  · intro i h hik
    rw [hst', hsp]
    by_cases hik' : i = k
    · subst hik'; simp
    · have : (i : Int) ≠ (k : Int) - 1 + 1 := by omega
      simp only [this, if_false]
      exact hst i h (by omega)

theorem psh_inv_loop (vs : List Int) (hlen : vs.length ≤ 256) (m : Nat) :
    ∀ (k : Nat) (s : State), k + m = vs.length → psh_inv vs k s →
      ∃ s', psh_inv vs vs.length s' ∧ ∀ fuel, m ≤ fuel → loop fuel s = Outcome.finished s' := by
  induction m with
  | zero =>
    intro k s hk hinv
    have hk' : k = vs.length := by omega
    subst hk'
    refine ⟨s, hinv, ?_⟩
    intro fuel _
    obtain ⟨_, hcnt, _, hip, _, _⟩ := hinv
    unfold loop
    have : ¬ (ip s < s.instruction_count) := by rw [hip, hcnt]; omega
    simp [this]
  | succ m ih =>
    intro k s hk hinv
    obtain ⟨s1, hc, hinv1⟩ := psh_inv_step vs k s hlen (by omega) hinv
    obtain ⟨s', hfin, hrun⟩ := ih (k + 1) s1 (by omega) hinv1
    refine ⟨s', hfin, ?_⟩
    intro fuel hf
    obtain ⟨_, hcnt, hrunning, hip, _, _⟩ := hinv
    obtain ⟨fuel', rfl⟩ : ∃ f, fuel = f + 1 := ⟨fuel - 1, by omega⟩
    unfold loop
    have hlt : ip s < s.instruction_count := by rw [hip, hcnt]; omega
    simp only [hrunning, hlt, and_self, if_true, hc]
    exact hrun fuel' (by omega)

/-- C1: for every `n ≤ 256` and integers `v1..vn`, the execution loop started in
the initial state on the program store `PSH v1, ..., PSH vn` terminates (for any
fuel of at least `n` iterations) with `SP = n - 1` and `stack[0..n-1] = v1..vn`. -/
theorem C1_psh_program_run (vs : List Int) (hlen : vs.length ≤ 256) :
    ∃ s', (∀ fuel, vs.length ≤ fuel →
        loop fuel (boot (psh_program vs)) = Outcome.finished s') ∧
      sp s' = (vs.length : Int) - 1 ∧
      ∀ i (h : i < vs.length), s'.stack (i : Int) = vs.get ⟨i, h⟩ := by
  obtain ⟨s', hinv, hrun⟩ :=
    psh_inv_loop vs hlen vs.length 0 (boot (psh_program vs)) (by omega) (psh_inv_boot vs)
  obtain ⟨_, _, _, _, hsp, hst⟩ := hinv
  exact ⟨s', hrun, hsp, fun i h => hst i h h⟩

theorem C1_psh_program_run_witness :
    [3, 4, 5].length ≤ 256 ∧
    ∃ s', (∀ fuel, [3, 4, 5].length ≤ fuel →
        loop fuel (boot (psh_program [3, 4, 5])) = Outcome.finished s') ∧
      sp s' = (([3, 4, 5] : List Int).length : Int) - 1 ∧
      ∀ i (h : i < ([3, 4, 5] : List Int).length),
        s'.stack (i : Int) = ([3, 4, 5] : List Int).get ⟨i, h⟩ :=
  ⟨by decide, C1_psh_program_run [3, 4, 5] (by decide)⟩

/-! ### The execution loop, one iteration at a time -/

theorem fetch_cell (s : State) (p : Nat) (v : Int) (hip : ip s = p)
    (h : s.instructions[p]? = some (some v)) : fetch s = .ok (Instructions.ofInt v) := by
  simp [fetch, hip, instr_at_cell s p v h, bind, Except.bind, pure, Except.pure]

theorem cycle_no_jump (s s1 : State) (instr : Instructions) (hf : fetch s = .ok instr)
    (he : eval instr s = .ok s1) (hj : s1.is_jmp = false) :
    cycle s = .ok (set_ip s1 (wrap32 (ip s1 + 1))) := by
  simp [cycle, hf, he, hj, bind, Except.bind, pure, Except.pure]

theorem cycle_jump (s s1 : State) (instr : Instructions) (hf : fetch s = .ok instr)
    (he : eval instr s = .ok s1) (hj : s1.is_jmp = true) : cycle s = .ok s1 := by
  simp [cycle, hf, he, hj, bind, Except.bind, pure, Except.pure]

theorem cycle_fault (s s1 : State) (instr : Instructions) (f : Fault) (hf : fetch s = .ok instr)
    (he : eval instr s = .error (f, s1)) : cycle s = .error (f, s1) := by
  simp [cycle, hf, he, bind, Except.bind]

theorem loop_step (fuel : Nat) (s s' : State) (hr : s.running = true)
    (hlt : ip s < s.instruction_count) (hc : cycle s = .ok s') :
    loop (fuel + 1) s = loop fuel s' := by
  rw [loop]; simp [hr, hlt, hc]

theorem loop_fault (fuel : Nat) (s s' : State) (f : Fault) (hr : s.running = true)
    (hlt : ip s < s.instruction_count) (hc : cycle s = .error (f, s')) :
    loop (fuel + 1) s = Outcome.faulted f s' := by
  rw [loop]; simp [hr, hlt, hc]

theorem loop_halted (fuel : Nat) (s : State) (hr : s.running = false) :
    loop fuel s = Outcome.finished s := by
  unfold loop; simp [hr]

theorem loop_end (fuel : Nat) (s : State) (hge : s.instruction_count ≤ ip s) :
    loop fuel s = Outcome.finished s := by
  unfold loop
  have : ¬ ip s < s.instruction_count := by omega
  simp [this]

/-! ### The arithmetic instructions -/

theorem eval_ADD (s : State) (h1 : 1 ≤ sp s) (h2 : sp s ≤ 255) :
    ∃ s', eval Instructions.ADD s = .ok s' ∧ s'.is_jmp = false ∧
      s'.instructions = s.instructions ∧ s'.instruction_count = s.instruction_count ∧
      s'.running = s.running ∧ ip s' = ip s ∧ sp s' = sp s - 1 ∧
      s'.stack = (fun j => if j = sp s - 1
        then wrap32 (s.stack (sp s - 1) + s.stack (sp s)) else s.stack j) := by
  have hw : wrap32 (sp s - 1) = sp s - 1 := wrap32_eq (by omega) (by omega)
  have hb : 0 ≤ sp s ∧ sp s < 256 := by omega
  have hb' : 0 ≤ sp s - 1 ∧ sp s - 1 < 256 := by omega
  simp only [sp, ip, Registers.IP, Registers.SP] at hw hb hb' ⊢
  simp [eval, bind, Except.bind, pure, Except.pure, set_sp, reg_assign, sp,
    Registers.SP, Registers.A, Registers.B, Registers.C, hw, stack_get, stack_put, STACK_SIZE,
    hb, hb']

theorem eval_SUB (s : State) (h1 : 1 ≤ sp s) (h2 : sp s ≤ 255) :
    ∃ s', eval Instructions.SUB s = .ok s' ∧ s'.is_jmp = false ∧
      s'.instructions = s.instructions ∧ s'.instruction_count = s.instruction_count ∧
      s'.running = s.running ∧ ip s' = ip s ∧ sp s' = sp s - 1 ∧
      s'.stack = (fun j => if j = sp s - 1
        then wrap32 (s.stack (sp s - 1) - s.stack (sp s)) else s.stack j) := by
  have hw : wrap32 (sp s - 1) = sp s - 1 := wrap32_eq (by omega) (by omega)
  have hb : 0 ≤ sp s ∧ sp s < 256 := by omega
  have hb' : 0 ≤ sp s - 1 ∧ sp s - 1 < 256 := by omega
  simp only [sp, ip, Registers.IP, Registers.SP] at hw hb hb' ⊢
  simp [eval, bind, Except.bind, pure, Except.pure, set_sp, reg_assign, sp,
    Registers.SP, Registers.A, Registers.B, Registers.C, hw, stack_get, stack_put, STACK_SIZE,
    hb, hb']

theorem eval_MUL (s : State) (h1 : 1 ≤ sp s) (h2 : sp s ≤ 255) :
    ∃ s', eval Instructions.MUL s = .ok s' ∧ s'.is_jmp = false ∧
      s'.instructions = s.instructions ∧ s'.instruction_count = s.instruction_count ∧
      s'.running = s.running ∧ ip s' = ip s ∧ sp s' = sp s - 1 ∧
      s'.stack = (fun j => if j = sp s - 1
        then wrap32 (s.stack (sp s - 1) * s.stack (sp s)) else s.stack j) := by
  have hw : wrap32 (sp s - 1) = sp s - 1 := wrap32_eq (by omega) (by omega)
  have hb : 0 ≤ sp s ∧ sp s < 256 := by omega
  have hb' : 0 ≤ sp s - 1 ∧ sp s - 1 < 256 := by omega
  simp only [sp, ip, Registers.IP, Registers.SP] at hw hb hb' ⊢
  simp [eval, bind, Except.bind, pure, Except.pure, set_sp, reg_assign, sp,
    Registers.SP, Registers.A, Registers.B, Registers.C, hw, stack_get, stack_put, STACK_SIZE,
    hb, hb']

theorem binop_effect_of_stack (s s' : State) (x : Int) (hsp : sp s' = sp s - 1)
    (hst : s'.stack = (fun j => if j = sp s - 1 then x else s.stack j)) :
    binop_effect s s' x := by
  refine ⟨hsp, ?_, ?_⟩
  · rw [hst]; simp
  · intro j hj; rw [hst]; simp [hj]

/-! ### Running `PSH a, PSH b, <op>, HLT` -/

theorem cycle_HLT (s : State) (p : Nat) (hip : ip s = p)
    (h0 : s.instructions[p]? = some (some 0)) (hp : (p : Int) + 1 ≤ 2147483647) :
    ∃ s', cycle s = .ok s' ∧ s'.running = false ∧ s'.stack = s.stack ∧ ip s' = p + 1 ∧
      ∀ r, r ≠ Registers.IP → s'.registers r = s.registers r := by
  have hf := fetch_cell s p 0 hip h0
  have he : eval Instructions.HLT s = .ok { s with is_jmp := false, running := false } := rfl
  have hw : wrap32 ((p : Int) + 1) = (p : Int) + 1 := wrap32_eq (by omega) (by omega)
  refine ⟨_, cycle_no_jump s _ _ hf he rfl, rfl, rfl, ?_, ?_⟩
  · simp only [ip, Registers.IP] at hip
    simp [set_ip, reg_assign, ip, Registers.IP, hip, hw]
  · intro r hr
    simp [set_ip, reg_assign, hr]

theorem two_pushes (a b : Int) (rest : List Int) :
    ∃ s2, (∀ fuel, loop (fuel + 2) (boot (1 :: a :: 1 :: b :: rest)) = loop fuel s2) ∧
      s2.instructions = (1 :: a :: 1 :: b :: rest).map some ∧
      s2.instruction_count = ((1 :: a :: 1 :: b :: rest).length : Int) ∧
      s2.running = true ∧ ip s2 = 4 ∧ sp s2 = 1 ∧
      s2.stack = (fun j => if j = 1 then b else if j = 0 then a else 0) ∧
      ∀ r, r ≠ Registers.IP → r ≠ Registers.SP → s2.registers r = 0 := by
  have hb_ip : ip (boot (1 :: a :: 1 :: b :: rest)) = ((0 : Nat) : Int) := by
    simp [boot, init, set_sp, reg_assign, ip, Registers.IP, Registers.SP]
  have hb_sp : sp (boot (1 :: a :: 1 :: b :: rest)) = -1 := by
    simp [boot, init, set_sp, reg_assign, sp, Registers.SP]
  obtain ⟨s1, hc1, hi1, hn1, hr1, hip1, hsp1, hst1, hreg1⟩ :=
    cycle_PSH (boot (1 :: a :: 1 :: b :: rest)) 0 a hb_ip (by simp [boot, init, set_sp, reg_assign])
      (by simp [boot, init, set_sp, reg_assign]) (by norm_num) (by rw [hb_sp]; omega)
  have hi1' : s1.instructions = (1 :: a :: 1 :: b :: rest).map some := by rw [hi1]; rfl
  obtain ⟨s2, hc2, hi2, hn2, hr2, hip2, hsp2, hst2, hreg2⟩ :=
    cycle_PSH s1 2 b (by rw [hip1]; norm_num) (by rw [hi1']; simp) (by rw [hi1']; simp)
      (by norm_num) (by rw [hsp1, hb_sp]; omega)
  have hcnt : (boot (1 :: a :: 1 :: b :: rest)).instruction_count
      = ((1 :: a :: 1 :: b :: rest).length : Int) := rfl
  refine ⟨s2, ?_, by rw [hi2, hi1'], by rw [hn2, hn1, hcnt], by rw [hr2, hr1]; rfl,
    by rw [hip2]; norm_num, by rw [hsp2, hsp1, hb_sp]; norm_num, ?_, ?_⟩
  · intro fuel
    rw [loop_step (fuel + 1) _ s1 rfl (by rw [hb_ip, hcnt]; simp; omega) hc1]
    rw [loop_step fuel s1 s2 (by rw [hr1]; rfl) (by rw [hip1, hn1, hcnt]; simp; omega) hc2]
  · rw [hst2, hst1, hsp1, hb_sp]
    funext j
    simp [boot, init, set_sp, reg_assign]
  · intro r h1 h2
    rw [hreg2 r h1 h2, hreg1 r h1 h2]
    simp only [Registers.SP] at h2
    simp [boot, init, set_sp, reg_assign, Registers.SP, h2]

theorem cycle_plain (s s1 : State) (p : Nat) (v : Int) (hip : ip s = p)
    (h0 : s.instructions[p]? = some (some v)) (hp : (p : Int) + 1 ≤ 2147483647)
    (he : eval (Instructions.ofInt v) s = .ok s1) (hj : s1.is_jmp = false)
    (hip1 : ip s1 = ip s) : cycle s = .ok (set_ip s1 ((p : Int) + 1)) := by
  have hw : wrap32 ((p : Int) + 1) = (p : Int) + 1 := wrap32_eq (by omega) (by omega)
  rw [cycle_no_jump s s1 _ (fetch_cell s p v hip h0) he hj, hip1, hip, hw]

theorem binop_program_run (op : Instructions) (f : Int → Int → Int) (a b : Int)
    (hop : Instructions.ofInt op.toInt = op)
    (heval : ∀ s : State, sp s = 1 →
      ∃ s', eval op s = .ok s' ∧ s'.is_jmp = false ∧
        s'.instructions = s.instructions ∧ s'.instruction_count = s.instruction_count ∧
        s'.running = s.running ∧ ip s' = ip s ∧ sp s' = sp s - 1 ∧
        s'.stack = (fun j => if j = sp s - 1
          then f (s.stack (sp s - 1)) (s.stack (sp s)) else s.stack j)) :
    ∃ s', (∀ fuel, 4 ≤ fuel → loop fuel (boot (binop_program op a b)) = Outcome.finished s') ∧
      s'.running = false ∧ sp s' = 0 ∧ s'.stack 0 = f a b := by
  obtain ⟨s2, hrun2, hi2, hn2, hr2, hip2, hsp2, hst2, _⟩ :=
    two_pushes a b [op.toInt, Instructions.HLT.toInt]
  obtain ⟨s3, he3, hj3, hi3, hn3, hr3, hip3, hsp3, hst3⟩ := heval s2 hsp2
  have hc3 : cycle s2 = .ok (set_ip s3 ((4 : Nat) + 1)) :=
    cycle_plain s2 s3 4 op.toInt (by rw [hip2]; rfl) (by rw [hi2]; simp) (by norm_num)
      (by rw [hop]; exact he3) hj3 hip3
  obtain ⟨s4, hc4, hr4, hst4, hip4, hreg4⟩ :=
    cycle_HLT (set_ip s3 ((4 : Nat) + 1)) 5
      (by simp [set_ip, reg_assign, ip, Registers.IP])
      (by
        show s3.instructions[5]? = _
        rw [hi3, hi2]; simp [Instructions.toInt])
      (by norm_num)
  refine ⟨s4, ?_, hr4, ?_, ?_⟩
  · intro fuel hfuel
    obtain ⟨g, rfl⟩ : ∃ g, fuel = g + 2 + 2 := ⟨fuel - 4, by omega⟩
    have hboot : loop (g + 2 + 2) (boot (binop_program op a b)) = loop (g + 2) s2 :=
      hrun2 (g + 2)
    rw [hboot]
    rw [loop_step (g + 1) s2 _ hr2 (by rw [hip2, hn2]; simp) hc3]
    rw [loop_step g _ s4
      (by show s3.running = true; rw [hr3, hr2])
      (by
        show ip (set_ip s3 ((4 : Nat) + 1)) < s3.instruction_count
        rw [hn3, hn2]; simp [set_ip, reg_assign, ip, Registers.IP])
      hc4]
    exact loop_halted g s4 hr4
  · have h11 : Registers.SP ≠ Registers.IP := by decide
    show s4.registers Registers.SP = 0
    rw [hreg4 _ h11]
    show (set_ip s3 ((4 : Nat) + 1)).registers Registers.SP = 0
    have : sp s3 = 0 := by rw [hsp3, hsp2]; norm_num
    simp only [sp, Registers.SP] at this
    simp [set_ip, reg_assign, Registers.SP, Registers.IP, this]
  · rw [hst4]
    show s3.stack 0 = f a b
    rw [hst3, hsp2, hst2]
    simp

/-- C2: in every state with at least two stack elements (`1 ≤ SP ≤ 255`), each of
`ADD`, `SUB`, `MUL` decrements `SP` by one and stores `left op right` (32-bit
wraparound) at the new top, `right` being the old top and `left` the old
second-from-top, every other stack cell unchanged; hence `PSH a, PSH b, ADD, HLT`
ends halted with `SP = 0` and top `a + b`, and `PSH a, PSH b, SUB, HLT` with top
`a - b`; a result within the `int` range is stored exactly. -/
theorem C2_arith_left_op_right (s : State) (a b : Int) (h1 : 1 ≤ sp s) (h2 : sp s ≤ 255) :
    (∃ s', eval Instructions.ADD s = .ok s' ∧
      binop_effect s s' (wrap32 (s.stack (sp s - 1) + s.stack (sp s)))) ∧
    (∃ s', eval Instructions.SUB s = .ok s' ∧
      binop_effect s s' (wrap32 (s.stack (sp s - 1) - s.stack (sp s)))) ∧
    (∃ s', eval Instructions.MUL s = .ok s' ∧
      binop_effect s s' (wrap32 (s.stack (sp s - 1) * s.stack (sp s)))) ∧
    (∃ s', (∀ fuel, 4 ≤ fuel →
        loop fuel (boot (binop_program Instructions.ADD a b)) = Outcome.finished s') ∧
      s'.running = false ∧ sp s' = 0 ∧ s'.stack 0 = wrap32 (a + b)) ∧
    (∃ s', (∀ fuel, 4 ≤ fuel →
        loop fuel (boot (binop_program Instructions.SUB a b)) = Outcome.finished s') ∧
      s'.running = false ∧ sp s' = 0 ∧ s'.stack 0 = wrap32 (a - b)) ∧
    (∀ x : Int, INT_MIN ≤ x → x ≤ INT_MAX → wrap32 x = x) := by
  refine ⟨?_, ?_, ?_, ?_, ?_, ?_⟩
  · obtain ⟨s', he, _, _, _, _, _, hsp, hst⟩ := eval_ADD s h1 h2
    exact ⟨s', he, binop_effect_of_stack s s' _ hsp hst⟩
  · obtain ⟨s', he, _, _, _, _, _, hsp, hst⟩ := eval_SUB s h1 h2
    exact ⟨s', he, binop_effect_of_stack s s' _ hsp hst⟩
  · obtain ⟨s', he, _, _, _, _, _, hsp, hst⟩ := eval_MUL s h1 h2
    exact ⟨s', he, binop_effect_of_stack s s' _ hsp hst⟩
  · exact binop_program_run Instructions.ADD (fun x y => wrap32 (x + y)) a b rfl
      (fun t ht => eval_ADD t (by omega) (by omega))
  · exact binop_program_run Instructions.SUB (fun x y => wrap32 (x - y)) a b rfl
      (fun t ht => eval_SUB t (by omega) (by omega))
  · intro x hx1 hx2
    exact wrap32_eq hx1 hx2

theorem C2_arith_left_op_right_witness :
    1 ≤ sp (two_cell_state 3 4) ∧ sp (two_cell_state 3 4) ≤ 255 ∧
    (∃ s', eval Instructions.SUB (two_cell_state 3 4) = .ok s' ∧ sp s' = 0 ∧
      s'.stack 0 = -1) ∧
    (∃ s', (∀ fuel, 4 ≤ fuel →
        loop fuel (boot (binop_program Instructions.ADD 3 4)) = Outcome.finished s') ∧
      s'.running = false ∧ sp s' = 0 ∧ s'.stack 0 = 7) := by
  have h := C2_arith_left_op_right (two_cell_state 3 4) 3 4 (by decide) (by decide)
  obtain ⟨_, ⟨t, ht, hsp, htop, _⟩, _, ⟨s', hrun, hr, hsp', htop'⟩, _, _⟩ := h
  refine ⟨by decide, by decide, ⟨t, ht, ?_, ?_⟩, ⟨s', hrun, hr, hsp', ?_⟩⟩
  · rw [hsp]; decide
  · have e : sp (two_cell_state 3 4) - 1 = 0 := by decide
    rw [e] at htop
    rw [htop]; decide
  · rw [htop']; decide

/-! ### Division -/

theorem tdiv_sign_nonneg (a b : Int) (h : 0 ≤ a * b) : 0 ≤ Int.tdiv a b := by
  rcases Int.le_total 0 a with ha | ha
  · rcases Int.le_total 0 b with hb | hb
    · exact Int.tdiv_nonneg ha hb
    · rcases eq_or_lt_of_le ha with h0 | hpos
      · rw [← h0]; simp
      · rcases eq_or_lt_of_le hb with h0 | hneg
        · rw [h0]; simp
        · exact absurd h (not_le.mpr (mul_neg_of_pos_of_neg hpos hneg))
  · rcases Int.le_total 0 b with hb | hb
    · rcases eq_or_lt_of_le ha with h0 | hneg
      · rw [h0]; simp
      · rcases eq_or_lt_of_le hb with h0 | hpos
        · rw [← h0]; simp
        · exact absurd h (not_le.mpr (mul_neg_of_neg_of_pos hneg hpos))
    · have := Int.tdiv_nonneg (neg_nonneg.mpr ha) (neg_nonneg.mpr hb)
      rwa [Int.neg_tdiv_neg] at this

theorem tdiv_sign_nonpos (a b : Int) (h : a * b ≤ 0) : Int.tdiv a b ≤ 0 := by
  have := tdiv_sign_nonneg a (-b) (by rw [mul_neg]; exact neg_nonneg.mpr h)
  rw [Int.tdiv_neg] at this
  exact neg_nonneg.mp this

theorem eval_DIV (s : State) (h1 : 1 ≤ sp s) (h2 : sp s ≤ 255)
    (hr : s.stack (sp s) ≠ 0)
    (hov : ¬ (s.stack (sp s - 1) = INT_MIN ∧ s.stack (sp s) = -1)) :
    ∃ s', eval Instructions.DIV s = .ok s' ∧ s'.is_jmp = false ∧
      s'.instructions = s.instructions ∧ s'.instruction_count = s.instruction_count ∧
      s'.running = s.running ∧ ip s' = ip s ∧ sp s' = sp s - 1 ∧
      s'.stack = (fun j => if j = sp s - 1
        then Int.tdiv (s.stack (sp s - 1)) (s.stack (sp s)) else s.stack j) := by
  have hw : wrap32 (sp s - 1) = sp s - 1 := wrap32_eq (by omega) (by omega)
  have hb : 0 ≤ sp s ∧ sp s < 256 := by omega
  have hb' : 0 ≤ sp s - 1 ∧ sp s - 1 < 256 := by omega
  simp only [sp, ip, Registers.IP, Registers.SP, INT_MIN] at hw hb hb' hr hov ⊢
  simp [eval, bind, Except.bind, pure, Except.pure, set_sp, reg_assign, sp,
    Registers.SP, Registers.A, Registers.B, Registers.C, hw, stack_get, stack_put, STACK_SIZE,
    hb, hb', int_div, hr, hov, INT_MIN]

/-- C3: in every state with `1 ≤ SP ≤ 255` whose top `r` is non-zero (the pair
`left = INT_MIN`, `r = -1` apart), `DIV` decrements `SP` by one and leaves at the
new top the quotient of `left` (old second-from-top) by `r` truncated toward
zero: its magnitude is `|left| / |r|` rounded down and its sign that of
`left * r`; so `left = -7, r = 2` gives `-3` and `left = 7, r = -2` gives `-3`. -/
theorem C3_div_truncates_toward_zero (s : State) (h1 : 1 ≤ sp s) (h2 : sp s ≤ 255)
    (hr : s.stack (sp s) ≠ 0)
    (hov : ¬ (s.stack (sp s - 1) = INT_MIN ∧ s.stack (sp s) = -1)) :
    ∃ s', eval Instructions.DIV s = .ok s' ∧
      binop_effect s s' (Int.tdiv (s.stack (sp s - 1)) (s.stack (sp s))) ∧
      (s'.stack (sp s - 1)).natAbs = (s.stack (sp s - 1)).natAbs / (s.stack (sp s)).natAbs ∧
      (0 ≤ s.stack (sp s - 1) * s.stack (sp s) → 0 ≤ s'.stack (sp s - 1)) ∧
      (s.stack (sp s - 1) * s.stack (sp s) ≤ 0 → s'.stack (sp s - 1) ≤ 0) ∧
      (s.stack (sp s - 1) = -7 → s.stack (sp s) = 2 → s'.stack (sp s - 1) = -3) ∧
      (s.stack (sp s - 1) = 7 → s.stack (sp s) = -2 → s'.stack (sp s - 1) = -3) := by
  obtain ⟨s', he, _, _, _, _, _, hsp, hst⟩ := eval_DIV s h1 h2 hr hov
  have heff := binop_effect_of_stack s s' _ hsp hst
  have htop := heff.2.1
  refine ⟨s', he, heff, ?_, ?_, ?_, ?_, ?_⟩
  · rw [htop, Int.natAbs_tdiv]; rfl
  · intro h; rw [htop]; exact tdiv_sign_nonneg _ _ h
  · intro h; rw [htop]; exact tdiv_sign_nonpos _ _ h
  · intro hl hrr; rw [htop, hl, hrr]; decide
  · intro hl hrr; rw [htop, hl, hrr]; decide

theorem C3_div_truncates_toward_zero_witness :
    1 ≤ sp (two_cell_state (-7) 2) ∧ sp (two_cell_state (-7) 2) ≤ 255 ∧
    (two_cell_state (-7) 2).stack (sp (two_cell_state (-7) 2)) = 2 ∧
    (two_cell_state (-7) 2).stack (sp (two_cell_state (-7) 2) - 1) = -7 ∧
    ∃ s', eval Instructions.DIV (two_cell_state (-7) 2) = .ok s' ∧ sp s' = 0 ∧
      s'.stack 0 = -3 := by
  obtain ⟨s', he, ⟨hsp, _, _⟩, _, _, _, h7, _⟩ :=
    C3_div_truncates_toward_zero (two_cell_state (-7) 2) (by decide) (by decide) (by decide)
      (by decide)
  refine ⟨by decide, by decide, by decide, by decide, s', he, ?_, ?_⟩
  · rw [hsp]; decide
  · exact h7 (by decide) (by decide)

theorem eval_DIV_zero (s : State) (h1 : 1 ≤ sp s) (h2 : sp s ≤ 255)
    (hz : s.stack (sp s) = 0) :
    ∃ s', eval Instructions.DIV s = .error (Fault.divide_by_zero, s') ∧
      s'.stack = s.stack ∧ s'.instructions = s.instructions ∧
      s'.instruction_count = s.instruction_count ∧ s'.running = s.running ∧
      sp s' = sp s - 1 ∧ s'.registers Registers.A = 0 ∧
      s'.registers Registers.B = s.stack (sp s - 1) ∧
      ∀ r, r ≠ Registers.A → r ≠ Registers.B → r ≠ Registers.SP →
        s'.registers r = s.registers r := by
  have hw : wrap32 (sp s - 1) = sp s - 1 := wrap32_eq (by omega) (by omega)
  have hb : 0 ≤ sp s ∧ sp s < 256 := by omega
  have hb' : 0 ≤ sp s - 1 ∧ sp s - 1 < 256 := by omega
  simp only [sp, ip, Registers.IP, Registers.SP, Registers.A, Registers.B] at hw hb hb' hz ⊢
  simp [eval, bind, Except.bind, pure, Except.pure, set_sp, reg_assign, sp,
    Registers.SP, Registers.A, Registers.B, Registers.C, hw, stack_get, stack_put, STACK_SIZE,
    hb, hb', int_div, hz]
  intro r ha hb hc
  simp [ha, hb, hc]

/-- C4 (as amended): in every state with at least two stack elements whose top
is `0`, `DIV` produces a division-by-zero fault and no result; at the fault
every stack cell and every register other than `A`, `B` and `SP` (so `IP` too)
holds its value from immediately before the instruction, while `registers[A]`
holds the old top `0`, `registers[B]` the old second-from-top and `SP` is one
less.  The program `PSH 10, PSH 0, DIV, HLT` stops with that fault at `IP = 4`. -/
theorem C4_div_by_zero_faults (s : State) (h1 : 1 ≤ sp s) (h2 : sp s ≤ 255)
    (hz : s.stack (sp s) = 0) :
    (∃ s', eval Instructions.DIV s = .error (Fault.divide_by_zero, s') ∧
      s'.stack = s.stack ∧
      (∀ r, r ≠ Registers.A → r ≠ Registers.B → r ≠ Registers.SP →
        s'.registers r = s.registers r) ∧
      ip s' = ip s ∧ sp s' = sp s - 1 ∧ s'.registers Registers.A = 0 ∧
      s'.registers Registers.B = s.stack (sp s - 1)) ∧
    (∃ s3, (∀ fuel, 3 ≤ fuel →
        loop fuel (boot (binop_program Instructions.DIV 10 0))
          = Outcome.faulted Fault.divide_by_zero s3) ∧
      ip s3 = 4 ∧ sp s3 = 0 ∧ s3.stack 0 = 10 ∧ s3.stack 1 = 0) := by
  constructor
  · obtain ⟨s', he, hst, _, _, _, hsp, ha, hb, hreg⟩ := eval_DIV_zero s h1 h2 hz
    exact ⟨s', he, hst, hreg, hreg _ (by decide) (by decide) (by decide), hsp, ha, hb⟩
  · obtain ⟨s2, hrun2, hi2, hn2, hr2, hip2, hsp2, hst2, _⟩ :=
      two_pushes 10 0 [Instructions.DIV.toInt, Instructions.HLT.toInt]
    obtain ⟨s3, he, hst, _, _, _, hsp, _, _, hreg⟩ :=
      eval_DIV_zero s2 (by omega) (by omega) (by rw [hsp2, hst2]; simp)
    have hf : fetch s2 = .ok Instructions.DIV :=
      fetch_cell s2 4 Instructions.DIV.toInt (by rw [hip2]; rfl) (by rw [hi2]; simp)
    have hc := cycle_fault s2 s3 Instructions.DIV Fault.divide_by_zero hf he
    refine ⟨s3, ?_, ?_, by rw [hsp, hsp2]; norm_num, by rw [hst, hst2]; simp,
      by rw [hst, hst2]; simp⟩
    · intro fuel hfuel
      obtain ⟨g, rfl⟩ : ∃ g, fuel = g + 1 + 2 := ⟨fuel - 3, by omega⟩
      have hboot : loop (g + 1 + 2) (boot (binop_program Instructions.DIV 10 0))
          = loop (g + 1) s2 := hrun2 (g + 1)
      rw [hboot]
      exact loop_fault g s2 s3 _ hr2 (by rw [hip2, hn2]; simp) hc
    · have := hreg Registers.IP (by decide) (by decide) (by decide)
      show s3.registers Registers.IP = 4
      rw [this]; exact hip2

theorem C4_div_by_zero_faults_witness :
    1 ≤ sp (two_cell_state 10 0) ∧ sp (two_cell_state 10 0) ≤ 255 ∧
    (two_cell_state 10 0).stack (sp (two_cell_state 10 0)) = 0 ∧
    ∃ s', eval Instructions.DIV (two_cell_state 10 0) = .error (Fault.divide_by_zero, s') ∧
      s'.stack = (two_cell_state 10 0).stack ∧ sp s' = 0 ∧
      s'.registers Registers.B = 10 := by
  obtain ⟨⟨s', he, hst, _, _, hsp, _, hb⟩, _⟩ :=
    C4_div_by_zero_faults (two_cell_state 10 0) (by decide) (by decide) (by decide)
  refine ⟨by decide, by decide, by decide, s', he, hst, ?_, ?_⟩
  · rw [hsp]; decide
  · rw [hb]; decide

/-- C4 as stated fails: in the state holding `10` and `0` on the stack (what
`PSH 10, PSH 0` leaves), with `SP = 1` and top `0`, `DIV` faults, but the state
at the fault is not the state before the instruction: `SP` is `0` instead of `1`
and `registers[B]` is `10` instead of `0`. -/
theorem C4_state_changed_before_fault :
    1 ≤ sp (two_cell_state 10 0) ∧ sp (two_cell_state 10 0) ≤ 255 ∧
    (two_cell_state 10 0).stack (sp (two_cell_state 10 0)) = 0 ∧
    (∃ s', eval Instructions.DIV (two_cell_state 10 0) = .error (Fault.divide_by_zero, s') ∧
      sp s' = 0 ∧ sp (two_cell_state 10 0) = 1 ∧
      s'.registers Registers.B = 10 ∧ (two_cell_state 10 0).registers Registers.B = 0) ∧
    ¬ ∃ f s', eval Instructions.DIV (two_cell_state 10 0) = .error (f, s') ∧
      s'.registers = (two_cell_state 10 0).registers ∧
      s'.stack = (two_cell_state 10 0).stack := by
  obtain ⟨t, he, _, _, _, _, hsp, _, hb, _⟩ :=
    eval_DIV_zero (two_cell_state 10 0) (by decide) (by decide) (by decide)
  have hsp0 : sp t = 0 := by rw [hsp]; decide
  refine ⟨by decide, by decide, by decide, ⟨t, he, hsp0, by decide, ?_, by decide⟩, ?_⟩
  · rw [hb]; decide
  · rintro ⟨f, s', he', hregs, _⟩
    rw [he] at he'
    have hts : t = s' := by
      injection he' with h
      exact (Prod.mk.inj h).2
    subst hts
    have : sp t = sp (two_cell_state 10 0) := by
      show t.registers Registers.SP = (two_cell_state 10 0).registers Registers.SP
      rw [hregs]
    rw [hsp0] at this
    exact absurd this (by decide)

/-! ### `SLT` -/

theorem eval_SLT (s : State) (h1 : 1 ≤ sp s) (h2 : sp s ≤ 255) :
    ∃ s', eval Instructions.SLT s = .ok s' ∧ s'.is_jmp = false ∧
      s'.instructions = s.instructions ∧ s'.instruction_count = s.instruction_count ∧
      s'.running = s.running ∧ ip s' = ip s ∧ sp s' = sp s - 1 ∧
      s'.stack = (fun j => if j = sp s - 1
        then (if s.stack (sp s) < s.stack (sp s - 1) then 1 else 0) else s.stack j) := by
  have hw : wrap32 (sp s - 1) = sp s - 1 := wrap32_eq (by omega) (by omega)
  have hw2 : wrap32 (sp s - 1 + 1) = sp s := by
    rw [wrap32_eq (by omega) (by omega)]; ring
  have hw3 : wrap32 (sp s) = sp s := wrap32_eq (by omega) (by omega)
  have hb : 0 ≤ sp s ∧ sp s < 256 := by omega
  have hb' : 0 ≤ sp s - 1 ∧ sp s - 1 < 256 := by omega
  simp only [sp, ip, Registers.IP, Registers.SP] at hw hw2 hw3 hb hb' ⊢
  simp [eval, bind, Except.bind, pure, Except.pure, set_sp, reg_assign, sp,
    Registers.SP, hw, hw2, hw3, stack_get, stack_put, STACK_SIZE, hb, hb']

theorem slt_program_run (a b : Int) :
    ∃ s', (∀ fuel, loop (fuel + 3) (boot (slt_program a b)) = Outcome.finished s') ∧
      sp s' = 0 ∧ s'.stack 0 = if b < a then 1 else 0 := by
  obtain ⟨s2, hrun2, hi2, hn2, hr2, hip2, hsp2, hst2, _⟩ :=
    two_pushes a b [Instructions.SLT.toInt]
  obtain ⟨s3, he3, hj3, hi3, hn3, hr3, hip3, hsp3, hst3⟩ :=
    eval_SLT s2 (by omega) (by omega)
  have hc3 : cycle s2 = .ok (set_ip s3 ((4 : Nat) + 1)) :=
    cycle_plain s2 s3 4 Instructions.SLT.toInt (by rw [hip2]; rfl) (by rw [hi2]; simp)
      (by norm_num) he3 hj3 hip3
  refine ⟨set_ip s3 ((4 : Nat) + 1), ?_, ?_, ?_⟩
  · intro fuel
    have hboot : loop (fuel + 1 + 2) (boot (slt_program a b)) = loop (fuel + 1) s2 :=
      hrun2 (fuel + 1)
    rw [show fuel + 3 = fuel + 1 + 2 from rfl, hboot,
      loop_step fuel s2 _ hr2 (by rw [hip2, hn2]; simp) hc3]
    apply loop_end
    show s3.instruction_count ≤ ip (set_ip s3 ((4 : Nat) + 1))
    rw [hn3, hn2]
    simp [set_ip, reg_assign, ip, Registers.IP]
  · have : sp s3 = 0 := by rw [hsp3, hsp2]; norm_num
    simp only [sp, Registers.SP] at this
    simp [set_ip, reg_assign, sp, Registers.SP, Registers.IP, this]
  · show s3.stack 0 = _
    rw [hst3, hsp2, hst2]
    simp

/-- C5 on the code: after `PSH 1, PSH 2, SLT` the loop ends with `SP = 0` and
stack top `0`, and after `PSH 2, PSH 1, SLT` with stack top `1`: the source
compares `stack[sp + 1] < stack[sp]`, old top against old second-from-top. -/
theorem C5_slt_compares_top_with_second :
    (∃ s', (∀ fuel, loop (fuel + 3) (boot (slt_program 1 2)) = Outcome.finished s') ∧
      sp s' = 0 ∧ s'.stack 0 = 0) ∧
    (∃ s', (∀ fuel, loop (fuel + 3) (boot (slt_program 2 1)) = Outcome.finished s') ∧
      sp s' = 0 ∧ s'.stack 0 = 1) := by
  constructor
  · obtain ⟨s', hrun, hsp, htop⟩ := slt_program_run 1 2
    exact ⟨s', hrun, hsp, by rw [htop]; decide⟩
  · obtain ⟨s', hrun, hsp, htop⟩ := slt_program_run 2 1
    exact ⟨s', hrun, hsp, by rw [htop]; decide⟩

/-! ### Conditional jumps -/

theorem cell_lt_length (s : State) (i : Nat) (x : Option Int)
    (h : s.instructions[i]? = some x) : i < s.instructions.length := by
  by_contra hc
  rw [List.getElem?_eq_none (by omega)] at h
  cases h

theorem cycle_IF (s : State) (p : Nat) (r v t : Int) (hip : ip s = p)
    (hlen : s.instructions.length ≤ 2147483647) (hr : 0 ≤ r ∧ r < 12)
    (h0 : s.instructions[p]? = some (some 11))
    (h1 : s.instructions[p + 1]? = some (some r))
    (h2 : s.instructions[p + 2]? = some (some v))
    (h3 : s.instructions[p + 3]? = some (some t)) :
    ∃ s', cycle s = .ok s' ∧ same_but_ip s s' ∧
      ip s' = if s.registers r = v then t else (p : Int) + 4 := by
  have hlt := cell_lt_length s (p + 3) _ h3
  have hf : fetch s = .ok Instructions.IF := fetch_cell s p 11 hip h0
  have hw1 : wrap32 ((p : Int) + 1) = (p : Int) + 1 := wrap32_eq (by omega) (by omega)
  have hw2 : wrap32 ((p : Int) + 2) = (p : Int) + 2 := wrap32_eq (by omega) (by omega)
  have hw3 : wrap32 ((p : Int) + 3) = (p : Int) + 3 := wrap32_eq (by omega) (by omega)
  have hw4 : wrap32 ((p : Int) + 3 + 1) = (p : Int) + 4 := by
    rw [wrap32_eq (by omega) (by omega)]; ring
  have ht1 : ((p : Int) + 1).toNat = p + 1 := by omega
  have ht2 : ((p : Int) + 2).toNat = p + 2 := by omega
  have ht3 : ((p : Int) + 3).toNat = p + 3 := by omega
  have hn1 : (0 : Int) ≤ (p : Int) + 1 := by omega
  have hn2 : (0 : Int) ≤ (p : Int) + 2 := by omega
  have hn3 : (0 : Int) ≤ (p : Int) + 3 := by omega
  simp only [sp, ip, Registers.IP, Registers.SP] at hip ⊢
  by_cases hc : s.registers r = v
  · simp [cycle, hf, bind, Except.bind, eval, pure, Except.pure, set_ip, reg_assign, ip,
      Registers.IP, hip, hw1, hw2, hw3, hw4, instr_at, h1, h2, h3, reg_get, REGISTER_SIZE,
      Registers.Last, ht1, ht2, ht3, hn1, hn2, hn3, hr, hc, same_but_ip]
    intro j hj; simp [hj]
  · simp [cycle, hf, bind, Except.bind, eval, pure, Except.pure, set_ip, reg_assign, ip,
      Registers.IP, hip, hw1, hw2, hw3, hw4, instr_at, h1, h2, h3, reg_get, REGISTER_SIZE,
      Registers.Last, ht1, ht2, ht3, hn1, hn2, hn3, hr, hc, same_but_ip]
    intro j hj; simp [hj]

theorem cycle_IFN (s : State) (p : Nat) (r v t : Int) (hip : ip s = p)
    (hlen : s.instructions.length ≤ 2147483647) (hr : 0 ≤ r ∧ r < 12)
    (h0 : s.instructions[p]? = some (some 12))
    (h1 : s.instructions[p + 1]? = some (some r))
    (h2 : s.instructions[p + 2]? = some (some v))
    (h3 : s.instructions[p + 3]? = some (some t)) :
    ∃ s', cycle s = .ok s' ∧ same_but_ip s s' ∧
      ip s' = if s.registers r = v then (p : Int) + 4 else t := by
  have hlt := cell_lt_length s (p + 3) _ h3
  have hf : fetch s = .ok Instructions.IFN := fetch_cell s p 12 hip h0
  have hw1 : wrap32 ((p : Int) + 1) = (p : Int) + 1 := wrap32_eq (by omega) (by omega)
  have hw2 : wrap32 ((p : Int) + 2) = (p : Int) + 2 := wrap32_eq (by omega) (by omega)
  have hw3 : wrap32 ((p : Int) + 3) = (p : Int) + 3 := wrap32_eq (by omega) (by omega)
  have hw4 : wrap32 ((p : Int) + 3 + 1) = (p : Int) + 4 := by
    rw [wrap32_eq (by omega) (by omega)]; ring
  have ht1 : ((p : Int) + 1).toNat = p + 1 := by omega
  have ht2 : ((p : Int) + 2).toNat = p + 2 := by omega
  have ht3 : ((p : Int) + 3).toNat = p + 3 := by omega
  have hn1 : (0 : Int) ≤ (p : Int) + 1 := by omega
  have hn2 : (0 : Int) ≤ (p : Int) + 2 := by omega
  have hn3 : (0 : Int) ≤ (p : Int) + 3 := by omega
  simp only [sp, ip, Registers.IP, Registers.SP] at hip ⊢
  by_cases hc : s.registers r = v
  · simp [cycle, hf, bind, Except.bind, eval, pure, Except.pure, set_ip, reg_assign, ip,
      Registers.IP, hip, hw1, hw2, hw3, hw4, instr_at, h1, h2, h3, reg_get, REGISTER_SIZE,
      Registers.Last, ht1, ht2, ht3, hn1, hn2, hn3, hr, hc, same_but_ip]
    intro j hj; simp [hj]
  · simp [cycle, hf, bind, Except.bind, eval, pure, Except.pure, set_ip, reg_assign, ip,
      Registers.IP, hip, hw1, hw2, hw3, hw4, instr_at, h1, h2, h3, reg_get, REGISTER_SIZE,
      Registers.Last, ht1, ht2, ht3, hn1, hn2, hn3, hr, hc, same_but_ip]
    intro j hj; simp [hj]

/-- C6: for an instruction `IF r v t` at position `p` (valid register index `r`,
program store of at most `INT_MAX` cells), one full cycle ends with `IP = t`
exactly when `registers[r] == v` and with `IP = p + 4` otherwise; for
`IFN r v t` it ends with `IP = t` when `registers[r] != v` and with `IP = p + 4`
otherwise.  In all four cases the stack and every register other than `IP` are
unchanged. -/
theorem C6_conditional_jump_cycle (s : State) (p : Nat) (op r v t : Int) (hip : ip s = p)
    (hlen : s.instructions.length ≤ 2147483647) (hr : 0 ≤ r ∧ r < REGISTER_SIZE)
    (h0 : s.instructions[p]? = some (some op))
    (h1 : s.instructions[p + 1]? = some (some r))
    (h2 : s.instructions[p + 2]? = some (some v))
    (h3 : s.instructions[p + 3]? = some (some t)) :
    (op = Instructions.IF.toInt →
      ∃ s', cycle s = .ok s' ∧ same_but_ip s s' ∧
        (s.registers r = v → ip s' = t) ∧ (s.registers r ≠ v → ip s' = (p : Int) + 4)) ∧
    (op = Instructions.IFN.toInt →
      ∃ s', cycle s = .ok s' ∧ same_but_ip s s' ∧
        (s.registers r ≠ v → ip s' = t) ∧ (s.registers r = v → ip s' = (p : Int) + 4)) := by
  constructor
  · intro hop
    subst hop
    obtain ⟨s', hc, hsame, hip'⟩ := cycle_IF s p r v t hip hlen hr h0 h1 h2 h3
    refine ⟨s', hc, hsame, ?_, ?_⟩
    · intro h; rw [hip', if_pos h]
    · intro h; rw [hip', if_neg h]
  · intro hop
    subst hop
    obtain ⟨s', hc, hsame, hip'⟩ := cycle_IFN s p r v t hip hlen hr h0 h1 h2 h3
    refine ⟨s', hc, hsame, ?_, ?_⟩
    · intro h; rw [hip', if_neg h]
    · intro h; rw [hip', if_pos h]

theorem C6_conditional_jump_cycle_witness :
    ip (jump_state 11 0 5 9 5) = ((0 : Nat) : Int) ∧
    (jump_state 11 0 5 9 5).instructions = [some 11, some 0, some 5, some 9] ∧
    (jump_state 11 0 5 9 5).registers 0 = 5 ∧
    ∃ s', cycle (jump_state 11 0 5 9 5) = .ok s' ∧
      same_but_ip (jump_state 11 0 5 9 5) s' ∧ ip s' = 9 := by
  obtain ⟨s', hc, hsame, htaken, _⟩ :=
    (C6_conditional_jump_cycle (jump_state 11 0 5 9 5) 0 11 0 5 9 (by decide) (by decide)
      (by decide) rfl rfl rfl rfl).1 rfl
  exact ⟨by decide, rfl, by decide, s', hc, hsame, htaken (by decide)⟩

/-! ### The loader -/

/-- C7 on the code: loading the six integers `1 3 1 4 3 0` leaves the cells
`0..3` of the program store indeterminate (the array allocated when the fourth
value made the store grow is a fresh one, nothing is copied into it) and only
the cells `4` and `5` hold what was read; the three integers `1 3 0`, which fit
the initial capacity, are all present. -/
theorem C7_growth_discards_read_cells :
    load six_cell_file = .ok
      { instructions := [none, none, none, none, some 3, some 0, none, none]
        instruction_space := 8
        i := 6 } ∧
    load [1, 3, 1, 4] = .ok
      { instructions := [none, none, none, none, none, none, none, none]
        instruction_space := 8
        i := 4 } ∧
    load [1, 3, 0] = .ok
      { instructions := [some 1, some 3, some 0, none]
        instruction_space := 4
        i := 3 } :=
  ⟨rfl, rfl, rfl⟩

/-! ### `HLT` as the first instruction -/

theorem boot_ip (prog : List Int) : ip (boot prog) = ((0 : Nat) : Int) := by
  simp [boot, init, set_sp, reg_assign, ip, Registers.IP, Registers.SP]

theorem hlt_first_run (rest : List Int) :
    ∃ s', (∀ fuel, loop (fuel + 1) (boot (Instructions.HLT.toInt :: rest))
        = Outcome.finished s') ∧
      s'.running = false ∧ s'.stack = (boot (Instructions.HLT.toInt :: rest)).stack ∧
      (∀ r, r ≠ Registers.IP →
        s'.registers r = (boot (Instructions.HLT.toInt :: rest)).registers r) ∧
      ip s' = 1 := by
  obtain ⟨s', hc, hr, hst, hip, hreg⟩ :=
    cycle_HLT (boot (Instructions.HLT.toInt :: rest)) 0 (boot_ip _)
      (by simp [boot, init, set_sp, reg_assign, Instructions.toInt]) (by norm_num)
  refine ⟨s', ?_, hr, hst, hreg, by rw [hip]; norm_num⟩
  intro fuel
  rw [loop_step fuel _ s' rfl
    (by rw [boot_ip]; simp [boot, init, set_sp, reg_assign]) hc]
  exact loop_halted fuel s' hr

/-- C8 (as amended): for every program whose first cell is `HLT`, the execution
loop started in the initial state stops after that one instruction with
`running = false`, every stack cell unchanged (still `0`) and every register
other than `IP` still holding its initial value (`SP = -1`, the others `0`);
`IP` has been advanced to `1`. -/
theorem C8_hlt_first (rest : List Int) :
    ∃ s', (∀ fuel, loop (fuel + 1) (boot (Instructions.HLT.toInt :: rest))
        = Outcome.finished s') ∧
      s'.running = false ∧
      s'.stack = (boot (Instructions.HLT.toInt :: rest)).stack ∧
      (∀ r, r ≠ Registers.IP →
        s'.registers r = (boot (Instructions.HLT.toInt :: rest)).registers r) ∧
      (∀ j, s'.stack j = 0) ∧ sp s' = -1 ∧
      (∀ r, r ≠ Registers.IP → r ≠ Registers.SP → s'.registers r = 0) ∧
      ip s' = 1 := by
  obtain ⟨s', hrun, hr, hst, hreg, hip⟩ := hlt_first_run rest
  refine ⟨s', hrun, hr, hst, hreg, ?_, ?_, ?_, hip⟩
  · intro j; rw [hst]; rfl
  · show s'.registers Registers.SP = -1
    rw [hreg _ (by decide)]
    simp [boot, init, set_sp, reg_assign]
  · intro r h1 h2
    rw [hreg r h1]
    simp [boot, init, set_sp, reg_assign, h2]

/-- C8 as stated fails: on the one-cell program `HLT` the loop stops with
`running = false`, but `IP`, `0` in the initial state, is `1` afterwards, so not
every register still holds its initial value. -/
theorem C8_ip_advanced_after_hlt :
    ∃ s', (∀ fuel, loop (fuel + 1) (boot [Instructions.HLT.toInt]) = Outcome.finished s') ∧
      s'.running = false ∧ ip (boot [Instructions.HLT.toInt]) = 0 ∧ ip s' = 1 ∧
      s'.registers Registers.IP ≠ (boot [Instructions.HLT.toInt]).registers Registers.IP := by
  obtain ⟨s', hrun, hr, _, _, hip⟩ := hlt_first_run []
  refine ⟨s', hrun, hr, by decide, hip, ?_⟩
  show ip s' ≠ ip (boot [Instructions.HLT.toInt])
  rw [hip]; decide

/-! ### Unknown opcodes -/

theorem ofInt_other (op : Int) (h : op < 0 ∨ 15 < op) :
    Instructions.ofInt op = Instructions.other op := by
  have e0 : op ≠ 0 := by omega
  have e1 : op ≠ 1 := by omega
  have e2 : op ≠ 2 := by omega
  have e3 : op ≠ 3 := by omega
  have e4 : op ≠ 4 := by omega
  have e5 : op ≠ 5 := by omega
  have e6 : op ≠ 6 := by omega
  have e7 : op ≠ 7 := by omega
  have e8 : op ≠ 8 := by omega
  have e9 : op ≠ 9 := by omega
  have e10 : op ≠ 10 := by omega
  have e11 : op ≠ 11 := by omega
  have e12 : op ≠ 12 := by omega
  have e13 : op ≠ 13 := by omega
  have e14 : op ≠ 14 := by omega
  have e15 : op ≠ 15 := by omega
  simp [Instructions.ofInt, e0, e1, e2, e3, e4, e5, e6, e7, e8, e9, e10, e11, e12, e13, e14, e15]

/-- C9: for every machine state whose instruction pointer is at a cell holding a
value outside `0..15` (such as `99` or a negative value; program store of at
most `INT_MAX` cells), one full cycle does not fault and does not halt:
`running` keeps its value (stays true), the stack and every register other than
`IP` are unchanged, and `IP` is increased by exactly 1. -/
theorem C9_unknown_opcode_cycle (s : State) (p : Nat) (op : Int) (hip : ip s = p)
    (hlen : s.instructions.length ≤ 2147483647)
    (h0 : s.instructions[p]? = some (some op)) (hop : op < 0 ∨ 15 < op) :
    ∃ s', cycle s = .ok s' ∧ same_but_ip s s' ∧ (s.running = true → s'.running = true) ∧
      ip s' = ip s + 1 := by
  have hlt := cell_lt_length s p _ h0
  have he : eval (Instructions.ofInt op) s = .ok { s with is_jmp := false } := by
    rw [ofInt_other op hop]; rfl
  have hc := cycle_plain s { s with is_jmp := false } p op hip h0 (by omega) he rfl rfl
  refine ⟨_, hc, ⟨rfl, ?_, rfl, rfl, rfl⟩, fun h => h, ?_⟩
  · intro j hj
    simp [set_ip, reg_assign, hj]
  · rw [hip]
    simp [set_ip, reg_assign, ip, Registers.IP]

theorem C9_unknown_opcode_cycle_witness :
    ip (three_cell_state 99 (-5) 0) = ((0 : Nat) : Int) ∧
    (three_cell_state 99 (-5) 0).instructions = [some 99, some (-5), some 0] ∧
    ∃ s', cycle (three_cell_state 99 (-5) 0) = .ok s' ∧
      same_but_ip (three_cell_state 99 (-5) 0) s' ∧ s'.running = true ∧ ip s' = 1 := by
  obtain ⟨s', hc, hsame, hrun, hip⟩ :=
    C9_unknown_opcode_cycle (three_cell_state 99 (-5) 0) 0 99 (by decide) (by decide) rfl
      (by decide)
  refine ⟨by decide, rfl, s', hc, hsame, hrun rfl, ?_⟩
  rw [hip]; decide

/-! ### `MOV` and `SET` -/

theorem cycle_MOV (s : State) (p : Nat) (src dst : Int) (hip : ip s = p)
    (hlen : s.instructions.length ≤ 2147483647)
    (hsrc : 0 ≤ src ∧ src < 12) (hdst : 0 ≤ dst ∧ dst < 12) (hd : dst ≠ 10)
    (h0 : s.instructions[p]? = some (some 8))
    (h1 : s.instructions[p + 1]? = some (some src))
    (h2 : s.instructions[p + 2]? = some (some dst)) :
    ∃ s', cycle s = .ok s' ∧ s'.registers dst = s.registers src ∧ s'.stack = s.stack ∧
      (∀ j, j ≠ dst → j ≠ Registers.IP → s'.registers j = s.registers j) ∧
      ip s' = (p : Int) + 3 := by
  have hlt := cell_lt_length s (p + 2) _ h2
  have hf : fetch s = .ok Instructions.MOV := fetch_cell s p 8 hip h0
  have hw1 : wrap32 ((p : Int) + 1) = (p : Int) + 1 := wrap32_eq (by omega) (by omega)
  have hw2 : wrap32 ((p : Int) + 2) = (p : Int) + 2 := wrap32_eq (by omega) (by omega)
  have hw3 : wrap32 ((p : Int) + 2 + 1) = (p : Int) + 3 := by
    rw [wrap32_eq (by omega) (by omega)]; ring
  have ht1 : ((p : Int) + 1).toNat = p + 1 := by omega
  have ht2 : ((p : Int) + 2).toNat = p + 2 := by omega
  have hn1 : (0 : Int) ≤ (p : Int) + 1 := by omega
  have hn2 : (0 : Int) ≤ (p : Int) + 2 := by omega
  have hd' : ¬ (10 : Int) = dst := fun h => hd h.symm
  simp only [sp, ip, Registers.IP, Registers.SP] at hip ⊢
  simp [cycle, hf, bind, Except.bind, eval, pure, Except.pure, set_ip, reg_assign, ip,
    Registers.IP, hip, hw1, hw2, hw3, instr_at, h1, h2, reg_get, reg_put, REGISTER_SIZE,
    Registers.Last, ht1, ht2, hn1, hn2, hsrc, hdst, hd, hd']
  intro j hj1 hj2; simp [hj1, hj2]

theorem cycle_SET (s : State) (p : Nat) (r v : Int) (hip : ip s = p)
    (hlen : s.instructions.length ≤ 2147483647)
    (hr : 0 ≤ r ∧ r < 12) (hd : r ≠ 10)
    (h0 : s.instructions[p]? = some (some 9))
    (h1 : s.instructions[p + 1]? = some (some r))
    (h2 : s.instructions[p + 2]? = some (some v)) :
    ∃ s', cycle s = .ok s' ∧ s'.registers r = v ∧ s'.stack = s.stack ∧
      (∀ j, j ≠ r → j ≠ Registers.IP → s'.registers j = s.registers j) ∧
      ip s' = (p : Int) + 3 := by
  have hlt := cell_lt_length s (p + 2) _ h2
  have hf : fetch s = .ok Instructions.SET := fetch_cell s p 9 hip h0
  have hw1 : wrap32 ((p : Int) + 1) = (p : Int) + 1 := wrap32_eq (by omega) (by omega)
  have hw2 : wrap32 ((p : Int) + 2) = (p : Int) + 2 := wrap32_eq (by omega) (by omega)
  have hw3 : wrap32 ((p : Int) + 2 + 1) = (p : Int) + 3 := by
    rw [wrap32_eq (by omega) (by omega)]; ring
  have ht1 : ((p : Int) + 1).toNat = p + 1 := by omega
  have ht2 : ((p : Int) + 2).toNat = p + 2 := by omega
  have hn1 : (0 : Int) ≤ (p : Int) + 1 := by omega
  have hn2 : (0 : Int) ≤ (p : Int) + 2 := by omega
  have hd' : ¬ (10 : Int) = r := fun h => hd h.symm
  simp only [sp, ip, Registers.IP, Registers.SP] at hip ⊢
  simp [cycle, hf, bind, Except.bind, eval, pure, Except.pure, set_ip, reg_assign, ip,
    Registers.IP, hip, hw1, hw2, hw3, instr_at, h1, h2, reg_put, REGISTER_SIZE,
    Registers.Last, ht1, ht2, hn1, hn2, hr, hd, hd']
  intro j hj1 hj2; simp [hj1, hj2]

/-- C10: for an instruction at position `p` with register operands that are
valid indices other than `IP` (program store of at most `INT_MAX` cells):
`MOV x y` (first operand the source, second the destination) sets
`registers[y]` to the old `registers[x]`, and `SET x y` sets `registers[x]` to
the immediate `y`; in both cases the stack and every register other than the
destination and `IP` are unchanged. -/
theorem C10_mov_set_cycle (s : State) (p : Nat) (op x y : Int) (hip : ip s = p)
    (hlen : s.instructions.length ≤ 2147483647)
    (h0 : s.instructions[p]? = some (some op))
    (h1 : s.instructions[p + 1]? = some (some x))
    (h2 : s.instructions[p + 2]? = some (some y))
    (hx : 0 ≤ x ∧ x < REGISTER_SIZE) (hxip : x ≠ Registers.IP) :
    (op = Instructions.MOV.toInt → 0 ≤ y ∧ y < REGISTER_SIZE → y ≠ Registers.IP →
      ∃ s', cycle s = .ok s' ∧ s'.registers y = s.registers x ∧ s'.stack = s.stack ∧
        ∀ j, j ≠ y → j ≠ Registers.IP → s'.registers j = s.registers j) ∧
    (op = Instructions.SET.toInt →
      ∃ s', cycle s = .ok s' ∧ s'.registers x = y ∧ s'.stack = s.stack ∧
        ∀ j, j ≠ x → j ≠ Registers.IP → s'.registers j = s.registers j) := by
  constructor
  · intro hop hy hyip
    subst hop
    obtain ⟨s', hc, hv, hst, hreg, _⟩ := cycle_MOV s p x y hip hlen hx hy hyip h0 h1 h2
    exact ⟨s', hc, hv, hst, hreg⟩
  · intro hop
    subst hop
    obtain ⟨s', hc, hv, hst, hreg, _⟩ := cycle_SET s p x y hip hlen hx hxip h0 h1 h2
    exact ⟨s', hc, hv, hst, hreg⟩

theorem C10_mov_set_cycle_witness :
    (three_cell_state 8 0 1).registers 0 = 7 ∧ (three_cell_state 8 0 1).registers 1 = 8 ∧
    (∃ s', cycle (three_cell_state 8 0 1) = .ok s' ∧ s'.registers 1 = 7 ∧
      s'.registers 0 = 7) ∧
    (∃ s', cycle (three_cell_state 9 2 42) = .ok s' ∧ s'.registers 2 = 42 ∧
      s'.registers 0 = 7) := by
  obtain ⟨s', hc, hv, _, hreg⟩ :=
    (C10_mov_set_cycle (three_cell_state 8 0 1) 0 8 0 1 (by decide) (by decide) rfl rfl rfl
      (by decide) (by decide)).1 rfl (by decide) (by decide)
  obtain ⟨t', hc', hv', _, hreg'⟩ :=
    (C10_mov_set_cycle (three_cell_state 9 2 42) 0 9 2 42 (by decide) (by decide) rfl rfl rfl
      (by decide) (by decide)).2 rfl
  refine ⟨by decide, by decide, ⟨s', hc, ?_, ?_⟩, ⟨t', hc', hv', ?_⟩⟩
  · rw [hv]; decide
  · rw [hreg 0 (by decide) (by decide)]; decide
  · rw [hreg' 0 (by decide) (by decide)]; decide
/-! ### `GPT` and `GLD` -/

theorem cycle_GPT (s : State) (p : Nat) (r : Int) (hip : ip s = p)
    (hlen : s.instructions.length ≤ 2147483647)
    (hr : 0 ≤ r ∧ r < 12) (hrip : r ≠ 10)
    (h0 : s.instructions[p]? = some (some 14))
    (h1 : s.instructions[p + 1]? = some (some r))
    (hsp : 0 ≤ sp s ∧ sp s < 256) :
    ∃ s', cycle s = .ok s' ∧ s'.registers r = s.stack (sp s) ∧ s'.stack = s.stack ∧
      (∀ j, j ≠ r → j ≠ Registers.IP → s'.registers j = s.registers j) ∧
      ip s' = (p : Int) + 2 ∧ s'.instructions = s.instructions := by
  have hlt := cell_lt_length s (p + 1) _ h1
  have hf : fetch s = .ok Instructions.GPT := fetch_cell s p 14 hip h0
  have hw1 : wrap32 ((p : Int) + 1) = (p : Int) + 1 := wrap32_eq (by omega) (by omega)
  have hw2 : wrap32 ((p : Int) + 1 + 1) = (p : Int) + 2 := by
    rw [wrap32_eq (by omega) (by omega)]; ring
  have ht1 : ((p : Int) + 1).toNat = p + 1 := by omega
  have hn1 : (0 : Int) ≤ (p : Int) + 1 := by omega
  have hd' : ¬ (10 : Int) = r := fun h => hrip h.symm
  simp only [sp, ip, Registers.IP, Registers.SP] at hip hsp ⊢
  simp [cycle, hf, bind, Except.bind, eval, pure, Except.pure, set_ip, reg_assign, ip, sp,
    Registers.IP, Registers.SP, hip, hw1, hw2, instr_at, h1, reg_put, stack_get, STACK_SIZE,
    REGISTER_SIZE, Registers.Last, ht1, hn1, hr, hrip, hd', hsp]
  intro j hj1 hj2; simp [hj1, hj2]

theorem cycle_GLD (s : State) (p : Nat) (r : Int) (hip : ip s = p)
    (hlen : s.instructions.length ≤ 2147483647)
    (hr : 0 ≤ r ∧ r < 12) (hrip : r ≠ 10) (hrsp : r ≠ 11)
    (h0 : s.instructions[p]? = some (some 13))
    (h1 : s.instructions[p + 1]? = some (some r))
    (hsp : -1 ≤ sp s ∧ sp s < 255) :
    ∃ s', cycle s = .ok s' ∧ sp s' = sp s + 1 ∧
      s'.stack = (fun j => if j = sp s + 1 then s.registers r else s.stack j) ∧
      (∀ j, j ≠ Registers.SP → j ≠ Registers.IP → s'.registers j = s.registers j) ∧
      ip s' = (p : Int) + 2 ∧ s'.instructions = s.instructions := by
  have hlt := cell_lt_length s (p + 1) _ h1
  have hf : fetch s = .ok Instructions.GLD := fetch_cell s p 13 hip h0
  have hw1 : wrap32 ((p : Int) + 1) = (p : Int) + 1 := wrap32_eq (by omega) (by omega)
  have hw2 : wrap32 ((p : Int) + 1 + 1) = (p : Int) + 2 := by
    rw [wrap32_eq (by omega) (by omega)]; ring
  have hw3 : wrap32 (sp s + 1) = sp s + 1 := wrap32_eq (by omega) (by omega)
  have ht1 : ((p : Int) + 1).toNat = p + 1 := by omega
  have hn1 : (0 : Int) ≤ (p : Int) + 1 := by omega
  have hb : 0 ≤ sp s + 1 ∧ sp s + 1 < 256 := by omega
  simp only [sp, ip, Registers.IP, Registers.SP] at hip hsp hw3 hb ⊢
  simp [cycle, hf, bind, Except.bind, eval, pure, Except.pure, set_ip, set_sp, reg_assign, ip,
    sp, Registers.IP, Registers.SP, hip, hw1, hw2, hw3, instr_at, h1, reg_get, stack_put,
    STACK_SIZE, REGISTER_SIZE, Registers.Last, ht1, hn1, hr, hrip, hrsp, hb]
  intro j hj1 hj2; simp [hj1, hj2]

/-- C11: in every state with a non-empty, non-full stack (`0 ≤ SP ≤ 254`), for a
valid register index `r` other than `IP` and `SP`, at position `p` of a
program store of at most `INT_MAX` cells: `GPT r` sets `registers[r]` to
`stack[SP]` without popping (`SP` and every stack cell unchanged), `GLD r`
increments `SP` by one and stores `registers[r]` at the new top (every other
stack cell unchanged), and `GPT r` followed by `GLD r` duplicates the top of
the stack. -/
theorem C11_gpt_gld_cycle (s : State) (p : Nat) (op r : Int) (hip : ip s = p)
    (hlen : s.instructions.length ≤ 2147483647)
    (hsp : 0 ≤ sp s ∧ sp s ≤ 254)
    (hr : 0 ≤ r ∧ r < REGISTER_SIZE) (hrip : r ≠ Registers.IP) (hrsp : r ≠ Registers.SP)
    (h0 : s.instructions[p]? = some (some op))
    (h1 : s.instructions[p + 1]? = some (some r)) :
    (op = Instructions.GPT.toInt →
      ∃ s', cycle s = .ok s' ∧ s'.registers r = s.stack (sp s) ∧ sp s' = sp s ∧
        s'.stack = s.stack) ∧
    (op = Instructions.GLD.toInt →
      ∃ s', cycle s = .ok s' ∧ sp s' = sp s + 1 ∧ s'.stack (sp s + 1) = s.registers r ∧
        ∀ j, j ≠ sp s + 1 → s'.stack j = s.stack j) ∧
    (op = Instructions.GPT.toInt →
      s.instructions[p + 2]? = some (some Instructions.GLD.toInt) →
      s.instructions[p + 3]? = some (some r) →
      ∃ s1 s2, cycle s = .ok s1 ∧ cycle s1 = .ok s2 ∧ sp s2 = sp s + 1 ∧
        s2.stack (sp s + 1) = s.stack (sp s) ∧ s2.stack (sp s) = s.stack (sp s) ∧
        ∀ j, j ≠ sp s + 1 → s2.stack j = s.stack j) := by
  refine ⟨?_, ?_, ?_⟩
  · intro hop
    subst hop
    obtain ⟨s', hc, hv, hst, hreg, _, _⟩ :=
      cycle_GPT s p r hip hlen hr hrip h0 h1 (by omega)
    exact ⟨s', hc, hv, hreg _ (fun h => hrsp h.symm) (by decide), hst⟩
  · intro hop
    subst hop
    obtain ⟨s', hc, hsp', hst, _, _, _⟩ :=
      cycle_GLD s p r hip hlen hr hrip hrsp h0 h1 (by omega)
    refine ⟨s', hc, hsp', ?_, ?_⟩
    · rw [hst]; simp
    · intro j hj; rw [hst]; simp [hj]
  · intro hop h2 h3
    subst hop
    obtain ⟨s1, hc1, hv1, hst1, hreg1, hip1, hi1⟩ :=
      cycle_GPT s p r hip hlen hr hrip h0 h1 (by omega)
    have hsp1 : sp s1 = sp s := hreg1 _ (fun h => hrsp h.symm) (by decide)
    obtain ⟨s2, hc2, hsp2, hst2, _, _, _⟩ :=
      cycle_GLD s1 (p + 2) r (by rw [hip1]; push_cast; ring) (by rw [hi1]; exact hlen) hr hrip
        hrsp (by rw [hi1]; exact h2) (by rw [hi1]; exact h3) (by rw [hsp1]; omega)
    refine ⟨s1, s2, hc1, hc2, by rw [hsp2, hsp1], ?_, ?_, ?_⟩
    · rw [hst2, hsp1, hv1]; simp
    · rw [hst2, hsp1, hst1]; simp
    · intro j hj
      rw [hst2, hsp1, hst1]; simp [hj]

theorem C11_gpt_gld_cycle_witness :
    sp (one_cell_state [14, 3, 13, 3] 42 0) = 0 ∧
    (one_cell_state [14, 3, 13, 3] 42 0).stack 0 = 42 ∧
    ∃ s1 s2, cycle (one_cell_state [14, 3, 13, 3] 42 0) = .ok s1 ∧ cycle s1 = .ok s2 ∧
      sp s2 = 1 ∧ s2.stack 1 = 42 ∧ s2.stack 0 = 42 := by
  obtain ⟨s1, s2, hc1, hc2, hsp, htop, hold, _⟩ :=
    (C11_gpt_gld_cycle (one_cell_state [14, 3, 13, 3] 42 0) 0 14 3 (by decide) (by decide)
      (by decide) (by decide) (by decide) (by decide) rfl rfl).2.2 rfl rfl rfl
  refine ⟨by decide, by decide, s1, s2, hc1, hc2, ?_, ?_, ?_⟩
  · rw [hsp]; decide
  · exact htop
  · exact hold

/-! ### `POP` -/

theorem eval_POP (s : State) :
    eval Instructions.POP s = .ok (set_sp { s with is_jmp := false } (wrap32 (sp s - 1))) :=
  rfl

theorem cycle_POP (s : State) (p : Nat) (hip : ip s = p)
    (hlen : s.instructions.length ≤ 2147483647)
    (h0 : s.instructions[p]? = some (some 2)) :
    ∃ s', cycle s = .ok s' ∧ sp s' = wrap32 (sp s - 1) ∧ s'.stack = s.stack ∧
      (∀ r, r ≠ Registers.SP → r ≠ Registers.IP → s'.registers r = s.registers r) ∧
      ip s' = (p : Int) + 1 ∧ s'.instructions = s.instructions ∧
      s'.instruction_count = s.instruction_count ∧ s'.running = s.running := by
  have hlt := cell_lt_length s p _ h0
  have hc := cycle_plain s _ p 2 hip h0 (by omega) (eval_POP s) rfl
    (by simp [set_sp, reg_assign, ip, Registers.IP, Registers.SP])
  refine ⟨_, hc, ?_, rfl, ?_, ?_, rfl, rfl, rfl⟩
  · simp [set_ip, set_sp, reg_assign, sp, Registers.IP, Registers.SP]
  · intro r h1 h2
    simp only [Registers.SP, Registers.IP] at h1 h2
    simp [set_ip, set_sp, reg_assign, Registers.IP, Registers.SP, h1, h2]
  · simp [set_ip, set_sp, reg_assign, ip, Registers.IP, Registers.SP]

/-- C12: in every machine state `POP` decrements `SP` by one (as an `int`:
`wrap32 (SP - 1)`, which is `SP - 1` for every `int` value of `SP` above
`INT_MIN`) and changes nothing else: every stack cell, the discarded top
included, and every register other than `SP` keep their values, and the full
cycle changes only `IP` in addition.  Hence `PSH v` followed by `POP` restores
`SP` and leaves every stack cell but the one above the original top, which
still holds `v`, as it was. -/
theorem C12_pop_frame (s : State) (p : Nat) (v : Int) (hip : ip s = p)
    (hlen : s.instructions.length ≤ 2147483647) :
    (∃ s', eval Instructions.POP s = .ok s' ∧ sp s' = wrap32 (sp s - 1) ∧
      s'.stack = s.stack ∧ ∀ r, r ≠ Registers.SP → s'.registers r = s.registers r) ∧
    (INT_MIN < sp s → sp s ≤ INT_MAX → wrap32 (sp s - 1) = sp s - 1) ∧
    (s.instructions[p]? = some (some Instructions.POP.toInt) →
      ∃ s', cycle s = .ok s' ∧ sp s' = wrap32 (sp s - 1) ∧ s'.stack = s.stack ∧
        (∀ r, r ≠ Registers.SP → r ≠ Registers.IP → s'.registers r = s.registers r) ∧
        ip s' = ip s + 1) ∧
    (s.instructions[p]? = some (some Instructions.PSH.toInt) →
      s.instructions[p + 1]? = some (some v) →
      s.instructions[p + 2]? = some (some Instructions.POP.toInt) →
      -1 ≤ sp s → sp s ≤ 254 →
      ∃ s1 s2, cycle s = .ok s1 ∧ cycle s1 = .ok s2 ∧ sp s2 = sp s ∧
        (∀ j, j ≠ sp s + 1 → s2.stack j = s.stack j) ∧ s2.stack (sp s + 1) = v) := by
  refine ⟨?_, ?_, ?_, ?_⟩
  · refine ⟨_, eval_POP s, ?_, rfl, ?_⟩
    · simp [set_sp, reg_assign, sp, Registers.SP]
    · intro r hr
      simp only [Registers.SP] at hr
      simp [set_sp, reg_assign, Registers.SP, hr]
  · intro h1 h2
    simp only [INT_MIN, INT_MAX] at h1 h2
    exact wrap32_eq (by omega) (by omega)
  · intro h0
    obtain ⟨s', hc, hsp, hst, hreg, hip', _⟩ := cycle_POP s p hip hlen h0
    exact ⟨s', hc, hsp, hst, hreg, by rw [hip', hip]⟩
  · intro h0 h1 h2 hlo hhi
    have hlt := cell_lt_length s (p + 2) _ h2
    obtain ⟨s1, hc1, hi1, _, _, hip1, hsp1, hst1, _⟩ :=
      cycle_PSH s p v hip h0 h1 (by omega) (by omega)
    obtain ⟨s2, hc2, hsp2, hst2, _, _, _⟩ :=
      cycle_POP s1 (p + 2) (by rw [hip1]; push_cast; ring) (by rw [hi1]; exact hlen)
        (by rw [hi1]; exact h2)
    refine ⟨s1, s2, hc1, hc2, ?_, ?_, ?_⟩
    · rw [hsp2, hsp1, wrap32_eq (by omega) (by omega)]; ring
    · intro j hj
      rw [hst2, hst1]; simp [hj]
    · rw [hst2, hst1]; simp

theorem C12_pop_frame_witness :
    sp (one_cell_state [1, 9, 2] 42 0) = 0 ∧
    (one_cell_state [1, 9, 2] 42 0).stack 0 = 42 ∧
    ∃ s1 s2, cycle (one_cell_state [1, 9, 2] 42 0) = .ok s1 ∧ cycle s1 = .ok s2 ∧
      sp s2 = 0 ∧ s2.stack 0 = 42 ∧ s2.stack 1 = 9 := by
  obtain ⟨s1, s2, hc1, hc2, hsp, hst, htop⟩ :=
    (C12_pop_frame (one_cell_state [1, 9, 2] 42 0) 0 9 (by decide) (by decide)).2.2.2
      rfl rfl rfl (by decide) (by decide)
  refine ⟨by decide, by decide, s1, s2, hc1, hc2, hsp, ?_, htop⟩
  rw [hst 0 (by decide)]; decide

/-! ### The loop guard -/

theorem fetch_negative (s : State) (h : ip s < 0) :
    fetch s = .error (Fault.instruction_index, s) := by
  have : ¬ 0 ≤ ip s := by omega
  simp [fetch, instr_at, this, bind, Except.bind]

theorem cycle_set_ip_loaded :
    ∃ s1, cycle (loaded set_ip_loaded) = .ok s1 ∧ ip s1 = -2 ∧ s1.running = true ∧
      s1.instruction_count = 3 := by
  refine ⟨_, rfl, ?_, ?_, ?_⟩
  · decide
  · rfl
  · rfl

theorem cycle_negative_target :
    ∃ s1, cycle (boot negative_target_program) = .ok s1 ∧ ip s1 = -5 ∧ s1.running = true ∧
      s1.instruction_count = 4 := by
  refine ⟨_, rfl, ?_, ?_, ?_⟩
  · decide
  · rfl
  · rfl

theorem cycle_fetch_fault (s s1 : State) (f : Fault) (hf : fetch s = .error (f, s1)) :
    cycle s = .error (f, s1) := by
  simp [cycle, hf, bind, Except.bind]

theorem loop_fetches_negative (fuel : Nat) (s s1 : State) (hr : s.running = true)
    (hlt : ip s < s.instruction_count) (hc : cycle s = .ok s1) (hr1 : s1.running = true)
    (hneg : ip s1 < 0) (hcnt : 0 ≤ s1.instruction_count) :
    loop (fuel + 2) s = Outcome.faulted Fault.instruction_index s1 := by
  rw [loop_step (fuel + 1) s s1 hr hlt hc]
  exact loop_fault fuel s1 s1 _ hr1 (by omega) (cycle_fetch_fault s1 s1 _ (fetch_negative s1 hneg))

/-- C13 on the code: the loop guard `running && ip() < instruction_count` has no
lower bound.  The file `9 10 -5` (`SET IP -5`) loads into three valid cells;
its one cycle leaves `IP = -2`, the guard passes (`-2 < 3`) and the next fetch
reads `instructions[-2]`, outside the store.  Likewise on the program store
`IF A 0 -5` the taken jump leaves `IP = -5` and the loop fetches there. -/
theorem C13_loop_fetches_below_zero :
    load set_ip_file = .ok set_ip_loaded ∧
    (∃ s1, cycle (loaded set_ip_loaded) = .ok s1 ∧ ip s1 = -2 ∧ s1.running = true ∧
      ip s1 < s1.instruction_count ∧ fetch s1 = .error (Fault.instruction_index, s1) ∧
      ∀ fuel, loop (fuel + 2) (loaded set_ip_loaded)
        = Outcome.faulted Fault.instruction_index s1) ∧
    (∃ s1, cycle (boot negative_target_program) = .ok s1 ∧ ip s1 = -5 ∧
      s1.running = true ∧ ip s1 < s1.instruction_count ∧
      fetch s1 = .error (Fault.instruction_index, s1) ∧
      ∀ fuel, loop (fuel + 2) (boot negative_target_program)
        = Outcome.faulted Fault.instruction_index s1) := by
  refine ⟨rfl, ?_, ?_⟩
  · obtain ⟨s1, hc, hip, hr, hcnt⟩ := cycle_set_ip_loaded
    refine ⟨s1, hc, hip, hr, by rw [hip, hcnt]; decide,
      fetch_negative s1 (by rw [hip]; decide), ?_⟩
    intro fuel
    exact loop_fetches_negative fuel _ s1 rfl (by decide) hc hr (by rw [hip]; decide)
      (by rw [hcnt]; decide)
  · obtain ⟨s1, hc, hip, hr, hcnt⟩ := cycle_negative_target
    refine ⟨s1, hc, hip, hr, by rw [hip, hcnt]; decide,
      fetch_negative s1 (by rw [hip]; decide), ?_⟩
    intro fuel
    exact loop_fetches_negative fuel _ s1 rfl (by decide) hc hr (by rw [hip]; decide)
      (by rw [hcnt]; decide)

/-! ### Registers written by the arithmetic instructions -/

theorem eval_ADD_regs (s : State) (h1 : 1 ≤ sp s) (h2 : sp s ≤ 255) :
    ∃ s', eval Instructions.ADD s = .ok s' ∧
      s'.registers Registers.A = s.stack (sp s) ∧
      s'.registers Registers.B = s.stack (sp s - 1) ∧
      s'.registers Registers.C = wrap32 (s.stack (sp s - 1) + s.stack (sp s)) ∧
      ∀ r, r ≠ Registers.A → r ≠ Registers.B → r ≠ Registers.C → r ≠ Registers.SP →
        s'.registers r = s.registers r := by
  have hw : wrap32 (sp s - 1) = sp s - 1 := wrap32_eq (by omega) (by omega)
  have hb : 0 ≤ sp s ∧ sp s < 256 := by omega
  have hb' : 0 ≤ sp s - 1 ∧ sp s - 1 < 256 := by omega
  simp only [sp, ip, Registers.IP, Registers.SP, Registers.A, Registers.B, Registers.C]
    at hw hb hb' ⊢
  simp [eval, bind, Except.bind, pure, Except.pure, set_sp, reg_assign, sp,
    Registers.SP, Registers.A, Registers.B, Registers.C, hw, stack_get, stack_put, STACK_SIZE,
    hb, hb']
  intro r ha hb hc hd
  simp [ha, hb, hc, hd]

theorem eval_SUB_regs (s : State) (h1 : 1 ≤ sp s) (h2 : sp s ≤ 255) :
    ∃ s', eval Instructions.SUB s = .ok s' ∧
      s'.registers Registers.A = s.stack (sp s) ∧
      s'.registers Registers.B = s.stack (sp s - 1) ∧
      s'.registers Registers.C = wrap32 (s.stack (sp s - 1) - s.stack (sp s)) ∧
      ∀ r, r ≠ Registers.A → r ≠ Registers.B → r ≠ Registers.C → r ≠ Registers.SP →
        s'.registers r = s.registers r := by
  have hw : wrap32 (sp s - 1) = sp s - 1 := wrap32_eq (by omega) (by omega)
  have hb : 0 ≤ sp s ∧ sp s < 256 := by omega
  have hb' : 0 ≤ sp s - 1 ∧ sp s - 1 < 256 := by omega
  simp only [sp, ip, Registers.IP, Registers.SP, Registers.A, Registers.B, Registers.C]
    at hw hb hb' ⊢
  simp [eval, bind, Except.bind, pure, Except.pure, set_sp, reg_assign, sp,
    Registers.SP, Registers.A, Registers.B, Registers.C, hw, stack_get, stack_put, STACK_SIZE,
    hb, hb']
  intro r ha hb hc hd
  simp [ha, hb, hc, hd]

theorem eval_MUL_regs (s : State) (h1 : 1 ≤ sp s) (h2 : sp s ≤ 255) :
    ∃ s', eval Instructions.MUL s = .ok s' ∧
      s'.registers Registers.A = s.stack (sp s) ∧
      s'.registers Registers.B = s.stack (sp s - 1) ∧
      s'.registers Registers.C = wrap32 (s.stack (sp s - 1) * s.stack (sp s)) ∧
      ∀ r, r ≠ Registers.A → r ≠ Registers.B → r ≠ Registers.C → r ≠ Registers.SP →
        s'.registers r = s.registers r := by
  have hw : wrap32 (sp s - 1) = sp s - 1 := wrap32_eq (by omega) (by omega)
  have hb : 0 ≤ sp s ∧ sp s < 256 := by omega
  have hb' : 0 ≤ sp s - 1 ∧ sp s - 1 < 256 := by omega
  simp only [sp, ip, Registers.IP, Registers.SP, Registers.A, Registers.B, Registers.C]
    at hw hb hb' ⊢
  simp [eval, bind, Except.bind, pure, Except.pure, set_sp, reg_assign, sp,
    Registers.SP, Registers.A, Registers.B, Registers.C, hw, stack_get, stack_put, STACK_SIZE,
    hb, hb']
  intro r ha hb hc hd
  simp [ha, hb, hc, hd]

theorem eval_DIV_regs (s : State) (h1 : 1 ≤ sp s) (h2 : sp s ≤ 255) :
    (end_state (eval Instructions.DIV s)).registers Registers.A = s.stack (sp s) ∧
    (end_state (eval Instructions.DIV s)).registers Registers.B = s.stack (sp s - 1) ∧
    ∀ r, r ≠ Registers.A → r ≠ Registers.B → r ≠ Registers.C → r ≠ Registers.SP →
      (end_state (eval Instructions.DIV s)).registers r = s.registers r := by
  have hw : wrap32 (sp s - 1) = sp s - 1 := wrap32_eq (by omega) (by omega)
  have hb : 0 ≤ sp s ∧ sp s < 256 := by omega
  have hb' : 0 ≤ sp s - 1 ∧ sp s - 1 < 256 := by omega
  simp only [sp, ip, Registers.IP, Registers.SP, Registers.A, Registers.B, Registers.C]
    at hw hb hb' ⊢
  by_cases hz : s.stack (s.registers 11) = 0
  · simp [eval, bind, Except.bind, pure, Except.pure, set_sp, reg_assign, sp,
      Registers.SP, Registers.A, Registers.B, Registers.C, hw, stack_get, stack_put,
      STACK_SIZE, hb, hb', int_div, hz, end_state]
    intro r ha hb hc hd
    simp [ha, hb, hd]
  · by_cases hov : s.stack (s.registers 11 - 1) = -2147483648 ∧ s.stack (s.registers 11) = -1
    · simp [eval, bind, Except.bind, pure, Except.pure, set_sp, reg_assign, sp,
        Registers.SP, Registers.A, Registers.B, Registers.C, hw, stack_get, stack_put,
        STACK_SIZE, hb, hb', int_div, hz, hov, end_state, INT_MIN]
      intro r ha hb hc hd
      simp [ha, hb, hd]
    · simp [eval, bind, Except.bind, pure, Except.pure, set_sp, reg_assign, sp,
        Registers.SP, Registers.A, Registers.B, Registers.C, hw, stack_get, stack_put,
        STACK_SIZE, hb, hb', int_div, hz, hov, end_state, INT_MIN]
      intro r ha hb hc hd
      simp [ha, hb, hc, hd]

theorem eval_DIV_regs_ok (s : State) (h1 : 1 ≤ sp s) (h2 : sp s ≤ 255)
    (hr : s.stack (sp s) ≠ 0)
    (hov : ¬ (s.stack (sp s - 1) = INT_MIN ∧ s.stack (sp s) = -1)) :
    ∃ s', eval Instructions.DIV s = .ok s' ∧
      s'.registers Registers.A = s.stack (sp s) ∧
      s'.registers Registers.B = s.stack (sp s - 1) ∧
      s'.registers Registers.C = Int.tdiv (s.stack (sp s - 1)) (s.stack (sp s)) ∧
      ∀ r, r ≠ Registers.A → r ≠ Registers.B → r ≠ Registers.C → r ≠ Registers.SP →
        s'.registers r = s.registers r := by
  have hw : wrap32 (sp s - 1) = sp s - 1 := wrap32_eq (by omega) (by omega)
  have hb : 0 ≤ sp s ∧ sp s < 256 := by omega
  have hb' : 0 ≤ sp s - 1 ∧ sp s - 1 < 256 := by omega
  simp only [sp, ip, Registers.IP, Registers.SP, Registers.A, Registers.B, Registers.C,
    INT_MIN] at hw hb hb' hr hov ⊢
  simp [eval, bind, Except.bind, pure, Except.pure, set_sp, reg_assign, sp,
    Registers.SP, Registers.A, Registers.B, Registers.C, hw, stack_get, stack_put, STACK_SIZE,
    hb, hb', int_div, hr, hov, INT_MIN]
  intro r ha hb hc hd
  simp [ha, hb, hc, hd]

theorem eval_DIV_fault_keeps_c (s : State) (h1 : 1 ≤ sp s) (h2 : sp s ≤ 255)
    (hf : s.stack (sp s) = 0 ∨ (s.stack (sp s - 1) = INT_MIN ∧ s.stack (sp s) = -1)) :
    (∃ f s', eval Instructions.DIV s = .error (f, s')) ∧
    (end_state (eval Instructions.DIV s)).registers Registers.C = s.registers Registers.C := by
  have hw : wrap32 (sp s - 1) = sp s - 1 := wrap32_eq (by omega) (by omega)
  have hb : 0 ≤ sp s ∧ sp s < 256 := by omega
  have hb' : 0 ≤ sp s - 1 ∧ sp s - 1 < 256 := by omega
  simp only [sp, ip, Registers.IP, Registers.SP, Registers.A, Registers.B, Registers.C,
    INT_MIN] at hw hb hb' hf ⊢
  rcases hf with hz | hov
  · simp [eval, bind, Except.bind, pure, Except.pure, set_sp, reg_assign, sp,
      Registers.SP, Registers.A, Registers.B, Registers.C, hw, stack_get, stack_put,
      STACK_SIZE, hb, hb', int_div, hz, end_state]
  · have hz : s.stack (s.registers 11) ≠ 0 := by rw [hov.2]; decide
    simp [eval, bind, Except.bind, pure, Except.pure, set_sp, reg_assign, sp,
      Registers.SP, Registers.A, Registers.B, Registers.C, hw, stack_get, stack_put,
      STACK_SIZE, hb, hb', int_div, hz, hov, end_state, INT_MIN]

/-- C19 (as amended): the arithmetic instructions use the general-purpose
registers `A`, `B` and `C` as temporaries, not `EX` and `EXA`: in every state
with at least two stack elements, `ADD`, `SUB` and `MUL` store the old top in
`A`, the old second-from-top in `B` and the result in `C`; `DIV` stores the old
top in `A` and the old second-from-top in `B` (also when it then faults) and,
when it does not fault, its quotient in `C`, while a faulting `DIV` leaves `C`
as it was; each of the four leaves every register other than `A`, `B`, `C` and
`SP` (so `D`, `E`, `F`, `I`, `J`, `EX`, `EXA` and `IP`) unchanged. -/
theorem C19_arith_temporaries (s : State) (h1 : 1 ≤ sp s) (h2 : sp s ≤ 255) :
    (∃ s', eval Instructions.ADD s = .ok s' ∧
      s'.registers Registers.A = s.stack (sp s) ∧
      s'.registers Registers.B = s.stack (sp s - 1) ∧
      s'.registers Registers.C = wrap32 (s.stack (sp s - 1) + s.stack (sp s)) ∧
      ∀ r, r ≠ Registers.A → r ≠ Registers.B → r ≠ Registers.C → r ≠ Registers.SP →
        s'.registers r = s.registers r) ∧
    (∃ s', eval Instructions.SUB s = .ok s' ∧
      s'.registers Registers.A = s.stack (sp s) ∧
      s'.registers Registers.B = s.stack (sp s - 1) ∧
      s'.registers Registers.C = wrap32 (s.stack (sp s - 1) - s.stack (sp s)) ∧
      ∀ r, r ≠ Registers.A → r ≠ Registers.B → r ≠ Registers.C → r ≠ Registers.SP →
        s'.registers r = s.registers r) ∧
    (∃ s', eval Instructions.MUL s = .ok s' ∧
      s'.registers Registers.A = s.stack (sp s) ∧
      s'.registers Registers.B = s.stack (sp s - 1) ∧
      s'.registers Registers.C = wrap32 (s.stack (sp s - 1) * s.stack (sp s)) ∧
      ∀ r, r ≠ Registers.A → r ≠ Registers.B → r ≠ Registers.C → r ≠ Registers.SP →
        s'.registers r = s.registers r) ∧
    ((end_state (eval Instructions.DIV s)).registers Registers.A = s.stack (sp s) ∧
      (end_state (eval Instructions.DIV s)).registers Registers.B = s.stack (sp s - 1) ∧
      ∀ r, r ≠ Registers.A → r ≠ Registers.B → r ≠ Registers.C → r ≠ Registers.SP →
        (end_state (eval Instructions.DIV s)).registers r = s.registers r) ∧
    (s.stack (sp s) ≠ 0 → ¬ (s.stack (sp s - 1) = INT_MIN ∧ s.stack (sp s) = -1) →
      ∃ s', eval Instructions.DIV s = .ok s' ∧
        s'.registers Registers.A = s.stack (sp s) ∧
        s'.registers Registers.B = s.stack (sp s - 1) ∧
        s'.registers Registers.C = Int.tdiv (s.stack (sp s - 1)) (s.stack (sp s)) ∧
        ∀ r, r ≠ Registers.A → r ≠ Registers.B → r ≠ Registers.C → r ≠ Registers.SP →
          s'.registers r = s.registers r) ∧
    (s.stack (sp s) = 0 ∨ (s.stack (sp s - 1) = INT_MIN ∧ s.stack (sp s) = -1) →
      (∃ f s', eval Instructions.DIV s = .error (f, s')) ∧
      (end_state (eval Instructions.DIV s)).registers Registers.C
        = s.registers Registers.C) :=
  ⟨eval_ADD_regs s h1 h2, eval_SUB_regs s h1 h2, eval_MUL_regs s h1 h2, eval_DIV_regs s h1 h2,
    eval_DIV_regs_ok s h1 h2, eval_DIV_fault_keeps_c s h1 h2⟩

theorem C19_arith_temporaries_witness :
    1 ≤ sp (two_cell_state 3 4) ∧ sp (two_cell_state 3 4) ≤ 255 ∧
    (∃ s', eval Instructions.ADD (two_cell_state 3 4) = .ok s' ∧
      s'.registers Registers.A = 4 ∧ s'.registers Registers.B = 3 ∧
      s'.registers Registers.C = 7 ∧ s'.registers Registers.EX = 0) ∧
    1 ≤ sp (two_cell_state (-7) 2) ∧ sp (two_cell_state (-7) 2) ≤ 255 ∧
    (∃ s', eval Instructions.DIV (two_cell_state (-7) 2) = .ok s' ∧
      s'.registers Registers.A = 2 ∧ s'.registers Registers.B = -7 ∧
      s'.registers Registers.C = -3 ∧ s'.registers Registers.EXA = 0) := by
  obtain ⟨⟨s', he, ha, hb, hc, hreg⟩, _⟩ :=
    C19_arith_temporaries (two_cell_state 3 4) (by decide) (by decide)
  obtain ⟨t', hte, hta, htb, htc, htreg⟩ :=
    (C19_arith_temporaries (two_cell_state (-7) 2) (by decide) (by decide)).2.2.2.2.1
      (by decide) (by decide)
  refine ⟨by decide, by decide, ⟨s', he, ?_, ?_, ?_, ?_⟩, by decide, by decide,
    ⟨t', hte, ?_, ?_, ?_, ?_⟩⟩
  · rw [ha]; decide
  · rw [hb]; decide
  · rw [hc]; decide
  · rw [hreg _ (by decide) (by decide) (by decide) (by decide)]; decide
  · rw [hta]; decide
  · rw [htb]; decide
  · rw [htc]; decide
  · rw [htreg _ (by decide) (by decide) (by decide) (by decide)]; decide

/-- C19 as stated fails: in the state with `3` and `4` on the stack and every
general-purpose register `0`, `ADD` leaves `A = 4`, `B = 3` and `C = 7`, so the
general-purpose registers `A`, `B`, `C` are not unchanged, while `EX` and
`EXA` still hold `0`. -/
theorem C19_add_overwrites_a_b_c :
    1 ≤ sp (two_cell_state 3 4) ∧ sp (two_cell_state 3 4) ≤ 255 ∧
    (two_cell_state 3 4).registers Registers.A = 0 ∧
    (two_cell_state 3 4).registers Registers.B = 0 ∧
    (two_cell_state 3 4).registers Registers.C = 0 ∧
    ∃ s', eval Instructions.ADD (two_cell_state 3 4) = .ok s' ∧
      s'.registers Registers.A = 4 ∧ s'.registers Registers.B = 3 ∧
      s'.registers Registers.C = 7 ∧
      s'.registers Registers.EX = 0 ∧ s'.registers Registers.EXA = 0 := by
  obtain ⟨s', he, ha, hb, hc, hreg⟩ := eval_ADD_regs (two_cell_state 3 4) (by decide) (by decide)
  refine ⟨by decide, by decide, by decide, by decide, by decide, s', he, ?_, ?_, ?_, ?_, ?_⟩
  · rw [ha]; decide
  · rw [hb]; decide
  · rw [hc]; decide
  · rw [hreg _ (by decide) (by decide) (by decide) (by decide)]; decide
  · rw [hreg _ (by decide) (by decide) (by decide) (by decide)]; decide

/-! ### `SET` with the instruction pointer as destination -/

theorem wrap32_add_two_one (v : Int) : wrap32 (wrap32 (v + 2) + 1) = wrap32 (v + 3) := by
  unfold wrap32; omega

theorem cycle_SET_IP (s : State) (p : Nat) (v : Int) (hip : ip s = p)
    (hlen : s.instructions.length ≤ 2147483647)
    (h0 : s.instructions[p]? = some (some 9))
    (h1 : s.instructions[p + 1]? = some (some 10))
    (h2 : s.instructions[p + 2]? = some (some v)) :
    ∃ s', cycle s = .ok s' ∧ ip s' = wrap32 (wrap32 (v + 2) + 1) ∧ s'.stack = s.stack ∧
      ∀ j, j ≠ Registers.IP → s'.registers j = s.registers j := by
  have hlt := cell_lt_length s (p + 2) _ h2
  have hf : fetch s = .ok Instructions.SET := fetch_cell s p 9 hip h0
  have hw1 : wrap32 ((p : Int) + 1) = (p : Int) + 1 := wrap32_eq (by omega) (by omega)
  have hw2 : wrap32 ((p : Int) + 2) = (p : Int) + 2 := wrap32_eq (by omega) (by omega)
  have ht1 : ((p : Int) + 1).toNat = p + 1 := by omega
  have ht2 : ((p : Int) + 2).toNat = p + 2 := by omega
  have hn1 : (0 : Int) ≤ (p : Int) + 1 := by omega
  have hn2 : (0 : Int) ≤ (p : Int) + 2 := by omega
  simp only [sp, ip, Registers.IP, Registers.SP] at hip ⊢
  simp [cycle, hf, bind, Except.bind, eval, pure, Except.pure, set_ip, reg_assign, ip,
    Registers.IP, hip, hw1, hw2, instr_at, h1, h2, reg_put, REGISTER_SIZE,
    Registers.Last, ht1, ht2, hn1, hn2]
  intro j hj; simp [hj]

/-- C20 (as amended): `SET IP v` acts as a jump with an offset: for every machine
state with the instruction at its instruction pointer (program store of at
most `INT_MAX` cells) and every `int` `v`, one full cycle ends with
`IP = v + 3` in `int` arithmetic (`wrap32 (v + 3)`, which is `v + 3` whenever
that is at most `INT_MAX`): the stored `v`, plus the operand skip of 2, plus
the loop's increment of 1; so never with `IP = v`, and with `IP = old IP + 3`
exactly when `v` is the old `IP`.  The stack and the other registers are
unchanged. -/
theorem C20_set_ip_jumps_with_offset (s : State) (p : Nat) (v : Int) (hip : ip s = p)
    (hlen : s.instructions.length ≤ 2147483647)
    (h0 : s.instructions[p]? = some (some Instructions.SET.toInt))
    (h1 : s.instructions[p + 1]? = some (some Registers.IP))
    (h2 : s.instructions[p + 2]? = some (some v))
    (hlo : INT_MIN ≤ v) (hhi : v ≤ INT_MAX) :
    ∃ s', cycle s = .ok s' ∧ ip s' = wrap32 (v + 3) ∧
      (v + 3 ≤ INT_MAX → ip s' = v + 3) ∧
      ip s' ≠ v ∧ (ip s' = ip s + 3 ↔ v = ip s) ∧
      s'.stack = s.stack ∧ ∀ j, j ≠ Registers.IP → s'.registers j = s.registers j := by
  obtain ⟨s', hc, hip', hst, hreg⟩ := cycle_SET_IP s p v hip hlen h0 h1 h2
  rw [wrap32_add_two_one] at hip'
  have hp2 : p + 2 < s.instructions.length := by
    by_contra hge
    rw [List.getElem?_eq_none (by omega)] at h2
    cases h2
  simp only [INT_MIN, INT_MAX] at hlo hhi
  have hw : wrap32 (v + 3) = (v + 3 + 2147483648) % 4294967296 - 2147483648 := rfl
  refine ⟨s', hc, hip', ?_, ?_, ?_, hst, hreg⟩
  · intro h3
    simp only [INT_MAX] at h3
    rw [hip']; exact wrap32_eq (by omega) (by omega)
  · rw [hip', hw]; omega
  · rw [hip', hw, hip]
    constructor
    · intro h; omega
    · intro h; omega

theorem C20_set_ip_jumps_with_offset_witness :
    ip (three_cell_state 9 10 40) = 0 ∧
    (three_cell_state 9 10 40).instructions = [some 9, some 10, some 40] ∧
    ∃ s', cycle (three_cell_state 9 10 40) = .ok s' ∧ ip s' = 43 ∧
      ip s' ≠ ip (three_cell_state 9 10 40) + 3 := by
  obtain ⟨s', hc, _, hex, _, hiff, _⟩ :=
    C20_set_ip_jumps_with_offset (three_cell_state 9 10 40) 0 40 (by decide) (by decide)
      rfl rfl rfl (by decide) (by decide)
  exact ⟨by decide, rfl, s', hc, hex (by decide), fun h => absurd (hiff.mp h) (by decide)⟩

/-- C20 as stated fails: the file `9 10 0` (`SET IP 0`) loads into three valid
cells; in the initial state `IP` is `0`, the immediate is `0` as well, and the
one cycle ends with `IP = 3`, which is the old `IP` plus 3.  And the file
`9 10 2147483646` ends its cycle with `IP = -2147483647`, not with `v + 3`,
which no `int` holds. -/
theorem C20_set_ip_to_old_ip :
    load (set_ip_file_with 0) = .ok (set_ip_store 0) ∧
    ip (loaded (set_ip_store 0)) = 0 ∧
    (∃ s', cycle (loaded (set_ip_store 0)) = .ok s' ∧ ip s' = 3 ∧
      ip s' = ip (loaded (set_ip_store 0)) + 3) ∧
    load (set_ip_file_with 2147483646) = .ok (set_ip_store 2147483646) ∧
    (∃ s', cycle (loaded (set_ip_store 2147483646)) = .ok s' ∧ ip s' = -2147483647 ∧
      ip s' ≠ 2147483646 + 3) := by
  obtain ⟨s', hc, hip, _, _⟩ :=
    cycle_SET_IP (loaded (set_ip_store 0)) 0 0 (by decide) (by decide) rfl rfl rfl
  obtain ⟨t', hc', hip', _, _⟩ :=
    cycle_SET_IP (loaded (set_ip_store 2147483646)) 0 2147483646 (by decide) (by decide)
      rfl rfl rfl
  have h3 : ip s' = 3 := by rw [hip]; decide
  have hneg : ip t' = -2147483647 := by rw [hip']; decide
  refine ⟨rfl, by decide, ⟨s', hc, h3, ?_⟩, rfl, ⟨t', hc', hneg, ?_⟩⟩
  · rw [h3]; decide
  · rw [hneg]; decide

/-! ### What a completed instruction did to the instruction pointer -/

theorem bind_ok_inv {α β : Type} {x : Res α} {f : α → Res β} {b : β}
    (h : (x >>= f) = .ok b) : ∃ a, x = .ok a ∧ f a = .ok b := by
  cases x with
  | error e => simp [bind, Except.bind] at h
  | ok a => exact ⟨a, rfl, by simpa [bind, Except.bind] using h⟩

theorem stack_put_ok_inv {s s' : State} {i v : Int} (h : stack_put s i v = .ok s') :
    s'.registers = s.registers ∧ s'.is_jmp = s.is_jmp := by
  unfold stack_put at h
  split at h
  · injection h with h; subst h; exact ⟨rfl, rfl⟩
  · cases h

theorem reg_put_ok_inv {s s' : State} {r v : Int} (h : reg_put s r v = .ok s') :
    s' = reg_assign s r v := by
  unfold reg_put at h
  split at h
  · injection h with h; exact h.symm
  · cases h

theorem instr_at_ok_inv {s : State} {i v : Int} (h : instr_at s i = .ok v) :
    0 ≤ i ∧ s.instructions[i.toNat]? = some (some v) := by
  unfold instr_at at h
  split at h
  · rename_i hi
    refine ⟨hi, ?_⟩
    split at h
    · rename_i w heq
      injection h with h; subst h; exact heq
    · cases h
    · cases h
  · cases h

theorem operand_cell {s : State} {p : Nat} (k : Nat) {v : Int} (hip : ip s = p)
    (hp : (p : Int) + 4 ≤ 2147483647) (hk : k ≤ 3)
    (h : instr_at { s with is_jmp := false } (wrap32 (ip { s with is_jmp := false } + k))
      = .ok v) :
    s.instructions[p + k]? = some (some v) := by
  have hcell := (instr_at_ok_inv h).2
  have hipz : ip { s with is_jmp := false } = p := hip
  have hw : wrap32 ((p : Int) + k) = (p : Int) + k := wrap32_eq (by omega) (by omega)
  have ht : ((p : Int) + k).toNat = p + k := by omega
  rw [hipz, hw, ht] at hcell
  exact hcell

theorem eval_HLT_ip (s s1 : State) (he : eval Instructions.HLT s = .ok s1) : ip s1 = ip s := by
  simp only [eval] at he
  injection he with he
  subst he
  rfl

theorem eval_NOP_ip (s s1 : State) (he : eval Instructions.NOP s = .ok s1) : ip s1 = ip s := by
  simp only [eval] at he
  injection he with he
  subst he
  rfl

theorem eval_other_ip (s s1 : State) (c : Int) (he : eval (Instructions.other c) s = .ok s1) :
    ip s1 = ip s := by
  simp only [eval] at he
  injection he with he
  subst he
  rfl

theorem eval_POP_ip (s s1 : State) (he : eval Instructions.POP s = .ok s1) : ip s1 = ip s := by
  rw [eval_POP] at he
  injection he with he
  subst he
  simp [ip, set_sp, reg_assign, Registers.IP, Registers.SP]

theorem eval_PSH_ip (s s1 : State) (he : eval Instructions.PSH s = .ok s1) :
    ip s1 = wrap32 (ip s + 1) := by
  simp only [eval] at he
  obtain ⟨v, _, he⟩ := bind_ok_inv he
  obtain ⟨hr, _⟩ := stack_put_ok_inv he
  simp only [ip, hr]
  simp [set_ip, set_sp, reg_assign, Registers.IP, Registers.SP]

theorem eval_ADD_ip (s s1 : State) (he : eval Instructions.ADD s = .ok s1) : ip s1 = ip s := by
  simp only [eval] at he
  obtain ⟨a, _, he⟩ := bind_ok_inv he
  obtain ⟨b, _, he⟩ := bind_ok_inv he
  obtain ⟨hr, _⟩ := stack_put_ok_inv he
  simp only [ip, hr]
  simp [set_sp, reg_assign, Registers.IP, Registers.SP, Registers.A, Registers.B, Registers.C]

theorem eval_MUL_ip (s s1 : State) (he : eval Instructions.MUL s = .ok s1) : ip s1 = ip s := by
  simp only [eval] at he
  obtain ⟨a, _, he⟩ := bind_ok_inv he
  obtain ⟨b, _, he⟩ := bind_ok_inv he
  obtain ⟨hr, _⟩ := stack_put_ok_inv he
  simp only [ip, hr]
  simp [set_sp, reg_assign, Registers.IP, Registers.SP, Registers.A, Registers.B, Registers.C]

theorem eval_SUB_ip (s s1 : State) (he : eval Instructions.SUB s = .ok s1) : ip s1 = ip s := by
  simp only [eval] at he
  obtain ⟨a, _, he⟩ := bind_ok_inv he
  obtain ⟨b, _, he⟩ := bind_ok_inv he
  obtain ⟨hr, _⟩ := stack_put_ok_inv he
  simp only [ip, hr]
  simp [set_sp, reg_assign, Registers.IP, Registers.SP, Registers.A, Registers.B, Registers.C]

theorem eval_DIV_ip (s s1 : State) (he : eval Instructions.DIV s = .ok s1) : ip s1 = ip s := by
  simp only [eval] at he
  obtain ⟨a, _, he⟩ := bind_ok_inv he
  obtain ⟨b, _, he⟩ := bind_ok_inv he
  obtain ⟨q, _, he⟩ := bind_ok_inv he
  obtain ⟨hr, _⟩ := stack_put_ok_inv he
  simp only [ip, hr]
  simp [set_sp, reg_assign, Registers.IP, Registers.SP, Registers.A, Registers.B, Registers.C]

theorem eval_SLT_ip (s s1 : State) (he : eval Instructions.SLT s = .ok s1) : ip s1 = ip s := by
  simp only [eval] at he
  obtain ⟨x, _, he⟩ := bind_ok_inv he
  obtain ⟨y, _, he⟩ := bind_ok_inv he
  obtain ⟨hr, _⟩ := stack_put_ok_inv he
  simp only [ip, hr]
  simp [set_sp, reg_assign, Registers.IP, Registers.SP]

theorem eval_LOG_ip (s s1 : State) (he : eval Instructions.LOG s = .ok s1) :
    ip s1 = wrap32 (ip s + 1) := by
  simp only [eval] at he
  obtain ⟨r, _, he⟩ := bind_ok_inv he
  obtain ⟨x, _, he⟩ := bind_ok_inv he
  injection he with he
  subst he
  simp [ip, set_ip, reg_assign, Registers.IP]

theorem eval_GLD_ip (s s1 : State) (he : eval Instructions.GLD s = .ok s1) :
    ip s1 = wrap32 (ip s + 1) := by
  simp only [eval] at he
  obtain ⟨r, _, he⟩ := bind_ok_inv he
  obtain ⟨x, _, he⟩ := bind_ok_inv he
  obtain ⟨hr, _⟩ := stack_put_ok_inv he
  simp only [ip, hr]
  simp [set_ip, set_sp, reg_assign, Registers.IP, Registers.SP]

theorem eval_MOV_ip (s s1 : State) (p : Nat) (hip : ip s = p)
    (hp : (p : Int) + 4 ≤ 2147483647)
    (hd : s.instructions[p + 2]? ≠ some (some Registers.IP))
    (he : eval Instructions.MOV s = .ok s1) : ip s1 = wrap32 (ip s + 2) := by
  simp only [eval] at he
  obtain ⟨src, _, he⟩ := bind_ok_inv he
  obtain ⟨v, _, he⟩ := bind_ok_inv he
  obtain ⟨dst, hdst, he⟩ := bind_ok_inv he
  obtain ⟨s2, hs2, he⟩ := bind_ok_inv he
  have hs2' := reg_put_ok_inv hs2
  injection he with he
  subst he
  subst hs2'
  have hcell := operand_cell 2 hip hp (by omega) hdst
  have hne : ¬ (10 : Int) = dst := by
    intro h; subst h; exact hd hcell
  simp [ip, set_ip, reg_assign, Registers.IP, hne]

theorem eval_SET_ip (s s1 : State) (p : Nat) (hip : ip s = p)
    (hp : (p : Int) + 4 ≤ 2147483647)
    (hd : s.instructions[p + 1]? ≠ some (some Registers.IP))
    (he : eval Instructions.SET s = .ok s1) : ip s1 = wrap32 (ip s + 2) := by
  simp only [eval] at he
  obtain ⟨v, _, he⟩ := bind_ok_inv he
  obtain ⟨r, hr, he⟩ := bind_ok_inv he
  obtain ⟨s2, hs2, he⟩ := bind_ok_inv he
  have hs2' := reg_put_ok_inv hs2
  injection he with he
  subst he
  subst hs2'
  have hcell := operand_cell 1 hip hp (by omega) hr
  have hne : ¬ (10 : Int) = r := by
    intro h; subst h; exact hd hcell
  simp [ip, set_ip, reg_assign, Registers.IP, hne]

theorem eval_GPT_ip (s s1 : State) (p : Nat) (hip : ip s = p)
    (hp : (p : Int) + 4 ≤ 2147483647)
    (hd : s.instructions[p + 1]? ≠ some (some Registers.IP))
    (he : eval Instructions.GPT s = .ok s1) : ip s1 = wrap32 (ip s + 1) := by
  simp only [eval] at he
  obtain ⟨v, _, he⟩ := bind_ok_inv he
  obtain ⟨r, hr, he⟩ := bind_ok_inv he
  obtain ⟨s2, hs2, he⟩ := bind_ok_inv he
  have hs2' := reg_put_ok_inv hs2
  injection he with he
  subst he
  subst hs2'
  have hcell := operand_cell 1 hip hp (by omega) hr
  have hne : ¬ (10 : Int) = r := by
    intro h; subst h; exact hd hcell
  simp [ip, set_ip, reg_assign, Registers.IP, hne]

theorem eval_IF_ip (s s1 : State) (he : eval Instructions.IF s = .ok s1)
    (hj : s1.is_jmp = false) : ip s1 = wrap32 (ip s + 3) := by
  simp only [eval] at he
  obtain ⟨r, _, he⟩ := bind_ok_inv he
  obtain ⟨x, _, he⟩ := bind_ok_inv he
  obtain ⟨v, _, he⟩ := bind_ok_inv he
  split at he
  · obtain ⟨t, _, he⟩ := bind_ok_inv he
    injection he with he
    subst he
    cases hj
  · injection he with he
    subst he
    simp [ip, set_ip, reg_assign, Registers.IP]

theorem eval_IFN_ip (s s1 : State) (he : eval Instructions.IFN s = .ok s1)
    (hj : s1.is_jmp = false) : ip s1 = wrap32 (ip s + 3) := by
  simp only [eval] at he
  obtain ⟨r, _, he⟩ := bind_ok_inv he
  obtain ⟨x, _, he⟩ := bind_ok_inv he
  obtain ⟨v, _, he⟩ := bind_ok_inv he
  split at he
  · obtain ⟨t, _, he⟩ := bind_ok_inv he
    injection he with he
    subst he
    cases hj
  · injection he with he
    subst he
    simp [ip, set_ip, reg_assign, Registers.IP]

theorem cycle_ok_inv {s s' : State} (hc : cycle s = .ok s') (hnj : s'.is_jmp = false) :
    ∃ instr s1, fetch s = .ok instr ∧ eval instr s = .ok s1 ∧ s1.is_jmp = false ∧
      s' = set_ip s1 (wrap32 (ip s1 + 1)) := by
  unfold cycle at hc
  obtain ⟨instr, hf, hc⟩ := bind_ok_inv hc
  obtain ⟨s1, he, hc⟩ := bind_ok_inv hc
  refine ⟨instr, s1, hf, he, ?_⟩
  cases hj : s1.is_jmp with
  | false =>
    simp only [hj, Bool.not_false, if_true] at hc
    injection hc with hc
    exact ⟨rfl, hc.symm⟩
  | true =>
    simp only [hj, Bool.not_true, Bool.false_eq_true, if_false] at hc
    injection hc with hc
    subst hc
    rw [hj] at hnj
    cases hnj

theorem eval_ip_advance (s s1 : State) (p : Nat) (instr : Instructions) (hip : ip s = p)
    (hp : (p : Int) + 4 ≤ 2147483647)
    (he : eval instr s = .ok s1) (hj : s1.is_jmp = false)
    (hmov : instr = Instructions.MOV → s.instructions[p + 2]? ≠ some (some Registers.IP))
    (hset : instr = Instructions.SET → s.instructions[p + 1]? ≠ some (some Registers.IP))
    (hgpt : instr = Instructions.GPT → s.instructions[p + 1]? ≠ some (some Registers.IP)) :
    ip s1 = (p : Int) + claimed_operand_count instr := by
  have w1 : wrap32 ((p : Int) + 1) = (p : Int) + 1 := wrap32_eq (by omega) (by omega)
  have w2 : wrap32 ((p : Int) + 2) = (p : Int) + 2 := wrap32_eq (by omega) (by omega)
  have w3 : wrap32 ((p : Int) + 3) = (p : Int) + 3 := wrap32_eq (by omega) (by omega)
  cases instr with
  | HLT => rw [eval_HLT_ip s s1 he, hip]; simp [claimed_operand_count]
  | PSH => rw [eval_PSH_ip s s1 he, hip, w1]; simp [claimed_operand_count]
  | POP => rw [eval_POP_ip s s1 he, hip]; simp [claimed_operand_count]
  | ADD => rw [eval_ADD_ip s s1 he, hip]; simp [claimed_operand_count]
  | MUL => rw [eval_MUL_ip s s1 he, hip]; simp [claimed_operand_count]
  | DIV => rw [eval_DIV_ip s s1 he, hip]; simp [claimed_operand_count]
  | SUB => rw [eval_SUB_ip s s1 he, hip]; simp [claimed_operand_count]
  | SLT => rw [eval_SLT_ip s s1 he, hip]; simp [claimed_operand_count]
  | MOV => rw [eval_MOV_ip s s1 p hip hp (hmov rfl) he, hip, w2]; simp [claimed_operand_count]
  | SET => rw [eval_SET_ip s s1 p hip hp (hset rfl) he, hip, w2]; simp [claimed_operand_count]
  | LOG => rw [eval_LOG_ip s s1 he, hip, w1]; simp [claimed_operand_count]
  | IF => rw [eval_IF_ip s s1 he hj, hip, w3]; simp [claimed_operand_count]
  | IFN => rw [eval_IFN_ip s s1 he hj, hip, w3]; simp [claimed_operand_count]
  | GLD => rw [eval_GLD_ip s s1 he, hip, w1]; simp [claimed_operand_count]
  | GPT => rw [eval_GPT_ip s s1 p hip hp (hgpt rfl) he, hip, w1]; simp [claimed_operand_count]
  | NOP => rw [eval_NOP_ip s s1 he, hip]; simp [claimed_operand_count]
  | other c => rw [eval_other_ip s s1 c he, hip]; simp [claimed_operand_count]

theorem claimed_operand_count_le (instr : Instructions) :
    0 ≤ claimed_operand_count instr ∧ claimed_operand_count instr ≤ 3 := by
  cases instr <;> simp [claimed_operand_count]

/-! ### The branch flag of a completed instruction -/

theorem reg_get_ok_inv {s : State} {r x : Int} (h : reg_get s r = .ok x) :
    x = s.registers r := by
  unfold reg_get at h
  split at h
  · injection h with h; exact h.symm
  · cases h

theorem eval_flag (s s1 : State) (instr : Instructions) (he : eval instr s = .ok s1)
    (hif : instr ≠ Instructions.IF) (hifn : instr ≠ Instructions.IFN) :
    s1.is_jmp = false := by
  cases instr with
  | HLT => simp only [eval] at he; injection he with he; subst he; rfl
  | NOP => simp only [eval] at he; injection he with he; subst he; rfl
  | other c => simp only [eval] at he; injection he with he; subst he; rfl
  | POP => rw [eval_POP] at he; injection he with he; subst he; rfl
  | PSH =>
    simp only [eval] at he
    obtain ⟨v, _, he⟩ := bind_ok_inv he
    rw [(stack_put_ok_inv he).2]; rfl
  | ADD =>
    simp only [eval] at he
    obtain ⟨a, _, he⟩ := bind_ok_inv he
    obtain ⟨b, _, he⟩ := bind_ok_inv he
    rw [(stack_put_ok_inv he).2]; rfl
  | MUL =>
    simp only [eval] at he
    obtain ⟨a, _, he⟩ := bind_ok_inv he
    obtain ⟨b, _, he⟩ := bind_ok_inv he
    rw [(stack_put_ok_inv he).2]; rfl
  | SUB =>
    simp only [eval] at he
    obtain ⟨a, _, he⟩ := bind_ok_inv he
    obtain ⟨b, _, he⟩ := bind_ok_inv he
    rw [(stack_put_ok_inv he).2]; rfl
  | DIV =>
    simp only [eval] at he
    obtain ⟨a, _, he⟩ := bind_ok_inv he
    obtain ⟨b, _, he⟩ := bind_ok_inv he
    obtain ⟨q, _, he⟩ := bind_ok_inv he
    rw [(stack_put_ok_inv he).2]; rfl
  | SLT =>
    simp only [eval] at he
    obtain ⟨x, _, he⟩ := bind_ok_inv he
    obtain ⟨y, _, he⟩ := bind_ok_inv he
    rw [(stack_put_ok_inv he).2]; rfl
  | GLD =>
    simp only [eval] at he
    obtain ⟨r, _, he⟩ := bind_ok_inv he
    obtain ⟨x, _, he⟩ := bind_ok_inv he
    rw [(stack_put_ok_inv he).2]; rfl
  | LOG =>
    simp only [eval] at he
    obtain ⟨r, _, he⟩ := bind_ok_inv he
    obtain ⟨x, _, he⟩ := bind_ok_inv he
    injection he with he; subst he; rfl
  | MOV =>
    simp only [eval] at he
    obtain ⟨src, _, he⟩ := bind_ok_inv he
    obtain ⟨v, _, he⟩ := bind_ok_inv he
    obtain ⟨dst, _, he⟩ := bind_ok_inv he
    obtain ⟨s2, hs2, he⟩ := bind_ok_inv he
    have hs2' := reg_put_ok_inv hs2
    injection he with he; subst he; subst hs2'; rfl
  | SET =>
    simp only [eval] at he
    obtain ⟨v, _, he⟩ := bind_ok_inv he
    obtain ⟨r, _, he⟩ := bind_ok_inv he
    obtain ⟨s2, hs2, he⟩ := bind_ok_inv he
    have hs2' := reg_put_ok_inv hs2
    injection he with he; subst he; subst hs2'; rfl
  | GPT =>
    simp only [eval] at he
    obtain ⟨v, _, he⟩ := bind_ok_inv he
    obtain ⟨r, _, he⟩ := bind_ok_inv he
    obtain ⟨s2, hs2, he⟩ := bind_ok_inv he
    have hs2' := reg_put_ok_inv hs2
    injection he with he; subst he; subst hs2'; rfl
  | IF => exact absurd rfl hif
  | IFN => exact absurd rfl hifn

theorem eval_IF_untaken (s s1 : State) (p : Nat) (hip : ip s = p)
    (hp : (p : Int) + 4 ≤ 2147483647)
    (hcond : ∀ r v, s.instructions[p + 1]? = some (some r) →
      s.instructions[p + 2]? = some (some v) → s.registers r ≠ v)
    (he : eval Instructions.IF s = .ok s1) : s1.is_jmp = false := by
  simp only [eval] at he
  obtain ⟨r, hr, he⟩ := bind_ok_inv he
  obtain ⟨x, hx, he⟩ := bind_ok_inv he
  obtain ⟨v, hv, he⟩ := bind_ok_inv he
  have hcr := operand_cell 1 hip hp (by omega) hr
  have hcv := operand_cell 2 hip hp (by omega) hv
  have hxr0 := reg_get_ok_inv hx
  have hxr : x = s.registers r := hxr0
  split at he
  · rename_i hxv
    exact absurd (hxr ▸ hxv) (hcond r v hcr hcv)
  · injection he with he
    subst he
    rfl

theorem eval_IFN_untaken (s s1 : State) (p : Nat) (hip : ip s = p)
    (hp : (p : Int) + 4 ≤ 2147483647)
    (hcond : ∀ r v, s.instructions[p + 1]? = some (some r) →
      s.instructions[p + 2]? = some (some v) → s.registers r = v)
    (he : eval Instructions.IFN s = .ok s1) : s1.is_jmp = false := by
  simp only [eval] at he
  obtain ⟨r, hr, he⟩ := bind_ok_inv he
  obtain ⟨x, hx, he⟩ := bind_ok_inv he
  obtain ⟨v, hv, he⟩ := bind_ok_inv he
  have hcr := operand_cell 1 hip hp (by omega) hr
  have hcv := operand_cell 2 hip hp (by omega) hv
  have hxr0 := reg_get_ok_inv hx
  have hxr : x = s.registers r := hxr0
  split at he
  · rename_i hxv
    exact absurd (hxr ▸ hcond r v hcr hcv) hxv
  · injection he with he
    subst he
    rfl

theorem cycle_ok_eval {s s' : State} (hc : cycle s = .ok s') :
    ∃ instr s1, fetch s = .ok instr ∧ eval instr s = .ok s1 ∧
      (s1.is_jmp = false → s' = set_ip s1 (wrap32 (ip s1 + 1))) := by
  unfold cycle at hc
  obtain ⟨instr, hf, hc⟩ := bind_ok_inv hc
  obtain ⟨s1, he, hc⟩ := bind_ok_inv hc
  refine ⟨instr, s1, hf, he, ?_⟩
  intro hj
  simp only [hj, Bool.not_false, if_true] at hc
  injection hc with hc
  exact hc.symm

/-! ### Completion of a cycle -/

theorem toInt_ofInt (op : Int) : (Instructions.ofInt op).toInt = op := by
  by_cases h : op < 0 ∨ 15 < op
  · rw [ofInt_other op h]; rfl
  · have hcases : op = 0 ∨ op = 1 ∨ op = 2 ∨ op = 3 ∨ op = 4 ∨ op = 5 ∨ op = 6 ∨ op = 7 ∨
        op = 8 ∨ op = 9 ∨ op = 10 ∨ op = 11 ∨ op = 12 ∨ op = 13 ∨ op = 14 ∨ op = 15 := by
      omega
    rcases hcases with h | h | h | h | h | h | h | h | h | h | h | h | h | h | h | h <;>
      subst h <;> rfl

theorem cycle_LOG (s : State) (p : Nat) (r : Int) (hip : ip s = p)
    (hlen : s.instructions.length ≤ 2147483647) (hr : 0 ≤ r ∧ r < 12)
    (h0 : s.instructions[p]? = some (some 10))
    (h1 : s.instructions[p + 1]? = some (some r)) :
    ∃ s', cycle s = .ok s' ∧ ip s' = (p : Int) + 2 ∧ same_but_ip s s' := by
  have hlt := cell_lt_length s (p + 1) _ h1
  have hf : fetch s = .ok Instructions.LOG := fetch_cell s p 10 hip h0
  have hw1 : wrap32 ((p : Int) + 1) = (p : Int) + 1 := wrap32_eq (by omega) (by omega)
  have hw2 : wrap32 ((p : Int) + 1 + 1) = (p : Int) + 2 := by
    rw [wrap32_eq (by omega) (by omega)]; ring
  have ht1 : ((p : Int) + 1).toNat = p + 1 := by omega
  have hn1 : (0 : Int) ≤ (p : Int) + 1 := by omega
  simp only [sp, ip, Registers.IP, Registers.SP] at hip ⊢
  simp [cycle, hf, bind, Except.bind, eval, pure, Except.pure, set_ip, reg_assign, ip,
    Registers.IP, hip, hw1, hw2, instr_at, h1, reg_get, REGISTER_SIZE, Registers.Last, ht1,
    hn1, hr, same_but_ip]
  intro j hj; simp [hj]

theorem cycle_GLD_any (s : State) (p : Nat) (r : Int) (hip : ip s = p)
    (hlen : s.instructions.length ≤ 2147483647) (hr : 0 ≤ r ∧ r < 12)
    (h0 : s.instructions[p]? = some (some 13))
    (h1 : s.instructions[p + 1]? = some (some r))
    (hsp : -1 ≤ sp s ∧ sp s < 255) :
    ∃ s', cycle s = .ok s' ∧ ip s' = (p : Int) + 2 := by
  have hlt := cell_lt_length s (p + 1) _ h1
  have hf : fetch s = .ok Instructions.GLD := fetch_cell s p 13 hip h0
  have hw1 : wrap32 ((p : Int) + 1) = (p : Int) + 1 := wrap32_eq (by omega) (by omega)
  have hw2 : wrap32 ((p : Int) + 1 + 1) = (p : Int) + 2 := by
    rw [wrap32_eq (by omega) (by omega)]; ring
  have hw3 : wrap32 (sp s + 1) = sp s + 1 := wrap32_eq (by omega) (by omega)
  have ht1 : ((p : Int) + 1).toNat = p + 1 := by omega
  have hn1 : (0 : Int) ≤ (p : Int) + 1 := by omega
  have hb : 0 ≤ sp s + 1 ∧ sp s + 1 < 256 := by omega
  simp only [sp, ip, Registers.IP, Registers.SP] at hip hsp hw3 hb ⊢
  simp [cycle, hf, bind, Except.bind, eval, pure, Except.pure, set_ip, set_sp, reg_assign, ip,
    sp, Registers.IP, Registers.SP, hip, hw1, hw2, hw3, instr_at, h1, reg_get, stack_put,
    STACK_SIZE, REGISTER_SIZE, Registers.Last, ht1, hn1, hr, hb]

theorem cycle_plain_ip (s s1 : State) (p : Nat) (v : Int) (hip : ip s = p)
    (h0 : s.instructions[p]? = some (some v)) (hp : (p : Int) + 1 ≤ 2147483647)
    (he : eval (Instructions.ofInt v) s = .ok s1) (hj : s1.is_jmp = false)
    (hip1 : ip s1 = ip s) : ∃ s', cycle s = .ok s' ∧ ip s' = (p : Int) + 1 :=
  ⟨_, cycle_plain s s1 p v hip h0 hp he hj hip1, by
    simp [set_ip, reg_assign, ip, Registers.IP]⟩

theorem cycle_completes (s : State) (p : Nat) (op : Int) (hip : ip s = p)
    (hlen : s.instructions.length ≤ 2147483647)
    (h0 : s.instructions[p]? = some (some op))
    (hex : executes_plainly s p (Instructions.ofInt op)) :
    ∃ s', cycle s = .ok s' ∧
      ip s' = (p : Int) + 1 + claimed_operand_count (Instructions.ofInt op) := by
  have hlt := cell_lt_length s p _ h0
  have hp1 : (p : Int) + 1 ≤ 2147483647 := by omega
  generalize hI : Instructions.ofInt op = instr at hex
  have hop : op = instr.toInt := by rw [← hI, toInt_ofInt]
  cases instr with
  | HLT =>
    subst hop
    obtain ⟨s', hc, _, _, hip', _⟩ := cycle_HLT s p hip h0 hp1
    exact ⟨s', hc, by rw [hip']; simp [claimed_operand_count]⟩
  | NOP =>
    subst hop
    obtain ⟨s', hc, hip'⟩ := cycle_plain_ip s { s with is_jmp := false } p _ hip h0 hp1 rfl rfl rfl
    exact ⟨s', hc, by rw [hip']; simp [claimed_operand_count]⟩
  | other c =>
    obtain ⟨s', hc, hip'⟩ := cycle_plain_ip s { s with is_jmp := false } p op hip h0 hp1
      (by rw [hI]; rfl) rfl rfl
    exact ⟨s', hc, by rw [hip']; simp [claimed_operand_count]⟩
  | POP =>
    subst hop
    obtain ⟨s', hc, _, _, _, hip', _⟩ := cycle_POP s p hip hlen h0
    exact ⟨s', hc, by rw [hip']; simp [claimed_operand_count]⟩
  | PSH =>
    subst hop
    obtain ⟨⟨v, hv⟩, hlo, hhi⟩ := hex
    have := cell_lt_length s (p + 1) _ hv
    obtain ⟨s', hc, _, _, _, hip', _⟩ := cycle_PSH s p v hip h0 hv (by omega) ⟨hlo, hhi⟩
    exact ⟨s', hc, by rw [hip']; simp [claimed_operand_count]; ring⟩
  | ADD =>
    subst hop
    obtain ⟨s1, he, hj, _, _, _, hip1, _⟩ := eval_ADD s hex.1 hex.2
    obtain ⟨s', hc, hip'⟩ := cycle_plain_ip s s1 p _ hip h0 hp1 he hj hip1
    exact ⟨s', hc, by rw [hip']; simp [claimed_operand_count]⟩
  | MUL =>
    subst hop
    obtain ⟨s1, he, hj, _, _, _, hip1, _⟩ := eval_MUL s hex.1 hex.2
    obtain ⟨s', hc, hip'⟩ := cycle_plain_ip s s1 p _ hip h0 hp1 he hj hip1
    exact ⟨s', hc, by rw [hip']; simp [claimed_operand_count]⟩
  | SUB =>
    subst hop
    obtain ⟨s1, he, hj, _, _, _, hip1, _⟩ := eval_SUB s hex.1 hex.2
    obtain ⟨s', hc, hip'⟩ := cycle_plain_ip s s1 p _ hip h0 hp1 he hj hip1
    exact ⟨s', hc, by rw [hip']; simp [claimed_operand_count]⟩
  | SLT =>
    subst hop
    obtain ⟨s1, he, hj, _, _, _, hip1, _⟩ := eval_SLT s hex.1 hex.2
    obtain ⟨s', hc, hip'⟩ := cycle_plain_ip s s1 p _ hip h0 hp1 he hj hip1
    exact ⟨s', hc, by rw [hip']; simp [claimed_operand_count]⟩
  | DIV =>
    subst hop
    obtain ⟨h1, h2, hr, hov⟩ := hex
    obtain ⟨s1, he, hj, _, _, _, hip1, _⟩ := eval_DIV s h1 h2 hr hov
    obtain ⟨s', hc, hip'⟩ := cycle_plain_ip s s1 p _ hip h0 hp1 he hj hip1
    exact ⟨s', hc, by rw [hip']; simp [claimed_operand_count]⟩
  | MOV =>
    subst hop
    obtain ⟨x, y, hx, hy, hxv, hyv, hyip⟩ := hex
    obtain ⟨s', hc, _, _, _, hip'⟩ := cycle_MOV s p x y hip hlen hxv hyv hyip h0 hx hy
    exact ⟨s', hc, by rw [hip']; simp [claimed_operand_count]; ring⟩
  | SET =>
    subst hop
    obtain ⟨r, v, hr, hv, hrv, hrip⟩ := hex
    obtain ⟨s', hc, _, _, _, hip'⟩ := cycle_SET s p r v hip hlen hrv hrip h0 hr hv
    exact ⟨s', hc, by rw [hip']; simp [claimed_operand_count]; ring⟩
  | LOG =>
    subst hop
    obtain ⟨r, hr, hrv⟩ := hex
    obtain ⟨s', hc, hip', _⟩ := cycle_LOG s p r hip hlen hrv h0 hr
    exact ⟨s', hc, by rw [hip']; simp [claimed_operand_count]; ring⟩
  | IF =>
    subst hop
    obtain ⟨r, v, t, hr, hv, ht, hrv, hne⟩ := hex
    obtain ⟨s', hc, _, hip'⟩ := cycle_IF s p r v t hip hlen hrv h0 hr hv ht
    exact ⟨s', hc, by rw [hip', if_neg hne]; simp [claimed_operand_count]; ring⟩
  | IFN =>
    subst hop
    obtain ⟨r, v, t, hr, hv, ht, hrv, heq⟩ := hex
    obtain ⟨s', hc, _, hip'⟩ := cycle_IFN s p r v t hip hlen hrv h0 hr hv ht
    exact ⟨s', hc, by rw [hip', if_pos heq]; simp [claimed_operand_count]; ring⟩
  | GLD =>
    subst hop
    obtain ⟨r, hr, hrv, hlo, hhi⟩ := hex
    obtain ⟨s', hc, hip'⟩ := cycle_GLD_any s p r hip hlen hrv h0 hr ⟨hlo, hhi⟩
    exact ⟨s', hc, by rw [hip']; simp [claimed_operand_count]; ring⟩
  | GPT =>
    subst hop
    obtain ⟨r, hr, hrv, hrip, hlo, hhi⟩ := hex
    obtain ⟨s', hc, _, _, _, hip', _⟩ := cycle_GPT s p r hip hlen hrv hrip h0 hr ⟨hlo, hhi⟩
    exact ⟨s', hc, by rw [hip']; simp [claimed_operand_count]; ring⟩

/-- C18: for every machine state whose instruction pointer is at an opcode cell
(program store of at most `INT_MAX - 3` cells) and every instruction that does
not take a branch (every opcode except an `IF` whose register equals the value
or an `IFN` whose register differs from it) and whose destination register
operand (of `MOV`, `SET`, `GPT`) is not `IP`: a full cycle that completes ends
with `IP` equal to the old `IP` plus 1 plus the opcode's operand count, which is
0 for `HLT`, `POP`, `ADD`, `SUB`, `MUL`, `DIV`, `SLT`, `NOP` and unknown opcodes,
1 for `PSH`, `LOG`, `GLD`, `GPT`, 2 for `MOV` and `SET`, 3 for untaken `IF` and
`IFN`; and the cycle does complete so whenever the operands are in the store,
the register indices are valid, the stack pointer is in range and a divisor
is non-zero (`executes_plainly`). -/
theorem C18_ip_advance (s : State) (p : Nat) (op : Int) (hip : ip s = p)
    (hlen : s.instructions.length + 3 ≤ 2147483647)
    (h0 : s.instructions[p]? = some (some op)) :
    (∀ s', cycle s = .ok s' →
      (Instructions.ofInt op = Instructions.IF →
        ∀ r v, s.instructions[p + 1]? = some (some r) →
          s.instructions[p + 2]? = some (some v) → s.registers r ≠ v) →
      (Instructions.ofInt op = Instructions.IFN →
        ∀ r v, s.instructions[p + 1]? = some (some r) →
          s.instructions[p + 2]? = some (some v) → s.registers r = v) →
      (Instructions.ofInt op = Instructions.MOV →
        s.instructions[p + 2]? ≠ some (some Registers.IP)) →
      (Instructions.ofInt op = Instructions.SET →
        s.instructions[p + 1]? ≠ some (some Registers.IP)) →
      (Instructions.ofInt op = Instructions.GPT →
        s.instructions[p + 1]? ≠ some (some Registers.IP)) →
      ip s' = ip s + 1 + claimed_operand_count (Instructions.ofInt op)) ∧
    (executes_plainly s p (Instructions.ofInt op) →
      ∃ s', cycle s = .ok s' ∧
        ip s' = ip s + 1 + claimed_operand_count (Instructions.ofInt op)) := by
  have hlt := cell_lt_length s p _ h0
  have hf := fetch_cell s p op hip h0
  have hp4 : (p : Int) + 4 ≤ 2147483647 := by omega
  constructor
  · intro s' hc hif hifn hmov hset hgpt
    obtain ⟨instr, s1, hf', he, hs'⟩ := cycle_ok_eval hc
    rw [hf] at hf'
    injection hf' with hf'
    subst hf'
    have hj1 : s1.is_jmp = false := by
      by_cases h1 : Instructions.ofInt op = Instructions.IF
      · rw [h1] at he
        exact eval_IF_untaken s s1 p hip hp4 (hif h1) he
      · by_cases h2 : Instructions.ofInt op = Instructions.IFN
        · rw [h2] at he
          exact eval_IFN_untaken s s1 p hip hp4 (hifn h2) he
        · exact eval_flag s s1 _ he h1 h2
    have hadv := eval_ip_advance s s1 p _ hip hp4 he hj1 hmov hset hgpt
    have hcnt := claimed_operand_count_le (Instructions.ofInt op)
    rw [hs' hj1]
    have : ip (set_ip s1 (wrap32 (ip s1 + 1))) = wrap32 (ip s1 + 1) := by
      simp [ip, set_ip, reg_assign, Registers.IP]
    rw [this, hadv, hip, wrap32_eq (by omega) (by omega)]
    ring
  · intro hex
    obtain ⟨s', hc, hip'⟩ := cycle_completes s p op hip (by omega) h0 hex
    exact ⟨s', hc, by rw [hip', hip]⟩

theorem C18_ip_advance_witness :
    ip (three_cell_state 8 0 1) = 0 ∧
    (three_cell_state 8 0 1).instructions = [some 8, some 0, some 1] ∧
    (∃ s', cycle (three_cell_state 8 0 1) = .ok s' ∧ ip s' = 3) ∧
    ip (three_cell_state 10 0 0) = 0 ∧
    (three_cell_state 10 0 0).instructions = [some 10, some 0, some 0] ∧
    (∃ s', cycle (three_cell_state 10 0 0) = .ok s' ∧ ip s' = 2) := by
  have hmov : executes_plainly (three_cell_state 8 0 1) 0 Instructions.MOV :=
    ⟨0, 1, rfl, rfl, by decide, by decide, by decide⟩
  have hlog : executes_plainly (three_cell_state 10 0 0) 0 Instructions.LOG :=
    ⟨0, rfl, by decide⟩
  obtain ⟨s', hc, hip'⟩ :=
    (C18_ip_advance (three_cell_state 8 0 1) 0 8 (by decide) (by decide) rfl).2 hmov
  obtain ⟨t', hct, hipt⟩ :=
    (C18_ip_advance (three_cell_state 10 0 0) 0 10 (by decide) (by decide) rfl).2 hlog
  exact ⟨by decide, rfl, ⟨s', hc, hip'⟩, by decide, rfl, ⟨t', hct, hipt⟩⟩


end VM

/-! ## Theorems about the vector -/

namespace Vec

variable {T : Type}

theorem cell_object (cells : List (Option T)) (i : Nat)
    (h : (cells.getD i none).isSome = true) : ∃ x, cells[i]? = some (some x) := by
  rw [List.getD_eq_getElem?_getD] at h
  cases hc : cells[i]? with
  | none => rw [hc] at h; simp at h
  | some c =>
    cases c with
    | none => rw [hc] at h; simp at h
    | some x => exact ⟨x, rfl⟩

theorem object_cell (cells : List (Option T)) (i : Nat) (x : T)
    (h : cells[i]? = some (some x)) : (cells.getD i none).isSome = true := by
  rw [List.getD_eq_getElem?_getD, h]; rfl

theorem at_pos_ok (v : vector T) (i : Nat) (x : T) (hi : i < size v)
    (h : v.vb.elem[i]? = some (some x)) : at_pos v i = .ok x := by
  have : ¬ i ≥ size v := by omega
  simp [at_pos, check_range, this, h, bind, Except.bind]

theorem at_pos_same (v v' : vector T) (i : Nat) (hwf : wf v) (hi : i < size v)
    (hi' : i < size v') (h : v'.vb.elem[i]? = v.vb.elem[i]?) : at_pos v' i = at_pos v i := by
  obtain ⟨x, hx⟩ := cell_object _ i (hwf.2.2 i hi)
  rw [at_pos_ok v i x hi hx, at_pos_ok v' i x hi' (by rw [h, hx])]

theorem uninitialized_move_spec (count : Nat) :
    ∀ (src : List (Option T)) (b : Nat) (dst : List (Option T)) (oo : Nat),
      (∀ i, i < count → (src.getD (b + i) none).isSome = true) →
      oo + count ≤ dst.length →
      ∃ src' dst', uninitialized_move count src b dst oo = some (src', dst') ∧
        dst'.length = dst.length ∧
        (∀ i, i < count → dst'[oo + i]? = src[b + i]?) ∧
        (∀ j, j < oo → dst'[j]? = dst[j]?) ∧
        (∀ j, oo + count ≤ j → dst'[j]? = dst[j]?) := by
  induction count with
  | zero =>
    intro src b dst oo _ _
    exact ⟨src, dst, rfl, rfl, fun i hi => absurd hi (Nat.not_lt_zero i), fun _ _ => rfl,
      fun _ _ => rfl⟩
  | succ n ih =>
    intro src b dst oo hsrc hdst
    obtain ⟨x, hx⟩ := cell_object src b (by simpa using hsrc 0 (Nat.succ_pos n))
    have hoo : oo < dst.length := by omega
    have hsrc' : ∀ i, i < n → ((src.set b none).getD (b + 1 + i) none).isSome = true := by
      intro i hi
      have := hsrc (i + 1) (by omega)
      rw [List.getD_eq_getElem?_getD] at this ⊢
      rw [List.getElem?_set_ne (by omega)]
      rwa [show b + 1 + i = b + (i + 1) by omega]
    obtain ⟨src', dst', hm, hlen, hcopy, hlow, hhigh⟩ :=
      ih (src.set b none) (b + 1) (dst.set oo (some x)) (oo + 1) hsrc'
        (by rw [List.length_set]; omega)
    refine ⟨src', dst', ?_, ?_, ?_, ?_, ?_⟩
    · simp only [uninitialized_move, hx, hoo, if_true]
      exact hm
    · rw [hlen, List.length_set]
    · intro i hi
      cases i with
      | zero =>
        rw [Nat.add_zero, Nat.add_zero, hlow oo (by omega), hx]
        exact List.getElem?_set_self hoo
      | succ i =>
        rw [show oo + (i + 1) = oo + 1 + i by omega, hcopy i (by omega),
          show b + 1 + i = b + (i + 1) by omega, List.getElem?_set_ne (by omega)]
    · intro j hj
      rw [hlow j (by omega), List.getElem?_set_ne (by omega)]
    · intro j hj
      rw [hhigh j (by omega), List.getElem?_set_ne (by omega)]

theorem reserve_spec (v : vector T) (n : Nat) (hwf : wf v) :
    ∃ v', reserve v n = .ok v' ∧ wf v' ∧ capacity v' = max (capacity v) n ∧
      size v' = size v ∧ (∀ i, i < size v → v'.vb.elem[i]? = v.vb.elem[i]?) ∧
      capacity v' ≤ v'.vb.elem.length ∧ (n ≤ capacity v → v' = v) := by
  by_cases hn : n ≤ capacity v
  · refine ⟨v, by simp [reserve, hn], hwf, ?_, rfl, fun _ _ => rfl, hwf.2.1, fun _ => rfl⟩
    exact (Nat.max_eq_left hn).symm
  · obtain ⟨hsl, hll, hobj⟩ := hwf
    have hlt : capacity v < n := by omega
    have hcap : capacity v = v.vb.last := rfl
    have hsz : size v = v.vb.space := rfl
    obtain ⟨src', dst', hm, hlen, hcopy, _, _⟩ :=
      uninitialized_move_spec (size v) v.vb.elem 0 (List.replicate n (none : Option T)) 0
        (by intro i hi; rw [Nat.zero_add]; exact hobj i hi)
        (by rw [List.length_replicate]; omega)
    rw [List.length_replicate] at hlen
    have hcopy' : ∀ i, i < size v → dst'[i]? = v.vb.elem[i]? := by
      intro i hi
      simpa using hcopy i hi
    refine ⟨{ vb := { elem := dst', space := size v, last := n } }, ?_, ?_, ?_, rfl, hcopy',
      ?_, ?_⟩
    · simp [reserve, hn, vector_base.create, hm]
    · refine ⟨?_, ?_, ?_⟩
      · show size v ≤ n
        omega
      · show n ≤ dst'.length
        omega
      · intro i hi
        obtain ⟨x, hx⟩ := cell_object _ i (hobj i hi)
        exact object_cell dst' i x (by rw [hcopy' i hi, hx])
    · show n = max (capacity v) n
      exact (Nat.max_eq_right (by omega)).symm
    · show n ≤ dst'.length
      omega
    · intro h; omega

/-- C16: for every vector `v` (satisfying the class invariant) and every `n`,
`reserve(n)` returns normally and never decreases the capacity: afterwards
`capacity()` is the maximum of the old capacity and `n`, while `size()` and
every element are unchanged. -/
theorem C16_reserve_capacity (v : vector T) (n : Nat) (hwf : wf v) :
    ∃ v', reserve v n = .ok v' ∧ capacity v' = max (capacity v) n ∧
      capacity v ≤ capacity v' ∧ size v' = size v ∧
      (∀ i, i < size v → at_pos v' i = at_pos v i) ∧ wf v' := by
  obtain ⟨v', hr, hwf', hcap, hsz, hel, _, _⟩ := reserve_spec v n hwf
  refine ⟨v', hr, hcap, ?_, hsz, ?_, hwf'⟩
  · rw [hcap]; exact Nat.le_max_left _ _
  · intro i hi
    exact at_pos_same v v' i hwf hi (by rw [hsz]; exact hi) (hel i hi)

theorem C16_reserve_capacity_witness :
    wf (full_pair (7 : Int) 9) ∧
    ∃ v', reserve (full_pair (7 : Int) 9) 5 = .ok v' ∧ capacity v' = 5 ∧ size v' = 2 ∧
      at_pos v' 0 = .ok 7 ∧ at_pos v' 1 = .ok 9 := by
  have hwf : wf (full_pair (7 : Int) 9) := by
    refine ⟨by decide, by decide, ?_⟩
    intro i hi
    have : i = 0 ∨ i = 1 := by
      have : i < 2 := hi
      omega
    rcases this with h | h <;> subst h <;> rfl
  obtain ⟨v', hr, hcap, _, hsz, hel, _⟩ := C16_reserve_capacity (full_pair (7 : Int) 9) 5 hwf
  refine ⟨hwf, v', hr, by rw [hcap]; rfl, by rw [hsz]; rfl, ?_, ?_⟩
  · rw [hel 0 (by decide)]; rfl
  · rw [hel 1 (by decide)]; rfl


theorem push_back_reads (v : vector T) (val : Argument T) (x : T) (hwf : wf v)
    (hread : read_argument
      (if capacity v = size v
        then storage_after_reserve v (if size v ≠ 0 then size v * 2 else 8)
        else v.vb.elem) val = some x) :
    ∃ v', push_back v val = .ok v' ∧ wf v' ∧ size v' = size v + 1 ∧
      v'.vb.elem[size v]? = some (some x) ∧
      (∀ i, i < size v → v'.vb.elem[i]? = v.vb.elem[i]?) ∧
      capacity v' = (if capacity v = size v then (if size v ≠ 0 then size v * 2 else 8)
        else capacity v) := by
  have hprep : ∃ v1, (if capacity v = size v
        then reserve v (if size v ≠ 0 then size v * 2 else 8) else pure v) = .ok v1 ∧
      wf v1 ∧ size v1 = size v ∧ (∀ i, i < size v → v1.vb.elem[i]? = v.vb.elem[i]?) ∧
      size v < capacity v1 ∧
      capacity v1 = (if capacity v = size v then (if size v ≠ 0 then size v * 2 else 8)
        else capacity v) := by
    by_cases hfull : capacity v = size v
    · obtain ⟨v1, hr, hwf1, hcap, hsz, hel, _, _⟩ :=
        reserve_spec v (if size v ≠ 0 then size v * 2 else 8) hwf
      have hm : capacity v < (if size v ≠ 0 then size v * 2 else 8) := by
        split <;> omega
      have hcap' : capacity v1 = (if size v ≠ 0 then size v * 2 else 8) := by
        rw [hcap]; exact Nat.max_eq_right (by omega)
      refine ⟨v1, by rw [if_pos hfull]; exact hr, hwf1, hsz, hel, by omega, ?_⟩
      rw [if_pos hfull]; exact hcap'
    · have h1 : size v ≤ capacity v := hwf.1
      refine ⟨v, by rw [if_neg hfull]; rfl, hwf, rfl, fun _ _ => rfl, by omega, ?_⟩
      rw [if_neg hfull]
  obtain ⟨v1, hv1, hwf1, hsz1, hel1, hlt1, hcap1⟩ := hprep
  have hlen : size v < v1.vb.elem.length := lt_of_lt_of_le hlt1 hwf1.2.1
  have hsp : v1.vb.space = size v := hsz1
  refine ⟨{ vb := { v1.vb with elem := v1.vb.elem.set (size v) (some x),
                               space := v1.vb.space + 1 } }, ?_, ?_, ?_, ?_, ?_, hcap1⟩
  · unfold push_back
    dsimp only
    by_cases hfull : capacity v = size v
    · rw [if_pos hfull] at hv1 hread ⊢
      rw [hv1]
      simp only [bind, Except.bind, hlen, if_true, if_pos hfull, hread]
    · rw [if_neg hfull] at hv1 hread ⊢
      rw [hv1]
      simp only [bind, Except.bind, hlen, if_true, if_neg hfull, hread]
  · refine ⟨?_, ?_, ?_⟩
    · show v1.vb.space + 1 ≤ v1.vb.last
      rw [hsp]; exact hlt1
    · show v1.vb.last ≤ (v1.vb.elem.set (size v) (some x)).length
      rw [List.length_set]; exact hwf1.2.1
    · intro i hi
      have hi' : i < v1.vb.space + 1 := hi
      by_cases hieq : i = size v
      · subst hieq
        exact object_cell _ _ x (List.getElem?_set_self hlen)
      · obtain ⟨y, hy⟩ := cell_object _ i (hwf1.2.2 i (by omega))
        exact object_cell _ i y (by
          show (v1.vb.elem.set (size v) (some x))[i]? = some (some y)
          rw [List.getElem?_set_ne (Ne.symm hieq), hy])
  · show v1.vb.space + 1 = size v + 1
    rw [hsp]
  · exact List.getElem?_set_self hlen
  · intro i hi
    show (v1.vb.elem.set (size v) (some x))[i]? = v.vb.elem[i]?
    rw [List.getElem?_set_ne (by omega), hel1 i hi]

theorem push_back_released (v : vector T) (i : Nat) (hwf : wf v)
    (hfull : capacity v = size v) :
    ∃ w, push_back v (Argument.element i) = .error (Failure.outside_storage, w) := by
  obtain ⟨v1, hr, hwf1, hcap, _, _, hlen1, _⟩ :=
    reserve_spec v (if size v ≠ 0 then size v * 2 else 8) hwf
  have hm : capacity v < (if size v ≠ 0 then size v * 2 else 8) := by
    split <;> omega
  have hnot : ¬ (if size v ≠ 0 then size v * 2 else 8) ≤ capacity v := by omega
  have hlen : size v < v1.vb.elem.length := by
    have : capacity v1 = (if size v ≠ 0 then size v * 2 else 8) := by
      rw [hcap]; exact Nat.max_eq_right (by omega)
    omega
  refine ⟨v1, ?_⟩
  unfold push_back
  dsimp only
  simp only [if_pos hfull, hr, bind, Except.bind, hlen, if_true, storage_after_reserve,
    if_neg hnot, read_argument, List.getD_nil]

/-- C14 (as amended): for every vector `v` (satisfying the class invariant) and
every `val` that is an object outside the storage of `v`, `push_back(val)`
returns normally; afterwards the size is the old size plus one, the element at
index (old size) is `val`, and every element below the old size is unchanged,
whether or not the call reallocated; when the vector was full the new capacity
is 8 if the old size was 0 and twice the old size otherwise, and when it was
not full the capacity is unchanged.  The same holds when `val` is the element
`v.at(i)` of `v` itself and `v` is not full. -/
theorem C14_push_back (v : vector T) (val : T) (hwf : wf v) :
    (∃ v', push_back v (Argument.object val) = .ok v' ∧ size v' = size v + 1 ∧
      at_pos v' (size v) = .ok val ∧
      (∀ i, i < size v → at_pos v' i = at_pos v i) ∧
      (capacity v = size v → size v = 0 → capacity v' = 8) ∧
      (capacity v = size v → size v ≠ 0 → capacity v' = 2 * size v) ∧
      (capacity v ≠ size v → capacity v' = capacity v) ∧ wf v') ∧
    (∀ i, i < size v → capacity v ≠ size v →
      ∃ v', push_back v (Argument.element i) = .ok v' ∧ size v' = size v + 1 ∧
        at_pos v' (size v) = at_pos v i ∧
        (∀ j, j < size v → at_pos v' j = at_pos v j) ∧
        capacity v' = capacity v ∧ wf v') := by
  constructor
  · obtain ⟨v', hp, hwf', hsz, hnew, hel, hcap⟩ :=
      push_back_reads v (Argument.object val) val hwf rfl
    refine ⟨v', hp, hsz, ?_, ?_, ?_, ?_, ?_, hwf'⟩
    · exact at_pos_ok v' (size v) val (by omega) hnew
    · intro i hi
      exact at_pos_same v v' i hwf hi (by omega) (hel i hi)
    · intro hfull h0
      rw [hcap, if_pos hfull, if_neg (by simpa using h0)]
    · intro hfull h0
      rw [hcap, if_pos hfull, if_pos h0]; omega
    · intro hfull
      rw [hcap, if_neg hfull]
  · intro i hi hfull
    obtain ⟨x, hx⟩ := cell_object _ i (hwf.2.2 i hi)
    have hread : read_argument
        (if capacity v = size v
          then storage_after_reserve v (if size v ≠ 0 then size v * 2 else 8)
          else v.vb.elem) (Argument.element i) = some x := by
      rw [if_neg hfull]
      show v.vb.elem.getD i none = some x
      rw [List.getD_eq_getElem?_getD, hx]; rfl
    obtain ⟨v', hp, hwf', hsz, hnew, hel, hcap⟩ :=
      push_back_reads v (Argument.element i) x hwf hread
    refine ⟨v', hp, hsz, ?_, ?_, ?_, hwf'⟩
    · rw [at_pos_ok v' (size v) x (by omega) hnew, at_pos_ok v i x hi hx]
    · intro j hj
      exact at_pos_same v v' j hwf hj (by omega) (hel j hj)
    · rw [hcap, if_neg hfull]

theorem C14_push_back_witness :
    wf (full_pair (7 : Int) 9) ∧ capacity (full_pair (7 : Int) 9) = 2 ∧
    (∃ v', push_back (full_pair (7 : Int) 9) (Argument.object 5) = .ok v' ∧ size v' = 3 ∧
      capacity v' = 4 ∧ at_pos v' 2 = .ok 5 ∧ at_pos v' 0 = .ok 7 ∧ at_pos v' 1 = .ok 9) ∧
    wf (spare_pair (7 : Int) 9) ∧
    (∃ v', push_back (spare_pair (7 : Int) 9) (Argument.element 0) = .ok v' ∧ size v' = 3 ∧
      capacity v' = 4 ∧ at_pos v' 2 = .ok 7) := by
  have hobj : ∀ (w : vector Int), w.vb.space = 2 →
      (w.vb.elem.getD 0 none).isSome = true → (w.vb.elem.getD 1 none).isSome = true →
      ∀ i, i < w.vb.space → (w.vb.elem.getD i none).isSome = true := by
    intro w hw h0 h1 i hi
    have : i = 0 ∨ i = 1 := by omega
    rcases this with h | h <;> subst h <;> assumption
  have hwf : wf (full_pair (7 : Int) 9) :=
    ⟨by decide, by decide, hobj _ rfl rfl rfl⟩
  have hwf2 : wf (spare_pair (7 : Int) 9) :=
    ⟨by decide, by decide, hobj _ rfl rfl rfl⟩
  obtain ⟨v', hp, hsz, hnew, hel, _, hcap, _, _⟩ :=
    (C14_push_back (full_pair (7 : Int) 9) 5 hwf).1
  obtain ⟨w', hpw, hszw, hneww, _, hcapw, _⟩ :=
    (C14_push_back (spare_pair (7 : Int) 9) 5 hwf2).2 0 (by decide) (by decide)
  refine ⟨hwf, rfl, ⟨v', hp, by rw [hsz]; rfl, ?_, hnew, ?_, ?_⟩, hwf2,
    ⟨w', hpw, by rw [hszw]; rfl, by rw [hcapw]; rfl, ?_⟩⟩
  · rw [hcap rfl (by decide)]; rfl
  · rw [hel 0 (by decide)]; rfl
  · rw [hel 1 (by decide)]; rfl
  · exact hneww.trans rfl

/-- C14 as stated fails: on the full vector holding `7`, `9` (size 2, capacity
2) the call `push_back(v.at(0))` does not return with the element added:
`reserve(4)` moves the elements into a new base and releases the old storage,
and `val`, which refers to the old `elem[0]`, is read after that. -/
theorem C14_push_back_reads_released_element :
    wf (full_pair (7 : Int) 9) ∧ size (full_pair (7 : Int) 9) = 2 ∧
    capacity (full_pair (7 : Int) 9) = 2 ∧ at_pos (full_pair (7 : Int) 9) 0 = .ok 7 ∧
    push_back (full_pair (7 : Int) 9) (Argument.element 0)
      = .error (Failure.outside_storage,
          { vb := { elem := [some 7, some 9, none, none], space := 2, last := 4 } }) ∧
    ¬ ∃ v', push_back (full_pair (7 : Int) 9) (Argument.element 0) = .ok v' := by
  have hwf : wf (full_pair (7 : Int) 9) := by
    refine ⟨by decide, by decide, ?_⟩
    intro i hi
    have : i = 0 ∨ i = 1 := by
      have : i < 2 := hi
      omega
    rcases this with h | h <;> subst h <;> rfl
  have hfail : push_back (full_pair (7 : Int) 9) (Argument.element 0)
      = .error (Failure.outside_storage,
          { vb := { elem := [some 7, some 9, none, none], space := 2, last := 4 } }) := rfl
  refine ⟨hwf, rfl, rfl, rfl, hfail, ?_⟩
  rintro ⟨v', hv'⟩
  rw [hfail] at hv'
  cases hv'

theorem pop_back_spec [Inhabited T] (v : vector T) (hwf : wf v) (hne : size v ≠ 0) :
    pop_back v = .ok { vb := { elem := v.vb.elem.set (size v - 1) none,
                               space := size v - 1, last := size v - 1 } } := by
  obtain ⟨hsl, hll, hobj⟩ := hwf
  have hsz : size v = v.vb.space := rfl
  have hcap : size v - 1 ≤ capacity v := by
    show size v - 1 ≤ v.vb.last
    omega
  obtain ⟨x, hx⟩ := cell_object _ (size v - 1) (hobj (size v - 1) (by omega))
  have hnlt : ¬ size v < size v - 1 := by omega
  have hone : size v - (size v - 1) = 1 := by omega
  simp [pop_back, hne, resize, reserve, hcap, bind, Except.bind, hnlt, hone, destroy, hx]

/-- C15: for every vector `v` (satisfying the class invariant), `pop_back()`
throws `SizeException` if and only if `size() == 0`, and then `v` is unchanged;
otherwise it returns normally, the size decreases by exactly one and every
element at an index below the new size is unchanged. -/
theorem C15_pop_back [Inhabited T] (v : vector T) (hwf : wf v) :
    ((∃ msg w, pop_back v = .error (Failure.SizeException msg, w)) ↔ size v = 0) ∧
    (size v = 0 → pop_back v = .error (Failure.SizeException "Container is empty", v)) ∧
    (size v ≠ 0 →
      ∃ v', pop_back v = .ok v' ∧ size v' + 1 = size v ∧
        (∀ i, i < size v' → at_pos v' i = at_pos v i) ∧ wf v') := by
  have hempty : size v = 0 →
      pop_back v = .error (Failure.SizeException "Container is empty", v) := by
    intro h0
    simp [pop_back, h0]
  have hok := pop_back_spec v hwf
  refine ⟨⟨?_, ?_⟩, hempty, ?_⟩
  · rintro ⟨msg, w, he⟩
    by_contra hne
    rw [hok hne] at he
    cases he
  · intro h0
    exact ⟨_, v, hempty h0⟩
  · intro hne
    refine ⟨_, hok hne, ?_, ?_, ?_⟩
    · show size v - 1 + 1 = size v
      omega
    · intro i hi
      have hi' : i < size v - 1 := hi
      exact at_pos_same v _ i hwf (by omega) hi (List.getElem?_set_ne (by omega))
    · refine ⟨le_refl _, ?_, ?_⟩
      · show size v - 1 ≤ (v.vb.elem.set (size v - 1) none).length
        rw [List.length_set]
        have h1 : size v ≤ v.vb.last := hwf.1
        have h2 := hwf.2.1
        omega
      · intro i hi
        have hi' : i < size v - 1 := hi
        obtain ⟨x, hx⟩ := cell_object _ i (hwf.2.2 i (by
          show i < size v
          omega))
        exact object_cell _ i x (by
          show (v.vb.elem.set (size v - 1) none)[i]? = some (some x)
          rw [List.getElem?_set_ne (by omega), hx])

theorem C15_pop_back_witness :
    wf (spare_pair (7 : Int) 9) ∧ wf (empty : vector Int) ∧
    pop_back (empty : vector Int)
      = .error (Failure.SizeException "Container is empty", empty) ∧
    ∃ v', pop_back (spare_pair (7 : Int) 9) = .ok v' ∧ size v' = 1 ∧ at_pos v' 0 = .ok 7 := by
  have hwf : wf (spare_pair (7 : Int) 9) := by
    refine ⟨by decide, by decide, ?_⟩
    intro i hi
    have : i = 0 ∨ i = 1 := by
      have : i < 2 := hi
      omega
    rcases this with h | h <;> subst h <;> rfl
  have hwf0 : wf (empty : vector Int) :=
    ⟨by decide, by decide, fun i hi => absurd hi (Nat.not_lt_zero i)⟩
  obtain ⟨v', hp, hsz, hel, _⟩ :=
    (C15_pop_back (spare_pair (7 : Int) 9) hwf).2.2 (by decide)
  refine ⟨hwf, hwf0, (C15_pop_back (empty : vector Int) hwf0).2.1 rfl, v', hp, ?_, ?_⟩
  · have : size (spare_pair (7 : Int) 9) = 2 := rfl
    omega
  · have h1 : size v' = 1 := by
      have : size (spare_pair (7 : Int) 9) = 2 := rfl
      omega
    rw [hel 0 (by omega)]; rfl

/-! ### `resize` -/

theorem uninitialized_fill_spec (count : Nat) :
    ∀ (cells : List (Option T)) (first : Nat) (val : T),
      first + count ≤ cells.length →
      ∃ cells', uninitialized_fill count cells first val = some cells' ∧
        cells'.length = cells.length ∧
        (∀ j, j < first → cells'[j]? = cells[j]?) ∧
        (∀ i, i < count → cells'[first + i]? = some (some val)) := by
  induction count with
  | zero =>
    intro cells first val _
    exact ⟨cells, rfl, rfl, fun _ _ => rfl, fun i hi => absurd hi (Nat.not_lt_zero i)⟩
  | succ n ih =>
    intro cells first val hlen
    have hfirst : first < cells.length := by omega
    obtain ⟨cells', hf, hl, hlow, hnew⟩ :=
      ih (cells.set first (some val)) (first + 1) val (by rw [List.length_set]; omega)
    refine ⟨cells', ?_, ?_, ?_, ?_⟩
    · simp only [uninitialized_fill, hfirst, if_true]
      exact hf
    · rw [hl, List.length_set]
    · intro j hj
      rw [hlow j (by omega), List.getElem?_set_ne (by omega)]
    · intro i hi
      cases i with
      | zero =>
        rw [Nat.add_zero, hlow first (by omega)]
        exact List.getElem?_set_self hfirst
      | succ i =>
        rw [show first + (i + 1) = first + 1 + i by omega]
        exact hnew i (by omega)

theorem destroy_spec (count : Nat) :
    ∀ (cells : List (Option T)) (b : Nat),
      (∀ i, i < count → (cells.getD (b + i) none).isSome = true) →
      ∃ cells', destroy count cells b = some cells' ∧ cells'.length = cells.length ∧
        (∀ j, j < b → cells'[j]? = cells[j]?) := by
  induction count with
  | zero =>
    intro cells b _
    exact ⟨cells, rfl, rfl, fun _ _ => rfl⟩
  | succ n ih =>
    intro cells b hobj
    obtain ⟨x, hx⟩ := cell_object cells b (by simpa using hobj 0 (Nat.succ_pos n))
    have hobj' : ∀ i, i < n → ((cells.set b none).getD (b + 1 + i) none).isSome = true := by
      intro i hi
      have := hobj (i + 1) (by omega)
      rw [List.getD_eq_getElem?_getD] at this ⊢
      rw [List.getElem?_set_ne (by omega)]
      rwa [show b + 1 + i = b + (i + 1) by omega]
    obtain ⟨cells', hd, hl, hlow⟩ := ih (cells.set b none) (b + 1) hobj'
    refine ⟨cells', ?_, ?_, ?_⟩
    · simp only [destroy, hx]
      exact hd
    · rw [hl, List.length_set]
    · intro j hj
      rw [hlow j (by omega), List.getElem?_set_ne (by omega)]

theorem resize_spec (v : vector T) (n : Nat) (val : T) (hwf : wf v) :
    ∃ v', resize v n val = .ok v' ∧ wf v' ∧ size v' = n ∧ capacity v' = n ∧
      (∀ i, i < size v → i < n → v'.vb.elem[i]? = v.vb.elem[i]?) ∧
      (∀ i, size v ≤ i → i < n → v'.vb.elem[i]? = some (some val)) := by
  obtain ⟨v1, hr, hwf1, hcap1, hsz1, hel1, hlen1, _⟩ := reserve_spec v n hwf
  have hn1 : n ≤ capacity v1 := by rw [hcap1]; exact Nat.le_max_right _ _
  have hobj : ∀ i, i < size v → ∃ x, v.vb.elem[i]? = some (some x) :=
    fun i hi => cell_object _ i (hwf.2.2 i hi)
  by_cases hgrow : size v1 < n
  · obtain ⟨cells, hf, hl, hlow, hnew⟩ :=
      uninitialized_fill_spec (n - size v1) v1.vb.elem (size v1) val (by omega)
    have hcell : ∀ i, i < n → ∃ x, cells[i]? = some (some x) := by
      intro i hi
      by_cases hlt : i < size v1
      · obtain ⟨x, hx⟩ := hobj i (by omega)
        exact ⟨x, by rw [hlow i hlt, hel1 i (by omega), hx]⟩
      · have := hnew (i - size v1) (by omega)
        rw [show size v1 + (i - size v1) = i by omega] at this
        exact ⟨val, this⟩
    refine ⟨{ vb := { elem := cells, space := n, last := n } }, ?_, ?_, rfl, rfl, ?_, ?_⟩
    · unfold resize
      rw [hr]
      simp only [bind, Except.bind, hgrow, if_true, hf]
    · refine ⟨le_refl n, ?_, ?_⟩
      · show n ≤ cells.length
        rw [hl]; omega
      · intro i hi
        obtain ⟨x, hx⟩ := hcell i hi
        exact object_cell cells i x hx
    · intro i hi _
      show cells[i]? = v.vb.elem[i]?
      rw [hlow i (by omega), hel1 i hi]
    · intro i hi hin
      show cells[i]? = some (some val)
      have := hnew (i - size v1) (by omega)
      rwa [show size v1 + (i - size v1) = i by omega] at this
  · obtain ⟨cells, hd, hl, hlow⟩ :=
      destroy_spec (size v1 - n) v1.vb.elem n (by
        intro i hi
        exact hwf1.2.2 (n + i) (by
          show n + i < size v1
          omega))
    refine ⟨{ vb := { elem := cells, space := n, last := n } }, ?_, ?_, rfl, rfl, ?_, ?_⟩
    · unfold resize
      rw [hr]
      simp only [bind, Except.bind, hgrow, if_false, hd]
    · refine ⟨le_refl n, ?_, ?_⟩
      · show n ≤ cells.length
        rw [hl]; omega
      · intro i hi
        have hi' : i < n := hi
        obtain ⟨x, hx⟩ := hobj i (by omega)
        exact object_cell cells i x (by rw [hlow i hi', hel1 i (by omega), hx])
    · intro i hi hin
      show cells[i]? = v.vb.elem[i]?
      rw [hlow i hin, hel1 i hi]
    · intro i hi hin
      omega

/-- C21: for every vector `v` (satisfying the class invariant) and every `n`,
`resize(n)` returns normally and afterwards both `size()` and `capacity()`
equal `n`, also when `n` is smaller than the old capacity (the elements below
both the old size and `n` are unchanged, the new ones hold `val`);
consequently a successful `pop_back()` on a vector of size `s` leaves
`capacity() == s - 1`, which is less than the capacity before, although
`reserve` never decreases the capacity. -/
theorem C21_resize_sets_capacity [Inhabited T] (v : vector T) (n : Nat) (val : T)
    (hwf : wf v) :
    (∃ v', resize v n val = .ok v' ∧ size v' = n ∧ capacity v' = n ∧
      (n < capacity v → capacity v' < capacity v) ∧
      (∀ i, i < size v → i < n → at_pos v' i = at_pos v i) ∧
      (∀ i, size v ≤ i → i < n → at_pos v' i = .ok val) ∧ wf v') ∧
    (size v ≠ 0 →
      ∃ v', pop_back v = .ok v' ∧ size v' = size v - 1 ∧ capacity v' = size v - 1 ∧
        capacity v' < capacity v) ∧
    (∃ v', reserve v n = .ok v' ∧ capacity v ≤ capacity v') := by
  refine ⟨?_, ?_, ?_⟩
  · obtain ⟨v', hr, hwf', hsz, hcap, hold, hnew⟩ := resize_spec v n val hwf
    refine ⟨v', hr, hsz, hcap, fun h => by rw [hcap]; exact h, ?_, ?_, hwf'⟩
    · intro i hi hin
      exact at_pos_same v v' i hwf hi (by rw [hsz]; exact hin) (hold i hi hin)
    · intro i hi hin
      exact at_pos_ok v' i val (by rw [hsz]; exact hin) (hnew i hi hin)
  · intro hne
    refine ⟨_, pop_back_spec v hwf hne, rfl, rfl, ?_⟩
    have hle : size v ≤ capacity v := hwf.1
    show size v - 1 < capacity v
    omega
  · obtain ⟨v', hr, _, hcap, _, _, _, _⟩ := reserve_spec v n hwf
    exact ⟨v', hr, by rw [hcap]; exact Nat.le_max_left _ _⟩

theorem C21_resize_sets_capacity_witness :
    wf (spare_pair (7 : Int) 9) ∧ size (spare_pair (7 : Int) 9) = 2 ∧
    capacity (spare_pair (7 : Int) 9) = 4 ∧
    (∃ v', resize (spare_pair (7 : Int) 9) 3 5 = .ok v' ∧ size v' = 3 ∧ capacity v' = 3 ∧
      at_pos v' 2 = .ok 5) ∧
    (∃ v', pop_back (spare_pair (7 : Int) 9) = .ok v' ∧ size v' = 1 ∧ capacity v' = 1) := by
  have hwf : wf (spare_pair (7 : Int) 9) := by
    refine ⟨by decide, by decide, ?_⟩
    intro i hi
    have : i = 0 ∨ i = 1 := by
      have : i < 2 := hi
      omega
    rcases this with h | h <;> subst h <;> rfl
  obtain ⟨⟨v', hr, hsz, hcap, _, _, hnew, _⟩, hpop, _⟩ :=
    C21_resize_sets_capacity (spare_pair (7 : Int) 9) 3 5 hwf
  obtain ⟨w, hp, hwsz, hwcap, _⟩ := hpop (by decide)
  exact ⟨hwf, rfl, rfl, ⟨v', hr, hsz, hcap, hnew 2 (by decide) (by decide)⟩,
    ⟨w, hp, hwsz, hwcap⟩⟩

end Vec

/-! ## Theorems about the desk calculator -/

namespace Calc

variable {N : Type}

end Calc
